import Mathlib

set_option maxHeartbeats 1000000

/-!
Verification of the jsonflag library: a shallow embedding of its reflective
traversal and per-kind value-binding engine, together with proofs of the
specified properties.  Go values are modelled as trees (`GoVal`), Go types as
`GoType`; machine integers are `Int`/`Nat` with explicit range checks where
the code checks them; fallible operations return `Option`/`Except`.
-/

namespace Jsonflag

/-- Go type kinds, as distinguished by `reflect.Kind` in the dispatch code
(`newValue` / `newSliceValue`).  `unsupported` stands for every kind the
library does not handle (chan, func, interface, array, ...). -/
inductive GoType : Type where
  | bool | int | int8 | int16 | int32 | int64
  | uint | uint8 | uint16 | uint32 | uint64
  | float32 | float64 | complex64 | complex128
  | str
  | slice (elem : GoType)
  | gomap (key value : GoType)
  | ptr (elem : GoType)
  | strukt (fields : List (String × Bool × GoType))
  | unsupported

/-- A struct field descriptor: name, exported flag, declared type
(a model of `reflect.StructField`; tags are not needed by the claims). -/
abbrev GoField := String × Bool × GoType

def fieldName (f : GoField) : String := f.1
def fieldExported (f : GoField) : Bool := f.2.1
def fieldTy (f : GoField) : GoType := f.2.2

/-- Runtime Go values.  Signed integers of every width share `intv` (the
width lives in the type); float/complex payloads are opaque bit patterns
because no claim computes with them.  `isNil` distinguishes Go's nil
slice/map from the empty one (`Len` treats both as 0). -/
inductive GoVal : Type where
  | boolv (b : Bool)
  | intv (v : Int)
  | uintv (v : Nat)
  | floatv (bits : Nat)
  | complexv (bits : Nat)
  | strv (s : String)
  | slicev (elemTy : GoType) (isNil : Bool) (elems : List GoVal)
  | mapv (isNil : Bool) (entries : List (GoVal × GoVal))
  | ptrv (elemTy : GoType) (v : Option GoVal)
  | struktv (fields : List GoVal)
  | unsupportedv

mutual
/-- The zero value of a Go type (`reflect.Zero` / what `reflect.New`
allocates). -/
def zeroVal : GoType → GoVal
  | .bool => .boolv false
  | .int => .intv 0
  | .int8 => .intv 0
  | .int16 => .intv 0
  | .int32 => .intv 0
  | .int64 => .intv 0
  | .uint => .uintv 0
  | .uint8 => .uintv 0
  | .uint16 => .uintv 0
  | .uint32 => .uintv 0
  | .uint64 => .uintv 0
  | .float32 => .floatv 0
  | .float64 => .floatv 0
  | .complex64 => .complexv 0
  | .complex128 => .complexv 0
  | .str => .strv ""
  | .slice e => .slicev e true []
  | .gomap _ _ => .mapv true []
  | .ptr e => .ptrv e none
  | .strukt fs => .struktv (zeroFields fs)
  | .unsupported => .unsupportedv

def zeroFields : List (String × Bool × GoType) → List GoVal
  | [] => []
  | f :: fs => zeroVal f.2.2 :: zeroFields fs
end

/-- mirror of `elemIfPtr`: dereference a pointer value, giving the zero
value of the pointee type when the pointer is nil (`reflect.Zero`). -/
def elemIfPtr : GoVal → GoVal
  | .ptrv t none => zeroVal t
  | .ptrv _ (some x) => x
  | v => v

/-- mirror of `elemIfPtrType`. -/
def elemIfPtrType : GoType → GoType
  | .ptr e => e
  | t => t

/-- The focus type the library recomputes at each node:
`t := base.Type(); if len(fields) > 0 { t = fields[len(fields)-1].Type }`. -/
def focusType (baseType : GoType) (fields : List GoField) : GoType :=
  match fields.getLast? with
  | none => baseType
  | some f => fieldTy f

/-! ## Binding nodes (`Value`) and kind dispatch -/

/-- Which string/set function pair a node was constructed with (the
`stringFn`/`setFn` closures chosen by the `newXValue` constructor). -/
inductive CodecKind : Type where
  | bool | int | int8 | int16 | int32 | int64
  | uint | uint8 | uint16 | uint32 | uint64
  | float32 | float64 | complex64 | complex128
  | str | bytes | gomap | strukt
  | boolSlice | intSlice | int8Slice | int16Slice | int32Slice | int64Slice
  | uintSlice | uint8Slice | uint16Slice | uint32Slice | uint64Slice
  | float32Slice | float64Slice | complex64Slice | complex128Slice
  | strSlice | bytesSlice | sliceSlice | mapSlice | structSlice
  deriving DecidableEq

/-- The `Value` struct.  `baseType` is the type of the root `reflect.Value`
held in the Go field `base`; the root value itself is passed to the
operations explicitly (state-passing).  `kind` stands for the
`stringFn`/`setFn` function pointers; the optional `encodeFn`/`decodeFn`
override slots are nil on every constructed node and no claim installs
them, so they are not modelled. -/
structure Value : Type where
  baseType : GoType
  fieldsIndexes : List Nat
  fields : List GoField
  typeName : String
  kind : CodecKind
  isBool : Bool

def Value.typ (val : Value) : GoType :=
  match val.fields.getLast? with
  | none => val.baseType
  | some f => fieldTy f

def newBoolValue (baseType : GoType) (fieldsIndexes : List Nat) (fields : List GoField) : Value :=
  { baseType, fieldsIndexes, fields, typeName := "bool", kind := .bool, isBool := false }

def newIntValue (baseType : GoType) (fieldsIndexes : List Nat) (fields : List GoField) : Value :=
  { baseType, fieldsIndexes, fields, typeName := "int", kind := .int, isBool := false }

def newInt8Value (baseType : GoType) (fieldsIndexes : List Nat) (fields : List GoField) : Value :=
  { baseType, fieldsIndexes, fields, typeName := "int8", kind := .int8, isBool := false }

def newInt16Value (baseType : GoType) (fieldsIndexes : List Nat) (fields : List GoField) : Value :=
  { baseType, fieldsIndexes, fields, typeName := "int16", kind := .int16, isBool := false }

def newInt32Value (baseType : GoType) (fieldsIndexes : List Nat) (fields : List GoField) : Value :=
  { baseType, fieldsIndexes, fields, typeName := "int32", kind := .int32, isBool := false }

def newInt64Value (baseType : GoType) (fieldsIndexes : List Nat) (fields : List GoField) : Value :=
  { baseType, fieldsIndexes, fields, typeName := "int64", kind := .int64, isBool := false }

def newUintValue (baseType : GoType) (fieldsIndexes : List Nat) (fields : List GoField) : Value :=
  { baseType, fieldsIndexes, fields, typeName := "uint", kind := .uint, isBool := false }

def newUint8Value (baseType : GoType) (fieldsIndexes : List Nat) (fields : List GoField) : Value :=
  { baseType, fieldsIndexes, fields, typeName := "uint8", kind := .uint8, isBool := false }

def newUint16Value (baseType : GoType) (fieldsIndexes : List Nat) (fields : List GoField) : Value :=
  { baseType, fieldsIndexes, fields, typeName := "uint16", kind := .uint16, isBool := false }

def newUint32Value (baseType : GoType) (fieldsIndexes : List Nat) (fields : List GoField) : Value :=
  { baseType, fieldsIndexes, fields, typeName := "uint32", kind := .uint32, isBool := false }

def newUint64Value (baseType : GoType) (fieldsIndexes : List Nat) (fields : List GoField) : Value :=
  { baseType, fieldsIndexes, fields, typeName := "uint64", kind := .uint64, isBool := false }

def newFloat32Value (baseType : GoType) (fieldsIndexes : List Nat) (fields : List GoField) : Value :=
  { baseType, fieldsIndexes, fields, typeName := "float32", kind := .float32, isBool := false }

def newFloat64Value (baseType : GoType) (fieldsIndexes : List Nat) (fields : List GoField) : Value :=
  { baseType, fieldsIndexes, fields, typeName := "float64", kind := .float64, isBool := false }

def newComplex64Value (baseType : GoType) (fieldsIndexes : List Nat) (fields : List GoField) : Value :=
  { baseType, fieldsIndexes, fields, typeName := "complex64", kind := .complex64, isBool := false }

def newComplex128Value (baseType : GoType) (fieldsIndexes : List Nat) (fields : List GoField) : Value :=
  { baseType, fieldsIndexes, fields, typeName := "complex128", kind := .complex128, isBool := false }

def newStringValue (baseType : GoType) (fieldsIndexes : List Nat) (fields : List GoField) : Value :=
  { baseType, fieldsIndexes, fields, typeName := "string", kind := .str, isBool := false }

def newBytesValue (baseType : GoType) (fieldsIndexes : List Nat) (fields : List GoField) : Value :=
  { baseType, fieldsIndexes, fields, typeName := "base64", kind := .bytes, isBool := false }

def newMapValue (baseType : GoType) (fieldsIndexes : List Nat) (fields : List GoField) : Value :=
  { baseType, fieldsIndexes, fields, typeName := "JSON object", kind := .gomap, isBool := false }

def newStructValue (baseType : GoType) (fieldsIndexes : List Nat) (fields : List GoField) : Value :=
  { baseType, fieldsIndexes, fields, typeName := "JSON object", kind := .strukt, isBool := false }

/-- `newBoolSliceValue` is the ONE constructor in the source that sets
`isBool: true`. -/
def newBoolSliceValue (baseType : GoType) (fieldsIndexes : List Nat) (fields : List GoField) : Value :=
  { baseType, fieldsIndexes, fields, typeName := "bool (JSON list)", kind := .boolSlice, isBool := true }

def newIntSliceValue (baseType : GoType) (fieldsIndexes : List Nat) (fields : List GoField) : Value :=
  { baseType, fieldsIndexes, fields, typeName := "int (JSON list)", kind := .intSlice, isBool := false }

def newInt8SliceValue (baseType : GoType) (fieldsIndexes : List Nat) (fields : List GoField) : Value :=
  { baseType, fieldsIndexes, fields, typeName := "int8 (JSON list)", kind := .int8Slice, isBool := false }

def newInt16SliceValue (baseType : GoType) (fieldsIndexes : List Nat) (fields : List GoField) : Value :=
  { baseType, fieldsIndexes, fields, typeName := "int16 (JSON list)", kind := .int16Slice, isBool := false }

def newInt32SliceValue (baseType : GoType) (fieldsIndexes : List Nat) (fields : List GoField) : Value :=
  { baseType, fieldsIndexes, fields, typeName := "int32 (JSON list)", kind := .int32Slice, isBool := false }

def newInt64SliceValue (baseType : GoType) (fieldsIndexes : List Nat) (fields : List GoField) : Value :=
  { baseType, fieldsIndexes, fields, typeName := "int64 (JSON list)", kind := .int64Slice, isBool := false }

def newUintSliceValue (baseType : GoType) (fieldsIndexes : List Nat) (fields : List GoField) : Value :=
  { baseType, fieldsIndexes, fields, typeName := "uint (JSON list)", kind := .uintSlice, isBool := false }

def newUint8SliceValue (baseType : GoType) (fieldsIndexes : List Nat) (fields : List GoField) : Value :=
  { baseType, fieldsIndexes, fields, typeName := "uint8 (JSON list)", kind := .uint8Slice, isBool := false }

def newUint16SliceValue (baseType : GoType) (fieldsIndexes : List Nat) (fields : List GoField) : Value :=
  { baseType, fieldsIndexes, fields, typeName := "uint16 (JSON list)", kind := .uint16Slice, isBool := false }

def newUint32SliceValue (baseType : GoType) (fieldsIndexes : List Nat) (fields : List GoField) : Value :=
  { baseType, fieldsIndexes, fields, typeName := "uint32 (JSON list)", kind := .uint32Slice, isBool := false }

def newUint64SliceValue (baseType : GoType) (fieldsIndexes : List Nat) (fields : List GoField) : Value :=
  { baseType, fieldsIndexes, fields, typeName := "uint64 (JSON list)", kind := .uint64Slice, isBool := false }

def newFloat32SliceValue (baseType : GoType) (fieldsIndexes : List Nat) (fields : List GoField) : Value :=
  { baseType, fieldsIndexes, fields, typeName := "float32 (JSON list)", kind := .float32Slice, isBool := false }

def newFloat64SliceValue (baseType : GoType) (fieldsIndexes : List Nat) (fields : List GoField) : Value :=
  { baseType, fieldsIndexes, fields, typeName := "float64 (JSON list)", kind := .float64Slice, isBool := false }

def newComplex64SliceValue (baseType : GoType) (fieldsIndexes : List Nat) (fields : List GoField) : Value :=
  { baseType, fieldsIndexes, fields, typeName := "complex64 (JSON list)", kind := .complex64Slice, isBool := false }

def newComplex128SliceValue (baseType : GoType) (fieldsIndexes : List Nat) (fields : List GoField) : Value :=
  { baseType, fieldsIndexes, fields, typeName := "complex128 (JSON list)", kind := .complex128Slice, isBool := false }

def newStringSliceValue (baseType : GoType) (fieldsIndexes : List Nat) (fields : List GoField) : Value :=
  { baseType, fieldsIndexes, fields, typeName := "string (JSON list)", kind := .strSlice, isBool := false }

def newBytesSliceValue (baseType : GoType) (fieldsIndexes : List Nat) (fields : List GoField) : Value :=
  { baseType, fieldsIndexes, fields, typeName := "base64 (JSON list)", kind := .bytesSlice, isBool := false }

def newSliceSliceValue (baseType : GoType) (fieldsIndexes : List Nat) (fields : List GoField) : Value :=
  { baseType, fieldsIndexes, fields, typeName := "JSON list", kind := .sliceSlice, isBool := false }

def newMapSliceValue (baseType : GoType) (fieldsIndexes : List Nat) (fields : List GoField) : Value :=
  { baseType, fieldsIndexes, fields, typeName := "JSON object (JSON list)", kind := .mapSlice, isBool := false }

def newStructSliceValue (baseType : GoType) (fieldsIndexes : List Nat) (fields : List GoField) : Value :=
  { baseType, fieldsIndexes, fields, typeName := "JSON object (JSON list)", kind := .structSlice, isBool := false }

/-- mirror of `newSliceValue`: `typ` is the (pointer-unwrapped) slice type;
the element type is unwrapped one pointer level, with the two byte-slice
special cases checked on the raw (not pointer-unwrapped) element type. -/
def newSliceValue (typ : GoType) (baseType : GoType) (fieldsIndexes : List Nat)
    (fields : List GoField) : Option Value :=
  match typ with
  | .slice rawElem =>
    match elemIfPtrType rawElem with
    | .bool => some (newBoolSliceValue baseType fieldsIndexes fields)
    | .int => some (newIntSliceValue baseType fieldsIndexes fields)
    | .int8 => some (newInt8SliceValue baseType fieldsIndexes fields)
    | .int16 => some (newInt16SliceValue baseType fieldsIndexes fields)
    | .int32 => some (newInt32SliceValue baseType fieldsIndexes fields)
    | .int64 => some (newInt64SliceValue baseType fieldsIndexes fields)
    | .uint => some (newUintSliceValue baseType fieldsIndexes fields)
    | .uint8 =>
      -- if typ.Elem().Kind() == reflect.Uint8 { // slice of bytes
      match rawElem with
      | .uint8 => some (newBytesValue baseType fieldsIndexes fields)
      | _ => some (newUint8SliceValue baseType fieldsIndexes fields)
    | .uint16 => some (newUint16SliceValue baseType fieldsIndexes fields)
    | .uint32 => some (newUint32SliceValue baseType fieldsIndexes fields)
    | .uint64 => some (newUint64SliceValue baseType fieldsIndexes fields)
    | .float32 => some (newFloat32SliceValue baseType fieldsIndexes fields)
    | .float64 => some (newFloat64SliceValue baseType fieldsIndexes fields)
    | .complex64 => some (newComplex64SliceValue baseType fieldsIndexes fields)
    | .complex128 => some (newComplex128SliceValue baseType fieldsIndexes fields)
    | .str => some (newStringSliceValue baseType fieldsIndexes fields)
    | .slice e2 =>
      -- if t.Elem().Kind() == reflect.Uint8 { // slice of slices of bytes
      match e2 with
      | .uint8 => some (newBytesSliceValue baseType fieldsIndexes fields)
      | _ => some (newSliceSliceValue baseType fieldsIndexes fields)
    | .gomap _ _ => some (newMapSliceValue baseType fieldsIndexes fields)
    | .strukt _ => some (newStructSliceValue baseType fieldsIndexes fields)
    | _ => none
  | _ => none

/-- mirror of `newValue`: compute the focus type from the base type and the
accumulated field path, unwrap one pointer level, dispatch on the kind. -/
def newValue (baseType : GoType) (fieldsIndexes : List Nat) (fields : List GoField) :
    Option Value :=
  let t := elemIfPtrType (focusType baseType fields)
  match t with
  | .bool => some (newBoolValue baseType fieldsIndexes fields)
  | .int => some (newIntValue baseType fieldsIndexes fields)
  | .int8 => some (newInt8Value baseType fieldsIndexes fields)
  | .int16 => some (newInt16Value baseType fieldsIndexes fields)
  | .int32 => some (newInt32Value baseType fieldsIndexes fields)
  | .int64 => some (newInt64Value baseType fieldsIndexes fields)
  | .uint => some (newUintValue baseType fieldsIndexes fields)
  | .uint8 => some (newUint8Value baseType fieldsIndexes fields)
  | .uint16 => some (newUint16Value baseType fieldsIndexes fields)
  | .uint32 => some (newUint32Value baseType fieldsIndexes fields)
  | .uint64 => some (newUint64Value baseType fieldsIndexes fields)
  | .float32 => some (newFloat32Value baseType fieldsIndexes fields)
  | .float64 => some (newFloat64Value baseType fieldsIndexes fields)
  | .complex64 => some (newComplex64Value baseType fieldsIndexes fields)
  | .complex128 => some (newComplex128Value baseType fieldsIndexes fields)
  | .str => some (newStringValue baseType fieldsIndexes fields)
  | .slice _ => newSliceValue t baseType fieldsIndexes fields
  | .gomap _ _ => some (newMapValue baseType fieldsIndexes fields)
  | .strukt _ => some (newStructValue baseType fieldsIndexes fields)
  | _ => none

/-- `Value.IsBoolFlag`: false for an uninitialized (nil / zero) node,
otherwise the `isBool` field. -/
def IsBoolFlag (val : Option Value) : Bool :=
  match val with
  | none => false
  | some v => v.isBool

/-! ## Filter chain -/

/-- `FilterResult` is a `uint32` bit field; only bitwise OR and the two
mask tests are applied to it, so `Nat` models it exactly. -/
abbrev FilterResult := Nat

def IncludeAndDescend : FilterResult := 0
def IncludeNoDescend : FilterResult := 1
def SkipAndDescend : FilterResult := 2
def SkipNoDescend : FilterResult := 3
def noDescendMask : FilterResult := 1
def skipMask : FilterResult := 2

abbrev FilterFunc := Value → FilterResult

/-- mirror of `Filter`: nil node yields `SkipNoDescend`; otherwise the
votes of all filters are OR-combined starting from 0. -/
def Filter (val : Option Value) (filters : List FilterFunc) : FilterResult :=
  match val with
  | none => SkipNoDescend
  | some v => filters.foldl (fun r cond => r ||| cond v) 0

/-! ## Navigation and in-place mutation (`fieldByIndex` and helpers)

Go's `reflect.Value` aliases into the caller's structure; mutation through
it is modelled by threading the whole root value and a path of steps
(`deref` through a pointer, `field i` into a struct) locating the focused
position inside it.  `readAt`/`writeAt` are the substrate standing for the
aliasing reads/writes of the reflection capability (an external collaborator
of the library). -/

inductive PStep : Type where
  | deref
  | field (i : Nat)

abbrev GoPath := List PStep

def readAt : GoVal → GoPath → Option GoVal
  | v, [] => some v
  | v, st :: p =>
    match st, v with
    | .deref, .ptrv _ (some x) => readAt x p
    | .field i, .struktv fs =>
      match fs.get? i with
      | some fv => readAt fv p
      | none => none
    | _, _ => none

def writeAt : GoVal → GoPath → GoVal → Option GoVal
  | _, [], w => some w
  | v, st :: p, w =>
    match st, v with
    | .deref, .ptrv t (some x) => (writeAt x p w).map (fun x' => .ptrv t (some x'))
    | .field i, .struktv fs =>
      match fs.get? i with
      | some fv => (writeAt fv p w).map (fun fv' => .struktv (fs.set i fv'))
      | none => none
    | _, _ => none

/-- mirror of `if v.Kind() == reflect.Pointer && v.IsNil() { v.Set(reflect.New(v.Type().Elem())) }`:
a nil pointer is replaced by a pointer to a freshly allocated zero value. -/
def allocPtr : GoVal → GoVal
  | .ptrv t none => .ptrv t (some (zeroVal t))
  | v => v

def isNilPtr : GoVal → Bool
  | .ptrv _ none => true
  | _ => false

/-- mirror of `fieldByIndex`: walk the field indexes, allocating through
every nil pointer met on the way (and at the focus itself), returning the
updated root together with the path of the focused position.  The source
panics when a non-struct is reached with indexes remaining; that is the
`none` case. -/
def fieldByIndex : GoVal → List Nat → Option (GoVal × GoPath)
  | v, [] => some (allocPtr v, [])
  | v, x :: rest =>
    match v with
    | .ptrv t w =>
      -- if v.Kind() == reflect.Pointer { if v.IsNil() { allocate }; v = v.Elem() }
      match (match w with | none => zeroVal t | some iv => iv) with
      | .struktv fs =>
        match fs.get? x with
        | some fv =>
          (fieldByIndex fv rest).map fun r =>
            (.ptrv t (some (.struktv (fs.set x r.1))), .deref :: .field x :: r.2)
        | none => none
      | _ => none
    | .struktv fs =>
      match fs.get? x with
      | some fv =>
        (fieldByIndex fv rest).map fun r =>
          (.struktv (fs.set x r.1), .field x :: r.2)
      | none => none
    | _ => none

/-- mirror of `reflectValueSet(dst, src)` where `dst` is the value at path
`p` of `root`.  `dst.CanSet()` is false exactly when `p = []`: the root is
a `reflect.ValueOf` result, every strictly deeper position is an
addressable field or pointee.  `addressable(src).Addr()` (a pointer to a
fresh copy of `src`) becomes `ptrv t (some src)` with `t` the static
element type of the destination pointer. -/
def reflectValueSetAt (root : GoVal) (p : GoPath) (src : GoVal) : Option GoVal :=
  match readAt root p with
  | none => none
  | some dst =>
    -- if dst.Kind() == reflect.Pointer && !dst.CanSet() { dst = dst.Elem() }
    let step : Option (GoPath × GoVal) :=
      match p, dst with
      | [], .ptrv _ (some x) => some ([PStep.deref], x)
      | [], .ptrv _ none => none      -- Elem of nil then Set: panic
      | [], _ => none                 -- Set on a non-addressable root: panic
      | _, d => some (p, d)
    match step with
    | none => none
    | some (p', dst') =>
      match dst', src with
      | .ptrv _ _, .ptrv _ _ => writeAt root p' src
      | .ptrv t _, s => writeAt root p' (.ptrv t (some s))
      | _, .ptrv _ (some x) => writeAt root p' x
      | _, .ptrv _ none => none       -- Elem of a nil source: panic
      | _, s => writeAt root p' s

/-- mirror of `reflectValueAppend(slc, v)`: adjust the element's pointer
level to the slice's element type, then append (`reflect.Append` yields a
non-nil slice). -/
def reflectValueAppend (slc v : GoVal) : Option GoVal :=
  match elemIfPtr slc with
  | .slicev elemTy _ elems =>
    match elemTy, v with
    | .ptr _, .ptrv _ _ => some (.slicev elemTy false (elems ++ [v]))
    | .ptr et, s => some (.slicev elemTy false (elems ++ [.ptrv et (some s)]))
    | _, .ptrv _ (some x) => some (.slicev elemTy false (elems ++ [x]))
    | _, .ptrv _ none => none         -- appending Elem of a nil pointer: panic
    | _, s => some (.slicev elemTy false (elems ++ [s]))
  | _ => none

/-! ## `strconv` embedding

`parse.go` wraps `strconv.ParseInt`/`ParseUint` with base 0 (base-prefix
aware) at the declared bit width; the renderers use `FormatInt`/`FormatUint`
base 10, `FormatBool` and `ParseBool`.  These standard-library routines are
embedded faithfully for the call patterns the repository uses (base 0;
`bitSize` 0 means the platform word size, taken to be 64). -/

inductive StrconvErr : Type where
  | errSyntax
  | errRange
  deriving DecidableEq

/-- Go's `lower(c) = c | ('x' - 'X')`. -/
def lowerC (c : Char) : Char := Char.ofNat (c.toNat ||| 0x20)

/-- Digit value of a character in the `ParseUint` loop (before the
`d >= base` check). -/
def digitVal (c : Char) : Option Nat :=
  if '0' ≤ c ∧ c ≤ '9' then some (c.toNat - '0'.toNat)
  else if 'a' ≤ lowerC c ∧ lowerC c ≤ 'z' then some ((lowerC c).toNat - 'a'.toNat + 10)
  else none

/-- The digit-accumulation loop of `ParseUint`.  In Go the overflow test is
the pair `n >= cutoff` (the multiply would overflow `uint64`) and
`n1 < n || n1 > maxVal`; over exact naturals the wrapped comparison
`n1 < n` is equivalent to `n1 > 2^64 - 1`, which is subsumed by
`n1 > maxVal` since `maxVal ≤ 2^64 - 1`.  Underscores are skipped here
(base 0 call pattern) and validated afterwards. -/
def parseUintDigits (base cutoff maxVal : Nat) : List Char → Nat → Except StrconvErr Nat
  | [], n => .ok n
  | c :: cs, n =>
    if c = '_' then parseUintDigits base cutoff maxVal cs n
    else
      match digitVal c with
      | none => .error .errSyntax
      | some d =>
        if d ≥ base then .error .errSyntax
        else if n ≥ cutoff then .error .errRange
        else
          let n1 := n * base + d
          if n1 > maxVal then .error .errRange
          else parseUintDigits base cutoff maxVal cs n1

/-- State loop of Go's `underscoreOK`; `saw` is one of `'^'` (start),
`'0'` (digit), `'_'` (underscore), `'!'` (other). -/
def underscoreOKLoop (hex : Bool) : List Char → Char → Bool
  | [], saw => saw ≠ '_'
  | c :: cs, saw =>
    if ('0' ≤ c ∧ c ≤ '9') ∨ (hex ∧ 'a' ≤ lowerC c ∧ lowerC c ≤ 'f') then
      underscoreOKLoop hex cs '0'
    else if c = '_' then
      if saw ≠ '0' then false else underscoreOKLoop hex cs '_'
    else if saw = '_' then false
    else underscoreOKLoop hex cs '!'

/-- mirror of `strconv`'s `underscoreOK`: underscores may separate
digits (and may follow a base prefix). -/
def underscoreOK (s : List Char) : Bool :=
  let s1 := match s with
    | c :: rest => if c = '-' ∨ c = '+' then rest else s
    | [] => s
  match s1 with
  | '0' :: c :: rest =>
    if lowerC c = 'b' ∨ lowerC c = 'o' ∨ lowerC c = 'x' then
      underscoreOKLoop (lowerC c = 'x') rest '0'
    else underscoreOKLoop false s1 '^'
  | _ => underscoreOKLoop false s1 '^'

/-- mirror of `strconv.ParseUint(s, 0, bitSize)`: base inference from the
`0b`/`0o`/`0x`/leading-`0` prefix, digit accumulation with range checks,
then underscore validation. -/
def parseUintBase0 (bitSize : Nat) (s : List Char) : Except StrconvErr Nat :=
  match s with
  | [] => .error .errSyntax
  | _ =>
    let s0 := s
    let p : Nat × List Char :=
      match s with
      | '0' :: rest =>
        match rest with
        | c :: rest2 =>
          -- the 0b / 0o / 0x cases require len(s) >= 3
          if lowerC c = 'b' ∧ rest2 ≠ [] then (2, rest2)
          else if lowerC c = 'o' ∧ rest2 ≠ [] then (8, rest2)
          else if lowerC c = 'x' ∧ rest2 ≠ [] then (16, rest2)
          else (8, c :: rest2)
        | [] => (8, [])
      | _ => (10, s)
    let base := p.1
    let s' := p.2
    let bs := if bitSize = 0 then 64 else bitSize
    let cutoff := (2 ^ 64 - 1) / base + 1
    let maxVal := 2 ^ bs - 1
    match parseUintDigits base cutoff maxVal s' 0 with
    | .error e => .error e
    | .ok n =>
      if s'.contains '_' ∧ ¬ underscoreOK s0 then .error .errSyntax else .ok n

/-- mirror of `strconv.ParseInt(s, 0, bitSize)`: strip the sign, parse the
magnitude as a 64-bit unsigned number, then check the signed cutoff.  A
range error from the unsigned parse leaves the magnitude clipped to
`2^64 - 1`, which always exceeds the signed cutoff, so it surfaces as a
range error here too. -/
def parseIntBase0 (bitSize : Nat) (s : List Char) : Except StrconvErr Int :=
  match s with
  | [] => .error .errSyntax
  | _ =>
    let q : Bool × List Char :=
      match s with
      | '+' :: rest => (false, rest)
      | '-' :: rest => (true, rest)
      | _ => (false, s)
    let neg := q.1
    let s1 := q.2
    match parseUintBase0 64 s1 with
    | .error .errSyntax => .error .errSyntax
    | .error .errRange => .error .errRange
    | .ok un =>
      let bs := if bitSize = 0 then 64 else bitSize
      let cutoff := 2 ^ (bs - 1)
      if ¬ neg ∧ un ≥ cutoff then .error .errRange
      else if neg ∧ un > cutoff then .error .errRange
      else .ok (if neg then -(un : Int) else (un : Int))

/-- mirror of `strconv.ParseBool`. -/
def parseBool (s : String) : Except StrconvErr Bool :=
  if s = "1" ∨ s = "t" ∨ s = "T" ∨ s = "true" ∨ s = "TRUE" ∨ s = "True" then .ok true
  else if s = "0" ∨ s = "f" ∨ s = "F" ∨ s = "false" ∨ s = "FALSE" ∨ s = "False" then .ok false
  else .error .errSyntax

/-- mirror of `strconv.FormatBool`. -/
def formatBool (b : Bool) : String := if b then "true" else "false"

/-- Decimal digits of a natural number, most significant first (the
base-10 case of `strconv`'s `formatBits`).  The loop is bounded by a
structural counter: `n` itself always suffices, since the argument
shrinks by a factor of ten at every step. -/
def formatUintDigitsAux : Nat → Nat → List Char
  | 0, n => [Char.ofNat ('0'.toNat + n % 10)]
  | fuel + 1, n =>
    if n < 10 then [Char.ofNat ('0'.toNat + n)]
    else formatUintDigitsAux fuel (n / 10) ++ [Char.ofNat ('0'.toNat + n % 10)]

def formatUintDigits (n : Nat) : List Char := formatUintDigitsAux n n

/-- mirror of `strconv.FormatUint(n, 10)`. -/
def formatUint (n : Nat) : String := ⟨formatUintDigits n⟩

/-- mirror of `strconv.FormatInt(v, 10)`. -/
def formatInt (v : Int) : String :=
  if v < 0 then "-" ++ formatUint (-v).toNat else formatUint v.toNat

/-! The `parse.go` wrappers (`bitSize` 0 is the platform `int`/`uint`
width, 64). -/

def parseInt (s : String) : Except StrconvErr Int := parseIntBase0 0 s.data
def parseInt8 (s : String) : Except StrconvErr Int := parseIntBase0 8 s.data
def parseInt16 (s : String) : Except StrconvErr Int := parseIntBase0 16 s.data
def parseInt32 (s : String) : Except StrconvErr Int := parseIntBase0 32 s.data
def parseInt64 (s : String) : Except StrconvErr Int := parseIntBase0 64 s.data
def parseUint (s : String) : Except StrconvErr Nat := parseUintBase0 0 s.data
def parseUint8 (s : String) : Except StrconvErr Nat := parseUintBase0 8 s.data
def parseUint16 (s : String) : Except StrconvErr Nat := parseUintBase0 16 s.data
def parseUint32 (s : String) : Except StrconvErr Nat := parseUintBase0 32 s.data
def parseUint64 (s : String) : Except StrconvErr Nat := parseUintBase0 64 s.data

/-! ## Standard base64 (`encoding/base64`, `StdEncoding`)

Bytes are naturals below 256.  Encoding groups three bytes into four
alphabet characters with `=` padding; decoding consumes four-character
quanta, accepting `=` only as final padding (Go additionally skips CR/LF
characters inside the input; none of the claims feeds it any). -/

def b64Alphabet : List Char :=
  "ABCDEFGHIJKLMNOPQRSTUVWXYZabcdefghijklmnopqrstuvwxyz0123456789+/".data

def b64Char (i : Nat) : Char := b64Alphabet.getD i 'A'

def b64Index (c : Char) : Option Nat :=
  if c ∈ b64Alphabet then some (b64Alphabet.indexOf c) else none

def base64Encode : List Nat → List Char
  | [] => []
  | [b0] => [b64Char (b0 / 4), b64Char (b0 % 4 * 16), '=', '=']
  | [b0, b1] => [b64Char (b0 / 4), b64Char (b0 % 4 * 16 + b1 / 16), b64Char (b1 % 16 * 4), '=']
  | b0 :: b1 :: b2 :: rest =>
    b64Char (b0 / 4) :: b64Char (b0 % 4 * 16 + b1 / 16) ::
      b64Char (b1 % 16 * 4 + b2 / 64) :: b64Char (b2 % 64) :: base64Encode rest

def base64Decode : List Char → Option (List Nat)
  | [] => some []
  | c0 :: c1 :: c2 :: c3 :: rest =>
    match b64Index c0, b64Index c1 with
    | some d0, some d1 =>
      if c2 = '=' then
        if c3 = '=' ∧ rest = [] then some [d0 * 4 + d1 / 16] else none
      else
        match b64Index c2 with
        | some d2 =>
          if c3 = '=' then
            if rest = [] then some [d0 * 4 + d1 / 16, d1 % 16 * 16 + d2 / 4] else none
          else
            match b64Index c3 with
            | some d3 =>
              (base64Decode rest).map
                (fun bs => (d0 * 4 + d1 / 16) :: (d1 % 16 * 16 + d2 / 4) :: (d2 % 4 * 64 + d3) :: bs)
            | none => none
        | none => none
    | _, _ => none
  | _ => none

def base64EncodeToString (bs : List Nat) : String := ⟨base64Encode bs⟩

def base64DecodeString (s : String) : Option (List Nat) := base64Decode s.data

/-! ## Per-kind codecs

Set functions return `Option (Except GoErr GoVal)`: the outer `none` is a
reflection panic (ill-typed node, never reached by a node the library
builds), `.error` is the error value `Set` returns with the root left
untouched, `.ok` carries the mutated root.  String functions return
`Option String` (outer `none` again the panic case).  The generic JSON
codec is an external collaborator: `marshal` maps a value to its JSON
text (`none` = marshal error) and `unmarshal t toStr` is the result of
decoding `to` into a freshly created zero/empty value of type `t`
(`none` = decode error). -/

inductive GoErr : Type where
  | parseErr (e : StrconvErr)
  | corruptBase64
  | jsonUnmarshalErr
  deriving DecidableEq

abbrev JSONMarshal := GoVal → Option String
abbrev JSONUnmarshal := GoType → String → Option GoVal

/-- `strconv`'s floating-point routines are a further external
collaborator of the codecs, abstracted the same way as the JSON codec:
IEEE arithmetic is outside this embedding, and float/complex payloads are
the opaque bit patterns `GoVal.floatv`/`GoVal.complexv` carry.
`formatFloat bitSize v` stands for `strconv.FormatFloat(v, 'g', -1,
bitSize)` and `parseFloat bitSize s` for `strconv.ParseFloat(s, bitSize)`
(similarly for complex); `isZeroF`/`isZeroC` stand for the `v == 0` tests
(IEEE equality, satisfied by both zero bit patterns). -/
structure FloatStrconv where
  formatFloat : Nat → Nat → String
  parseFloat : Nat → String → Except StrconvErr Nat
  formatComplex : Nat → Nat → String
  parseComplex : Nat → String → Except StrconvErr Nat
  isZeroF : Nat → Bool
  isZeroC : Nat → Bool

/-- A degenerate float collaborator used by closed examples (the theorems
quantify over every collaborator). -/
def trivialFloatStrconv : FloatStrconv :=
  ⟨fun _ _ => "", fun _ _ => .error .errSyntax, fun _ _ => "",
   fun _ _ => .error .errSyntax, fun _ => false, fun _ => false⟩

/-- `val.get()`. -/
def valGet (val : Value) (root : GoVal) : Option (GoVal × GoPath) :=
  fieldByIndex root val.fieldsIndexes

def boolValueString (val : Value) (root : GoVal) : Option String :=
  (valGet val root).bind fun r =>
  (readAt r.1 r.2).bind fun f =>
    match elemIfPtr f with
    | .boolv b => some (if b = false then "" else formatBool b)
    | _ => none

def boolValueSet (val : Value) (root : GoVal) (toStr : String) : Option (Except GoErr GoVal) :=
  match parseBool toStr with
  | .error e => some (.error (.parseErr e))
  | .ok v =>
    ((valGet val root).bind fun r =>
      reflectValueSetAt r.1 r.2 (.boolv v)).map .ok

/-- `intValueString` is shared by every signed width. -/
def intValueString (val : Value) (root : GoVal) : Option String :=
  (valGet val root).bind fun r =>
  (readAt r.1 r.2).bind fun f =>
    match elemIfPtr f with
    | .intv v => some (if v = 0 then "" else formatInt v)
    | _ => none

def intValueSetWith (parse : String → Except StrconvErr Int) (val : Value) (root : GoVal)
    (toStr : String) : Option (Except GoErr GoVal) :=
  match parse toStr with
  | .error e => some (.error (.parseErr e))
  | .ok v =>
    ((valGet val root).bind fun r =>
      reflectValueSetAt r.1 r.2 (.intv v)).map .ok

def intValueSet : Value → GoVal → String → Option (Except GoErr GoVal) := intValueSetWith parseInt
def int8ValueSet : Value → GoVal → String → Option (Except GoErr GoVal) := intValueSetWith parseInt8
def int16ValueSet : Value → GoVal → String → Option (Except GoErr GoVal) := intValueSetWith parseInt16
def int32ValueSet : Value → GoVal → String → Option (Except GoErr GoVal) := intValueSetWith parseInt32
def int64ValueSet : Value → GoVal → String → Option (Except GoErr GoVal) := intValueSetWith parseInt64

/-- `uintValueString` is shared by every unsigned width. -/
def uintValueString (val : Value) (root : GoVal) : Option String :=
  (valGet val root).bind fun r =>
  (readAt r.1 r.2).bind fun f =>
    match elemIfPtr f with
    | .uintv v => some (if v = 0 then "" else formatUint v)
    | _ => none

def uintValueSetWith (parse : String → Except StrconvErr Nat) (val : Value) (root : GoVal)
    (toStr : String) : Option (Except GoErr GoVal) :=
  match parse toStr with
  | .error e => some (.error (.parseErr e))
  | .ok v =>
    ((valGet val root).bind fun r =>
      reflectValueSetAt r.1 r.2 (.uintv v)).map .ok

def uintValueSet : Value → GoVal → String → Option (Except GoErr GoVal) := uintValueSetWith parseUint
def uint8ValueSet : Value → GoVal → String → Option (Except GoErr GoVal) := uintValueSetWith parseUint8
def uint16ValueSet : Value → GoVal → String → Option (Except GoErr GoVal) := uintValueSetWith parseUint16
def uint32ValueSet : Value → GoVal → String → Option (Except GoErr GoVal) := uintValueSetWith parseUint32
def uint64ValueSet : Value → GoVal → String → Option (Except GoErr GoVal) := uintValueSetWith parseUint64

def stringValueString (val : Value) (root : GoVal) : Option String :=
  (valGet val root).bind fun r =>
  (readAt r.1 r.2).bind fun f =>
    match elemIfPtr f with
    | .strv s => some s
    | _ => none

def stringValueSet (val : Value) (root : GoVal) (toStr : String) : Option (Except GoErr GoVal) :=
  ((valGet val root).bind fun r =>
    reflectValueSetAt r.1 r.2 (.strv toStr)).map .ok

/-- The `.([]byte)` type assertion. -/
def bytesOfElems : List GoVal → Option (List Nat)
  | [] => some []
  | .uintv b :: rest => (bytesOfElems rest).map (b :: ·)
  | _ => none

def bytesValueString (val : Value) (root : GoVal) : Option String :=
  (valGet val root).bind fun r =>
  (readAt r.1 r.2).bind fun f =>
    match elemIfPtr f with
    | .slicev _ _ elems =>
      (bytesOfElems elems).map fun bs =>
        if bs.length = 0 then "" else base64EncodeToString bs
    | _ => none

def bytesValueSet (val : Value) (root : GoVal) (toStr : String) : Option (Except GoErr GoVal) :=
  match base64DecodeString toStr with
  | none => some (.error .corruptBase64)
  | some bs =>
    ((valGet val root).bind fun r =>
      reflectValueSetAt r.1 r.2 (.slicev .uint8 false (bs.map .uintv))).map .ok

/-- Shared shape of `float32ValueString`/`float64ValueString`:
`v := elemIfPtr(val.get()).Float(); if v == 0 return "";
strconv.FormatFloat(v, 'g', -1, bitSize)`. -/
def floatValueStringWith (fc : FloatStrconv) (bitSize : Nat) (val : Value) (root : GoVal) :
    Option String :=
  (valGet val root).bind fun r =>
  (readAt r.1 r.2).bind fun f =>
    match elemIfPtr f with
    | .floatv v => some (if fc.isZeroF v then "" else fc.formatFloat bitSize v)
    | _ => none

def float32ValueString (fc : FloatStrconv) : Value → GoVal → Option String :=
  floatValueStringWith fc 32
def float64ValueString (fc : FloatStrconv) : Value → GoVal → Option String :=
  floatValueStringWith fc 64

def floatValueSetWith (parse : String → Except StrconvErr Nat) (val : Value) (root : GoVal)
    (toStr : String) : Option (Except GoErr GoVal) :=
  match parse toStr with
  | .error e => some (.error (.parseErr e))
  | .ok v =>
    ((valGet val root).bind fun r =>
      reflectValueSetAt r.1 r.2 (.floatv v)).map .ok

def float32ValueSet (fc : FloatStrconv) : Value → GoVal → String → Option (Except GoErr GoVal) :=
  floatValueSetWith (fc.parseFloat 32)
def float64ValueSet (fc : FloatStrconv) : Value → GoVal → String → Option (Except GoErr GoVal) :=
  floatValueSetWith (fc.parseFloat 64)

/-- Shared shape of `complex64ValueString`/`complex128ValueString`. -/
def complexValueStringWith (fc : FloatStrconv) (bitSize : Nat) (val : Value) (root : GoVal) :
    Option String :=
  (valGet val root).bind fun r =>
  (readAt r.1 r.2).bind fun f =>
    match elemIfPtr f with
    | .complexv v => some (if fc.isZeroC v then "" else fc.formatComplex bitSize v)
    | _ => none

def complex64ValueString (fc : FloatStrconv) : Value → GoVal → Option String :=
  complexValueStringWith fc 64
def complex128ValueString (fc : FloatStrconv) : Value → GoVal → Option String :=
  complexValueStringWith fc 128

def complexValueSetWith (parse : String → Except StrconvErr Nat) (val : Value) (root : GoVal)
    (toStr : String) : Option (Except GoErr GoVal) :=
  match parse toStr with
  | .error e => some (.error (.parseErr e))
  | .ok v =>
    ((valGet val root).bind fun r =>
      reflectValueSetAt r.1 r.2 (.complexv v)).map .ok

def complex64ValueSet (fc : FloatStrconv) :
    Value → GoVal → String → Option (Except GoErr GoVal) :=
  complexValueSetWith (fc.parseComplex 64)
def complex128ValueSet (fc : FloatStrconv) :
    Value → GoVal → String → Option (Except GoErr GoVal) :=
  complexValueSetWith (fc.parseComplex 128)

def mapValueString (marshal : JSONMarshal) (val : Value) (root : GoVal) : Option String :=
  (valGet val root).bind fun r =>
  (readAt r.1 r.2).bind fun f =>
    match elemIfPtr f with
    | .mapv isNil entries =>
      if entries.length = 0 then some ""
      else
        match marshal (.mapv isNil entries) with
        | none => some ""
        | some b => some b
    | _ => none

/-- `v := addressable(reflect.MakeMap(t)).Addr()` then `json.Unmarshal`
then `reflectValueSet(val.get(), v)`: the source value installed is a
pointer to the freshly decoded map; decoding precedes `val.get()`, so a
decode error leaves the root untouched. -/
def mapValueSet (unmarshal : JSONUnmarshal) (val : Value) (root : GoVal) (toStr : String) :
    Option (Except GoErr GoVal) :=
  let t := elemIfPtrType val.typ
  match unmarshal t toStr with
  | none => some (.error .jsonUnmarshalErr)
  | some v =>
    ((valGet val root).bind fun r =>
      reflectValueSetAt r.1 r.2 (.ptrv t (some v))).map .ok

def structValueString (marshal : JSONMarshal) (val : Value) (root : GoVal) : Option String :=
  (valGet val root).bind fun r =>
  (readAt r.1 r.2).bind fun f =>
    match marshal f with
    | none => some ""
    | some str =>
      some (if str = "{}" ∨ str = "[]" ∨ str = "\"\"" ∨ str = "0" ∨ str = "false"
            then "" else str)

/-- `v := reflect.New(t)` then `json.Unmarshal` then
`reflectValueSet(val.get(), v)`. -/
def structValueSet (unmarshal : JSONUnmarshal) (val : Value) (root : GoVal) (toStr : String) :
    Option (Except GoErr GoVal) :=
  let t := elemIfPtrType val.typ
  match unmarshal t toStr with
  | none => some (.error .jsonUnmarshalErr)
  | some v =>
    ((valGet val root).bind fun r =>
      reflectValueSetAt r.1 r.2 (.ptrv t (some v))).map .ok

def sliceValueString (marshal : JSONMarshal) (val : Value) (root : GoVal) : Option String :=
  (valGet val root).bind fun r =>
  (readAt r.1 r.2).bind fun f =>
    match elemIfPtr f with
    | .slicev et isNil elems =>
      if elems.length = 0 then some ""
      else
        match marshal (.slicev et isNil elems) with
        | none => some ""
        | some b => some b
    | _ => none

/-- Common shape of every scalar-element slice setter:
`x := val.get(); reflectValueSet(x, reflectValueAppend(elemIfPtr(x), reflect.ValueOf(v)))`. -/
def sliceAppendAt (val : Value) (root : GoVal) (elemv : GoVal) : Option GoVal :=
  (valGet val root).bind fun r =>
  (readAt r.1 r.2).bind fun x =>
  (reflectValueAppend (elemIfPtr x) elemv).bind fun ap =>
  reflectValueSetAt r.1 r.2 ap

def boolSliceValueSet (val : Value) (root : GoVal) (toStr : String) : Option (Except GoErr GoVal) :=
  match parseBool toStr with
  | .error e => some (.error (.parseErr e))
  | .ok v => (sliceAppendAt val root (.boolv v)).map .ok

def intSliceValueSetWith (parse : String → Except StrconvErr Int) (val : Value) (root : GoVal)
    (toStr : String) : Option (Except GoErr GoVal) :=
  match parse toStr with
  | .error e => some (.error (.parseErr e))
  | .ok v => (sliceAppendAt val root (.intv v)).map .ok

def intSliceValueSet : Value → GoVal → String → Option (Except GoErr GoVal) :=
  intSliceValueSetWith parseInt
def int8SliceValueSet : Value → GoVal → String → Option (Except GoErr GoVal) :=
  intSliceValueSetWith parseInt8
def int16SliceValueSet : Value → GoVal → String → Option (Except GoErr GoVal) :=
  intSliceValueSetWith parseInt16
def int32SliceValueSet : Value → GoVal → String → Option (Except GoErr GoVal) :=
  intSliceValueSetWith parseInt32
def int64SliceValueSet : Value → GoVal → String → Option (Except GoErr GoVal) :=
  intSliceValueSetWith parseInt64

def uintSliceValueSetWith (parse : String → Except StrconvErr Nat) (val : Value) (root : GoVal)
    (toStr : String) : Option (Except GoErr GoVal) :=
  match parse toStr with
  | .error e => some (.error (.parseErr e))
  | .ok v => (sliceAppendAt val root (.uintv v)).map .ok

def uintSliceValueSet : Value → GoVal → String → Option (Except GoErr GoVal) :=
  uintSliceValueSetWith parseUint
def uint8SliceValueSet : Value → GoVal → String → Option (Except GoErr GoVal) :=
  uintSliceValueSetWith parseUint8
def uint16SliceValueSet : Value → GoVal → String → Option (Except GoErr GoVal) :=
  uintSliceValueSetWith parseUint16
def uint32SliceValueSet : Value → GoVal → String → Option (Except GoErr GoVal) :=
  uintSliceValueSetWith parseUint32
def uint64SliceValueSet : Value → GoVal → String → Option (Except GoErr GoVal) :=
  uintSliceValueSetWith parseUint64

def stringSliceValueSet (val : Value) (root : GoVal) (toStr : String) : Option (Except GoErr GoVal) :=
  (sliceAppendAt val root (.strv toStr)).map .ok

def bytesSliceValueSet (val : Value) (root : GoVal) (toStr : String) : Option (Except GoErr GoVal) :=
  match base64DecodeString toStr with
  | none => some (.error .corruptBase64)
  | some bs => (sliceAppendAt val root (.slicev .uint8 false (bs.map .uintv))).map .ok

def floatSliceValueSetWith (parse : String → Except StrconvErr Nat) (val : Value) (root : GoVal)
    (toStr : String) : Option (Except GoErr GoVal) :=
  match parse toStr with
  | .error e => some (.error (.parseErr e))
  | .ok v => (sliceAppendAt val root (.floatv v)).map .ok

def float32SliceValueSet (fc : FloatStrconv) :
    Value → GoVal → String → Option (Except GoErr GoVal) :=
  floatSliceValueSetWith (fc.parseFloat 32)
def float64SliceValueSet (fc : FloatStrconv) :
    Value → GoVal → String → Option (Except GoErr GoVal) :=
  floatSliceValueSetWith (fc.parseFloat 64)

def complexSliceValueSetWith (parse : String → Except StrconvErr Nat) (val : Value)
    (root : GoVal) (toStr : String) : Option (Except GoErr GoVal) :=
  match parse toStr with
  | .error e => some (.error (.parseErr e))
  | .ok v => (sliceAppendAt val root (.complexv v)).map .ok

def complex64SliceValueSet (fc : FloatStrconv) :
    Value → GoVal → String → Option (Except GoErr GoVal) :=
  complexSliceValueSetWith (fc.parseComplex 64)
def complex128SliceValueSet (fc : FloatStrconv) :
    Value → GoVal → String → Option (Except GoErr GoVal) :=
  complexSliceValueSetWith (fc.parseComplex 128)

/-- The per-element reads `elemIfPtr(x).Complex()` of the dedicated
complex-slice renderers (panic = `none` on an ill-typed element). -/
def complexBitsOfElems : List GoVal → Option (List Nat)
  | [] => some []
  | x :: rest =>
    match elemIfPtr x with
    | .complexv b => (complexBitsOfElems rest).map (b :: ·)
    | _ => none

/-- Shared shape of `complex64SliceValueString`/`complex128SliceValueString`:
empty slice renders `""`, otherwise a hand-built JSON list of quoted
`FormatComplex` texts. -/
def complexSliceValueStringWith (fc : FloatStrconv) (bitSize : Nat) (val : Value)
    (root : GoVal) : Option String :=
  (valGet val root).bind fun r =>
  (readAt r.1 r.2).bind fun f =>
    match elemIfPtr f with
    | .slicev _ _ elems =>
      if elems.length = 0 then some ""
      else
        (complexBitsOfElems elems).map fun cs =>
          "[" ++ String.intercalate ","
            (cs.map fun c => "\"" ++ fc.formatComplex bitSize c ++ "\"") ++ "]"
    | _ => none

def complex64SliceValueString (fc : FloatStrconv) : Value → GoVal → Option String :=
  complexSliceValueStringWith fc 64
def complex128SliceValueString (fc : FloatStrconv) : Value → GoVal → Option String :=
  complexSliceValueStringWith fc 128

/-- Which set function each constructor installed.  Only the
container-element slice setters (`sliceSliceValueSet`,
`mapSliceValueSet`, `structSliceValueSet`), which no claim exercises,
are left unmodelled. -/
def setFnOf (fc : FloatStrconv) (unmarshal : JSONUnmarshal) (k : CodecKind) :
    Option (Value → GoVal → String → Option (Except GoErr GoVal)) :=
  match k with
  | .bool => some boolValueSet
  | .int => some intValueSet
  | .int8 => some int8ValueSet
  | .int16 => some int16ValueSet
  | .int32 => some int32ValueSet
  | .int64 => some int64ValueSet
  | .uint => some uintValueSet
  | .uint8 => some uint8ValueSet
  | .uint16 => some uint16ValueSet
  | .uint32 => some uint32ValueSet
  | .uint64 => some uint64ValueSet
  | .str => some stringValueSet
  | .bytes => some bytesValueSet
  | .float32 => some (float32ValueSet fc)
  | .float64 => some (float64ValueSet fc)
  | .complex64 => some (complex64ValueSet fc)
  | .complex128 => some (complex128ValueSet fc)
  | .gomap => some (mapValueSet unmarshal)
  | .strukt => some (structValueSet unmarshal)
  | .boolSlice => some boolSliceValueSet
  | .intSlice => some intSliceValueSet
  | .int8Slice => some int8SliceValueSet
  | .int16Slice => some int16SliceValueSet
  | .int32Slice => some int32SliceValueSet
  | .int64Slice => some int64SliceValueSet
  | .uintSlice => some uintSliceValueSet
  | .uint8Slice => some uint8SliceValueSet
  | .uint16Slice => some uint16SliceValueSet
  | .uint32Slice => some uint32SliceValueSet
  | .uint64Slice => some uint64SliceValueSet
  | .strSlice => some stringSliceValueSet
  | .bytesSlice => some bytesSliceValueSet
  | .float32Slice => some (float32SliceValueSet fc)
  | .float64Slice => some (float64SliceValueSet fc)
  | .complex64Slice => some (complex64SliceValueSet fc)
  | .complex128Slice => some (complex128SliceValueSet fc)
  | _ => none

/-- Which string function each constructor installed (same modelling
scope as `setFnOf`). -/
def stringFnOf (fc : FloatStrconv) (marshal : JSONMarshal) (k : CodecKind) :
    Option (Value → GoVal → Option String) :=
  match k with
  | .bool => some boolValueString
  | .int => some intValueString
  | .int8 => some intValueString
  | .int16 => some intValueString
  | .int32 => some intValueString
  | .int64 => some intValueString
  | .uint => some uintValueString
  | .uint8 => some uintValueString
  | .uint16 => some uintValueString
  | .uint32 => some uintValueString
  | .uint64 => some uintValueString
  | .str => some stringValueString
  | .bytes => some bytesValueString
  | .float32 => some (float32ValueString fc)
  | .float64 => some (float64ValueString fc)
  | .complex64 => some (complex64ValueString fc)
  | .complex128 => some (complex128ValueString fc)
  | .gomap => some (mapValueString marshal)
  | .strukt => some (structValueString marshal)
  | .boolSlice => some (sliceValueString marshal)
  | .intSlice => some (sliceValueString marshal)
  | .int8Slice => some (sliceValueString marshal)
  | .int16Slice => some (sliceValueString marshal)
  | .int32Slice => some (sliceValueString marshal)
  | .int64Slice => some (sliceValueString marshal)
  | .uintSlice => some (sliceValueString marshal)
  | .uint8Slice => some (sliceValueString marshal)
  | .uint16Slice => some (sliceValueString marshal)
  | .uint32Slice => some (sliceValueString marshal)
  | .uint64Slice => some (sliceValueString marshal)
  | .strSlice => some (sliceValueString marshal)
  | .bytesSlice => some (sliceValueString marshal)
  | .float32Slice => some (sliceValueString marshal)
  | .float64Slice => some (sliceValueString marshal)
  | .complex64Slice => some (complex64SliceValueString fc)
  | .complex128Slice => some (complex128SliceValueString fc)
  | .sliceSlice => some (sliceValueString marshal)
  | .mapSlice => some (sliceValueString marshal)
  | .structSlice => some (sliceValueString marshal)

/-- `Value.Set` on an initialized node with no custom decoder installed
(constructed nodes have `decodeFn == nil`). -/
def Value.SetM (fc : FloatStrconv) (unmarshal : JSONUnmarshal) (val : Value) (root : GoVal)
    (toStr : String) : Option (Except GoErr GoVal) :=
  match setFnOf fc unmarshal val.kind with
  | some f => f val root toStr
  | none => none

/-- `Value.String` on an initialized node with no custom encoder installed. -/
def Value.StringM (fc : FloatStrconv) (marshal : JSONMarshal) (val : Value) (root : GoVal) :
    Option String :=
  match stringFnOf fc marshal val.kind with
  | some f => f val root
  | none => none

/-- `Value.Get` on an initialized node: returns the (possibly
pointer-allocated) root together with the fetched value. -/
def Value.GetM (val : Value) (root : GoVal) : Option (GoVal × GoVal) :=
  (fieldByIndex root val.fieldsIndexes).bind fun r =>
    (readAt r.1 r.2).map fun f => (r.1, f)

/-! ## Recursive discovery -/

mutual
/-- mirror of `recursive`.  `t` is the focus type the source recomputes as
`base.Type()` when `fields` is empty, else the last field's type; the
top-level call passes the base type with empty `fields`, and each
recursive call passes the field's type alongside `fields ++ [field]`,
exactly the recomputed value.  When the node is nil (unsupported kind),
`Filter` yields `SkipNoDescend`, so the node list stays empty. -/
def recursiveAux (baseType : GoType) (t : GoType) (fieldsIndexes : List Nat)
    (fields : List GoField) (filters : List FilterFunc) : List Value :=
  let val := newValue baseType fieldsIndexes fields
  let filterResult := Filter val filters
  let values : List Value :=
    if filterResult &&& skipMask = 0 then
      match val with
      | some v => [v]
      | none => []
    else []
  if filterResult &&& noDescendMask ≠ 0 then values
  else
    match t with
    | .strukt fs => values ++ recursiveFields baseType fieldsIndexes fields filters fs 0
    | .ptr (.strukt fs) => values ++ recursiveFields baseType fieldsIndexes fields filters fs 0
    | _ => values

/-- The `for i := range t.NumField()` loop: unexported fields are passed
over, exported ones are recursed into in declaration order. -/
def recursiveFields (baseType : GoType) (fieldsIndexes : List Nat) (fields : List GoField)
    (filters : List FilterFunc) : List GoField → Nat → List Value
  | [], _ => []
  | f :: rest, i =>
    (if fieldExported f then
      recursiveAux baseType (fieldTy f) (fieldsIndexes ++ [i]) (fields ++ [f]) filters
     else []) ++
    recursiveFields baseType fieldsIndexes fields filters rest (i + 1)
end

/-- mirror of `Recursive`: nil input, nil-pointer root, and non-pointer
root (a `reflect.ValueOf` result is never settable) all yield the empty
result. -/
def Recursive (base : Option GoVal) (filters : List FilterFunc) : List Value :=
  match base with
  | none => []
  | some (.ptrv et (some _x)) => recursiveAux (.ptr et) (.ptr et) [] [] filters
  | some _ => []

/-- mirror of `New` (the nil-`*Value` result and the guard rejections
collapse to `none`). -/
def New (base : Option GoVal) : Option Value :=
  match base with
  | none => none
  | some (.ptrv et (some _x)) => newValue (.ptr et) [] []
  | some _ => none

/-! ## Statement-support definitions -/

/-- Is a value a (possibly nil) pointer? -/
def isPtrVal : GoVal → Bool
  | .ptrv _ _ => true
  | _ => false

/-- Is a type a pointer type? -/
def isPtrTy : GoType → Bool
  | .ptr _ => true
  | _ => false

/-- One pointer level of the slice's element type is restored by
`reflectValueAppend` before the append (the `reflect.Append` adjustment):
a scalar appended to a `[]*T` lands behind a fresh pointer. -/
def adjustToElemTy (elemTy : GoType) (v : GoVal) : GoVal :=
  match elemTy with
  | .ptr et => .ptrv et (some v)
  | _ => v

/-- The element a scalar-element slice setter decodes from its text
argument (read off the corresponding `*SliceValueSet` function); `none`
for non-scalar-slice kinds or a parse failure. -/
def scalarSliceDecode (fc : FloatStrconv) (k : CodecKind) (s : String) : Option GoVal :=
  match k with
  | .boolSlice => (parseBool s).toOption.map .boolv
  | .intSlice => (parseInt s).toOption.map .intv
  | .int8Slice => (parseInt8 s).toOption.map .intv
  | .int16Slice => (parseInt16 s).toOption.map .intv
  | .int32Slice => (parseInt32 s).toOption.map .intv
  | .int64Slice => (parseInt64 s).toOption.map .intv
  | .uintSlice => (parseUint s).toOption.map .uintv
  | .uint8Slice => (parseUint8 s).toOption.map .uintv
  | .uint16Slice => (parseUint16 s).toOption.map .uintv
  | .uint32Slice => (parseUint32 s).toOption.map .uintv
  | .uint64Slice => (parseUint64 s).toOption.map .uintv
  | .float32Slice => (fc.parseFloat 32 s).toOption.map .floatv
  | .float64Slice => (fc.parseFloat 64 s).toOption.map .floatv
  | .complex64Slice => (fc.parseComplex 64 s).toOption.map .complexv
  | .complex128Slice => (fc.parseComplex 128 s).toOption.map .complexv
  | .strSlice => some (.strv s)
  | .bytesSlice => (base64DecodeString s).map (fun bs => .slicev .uint8 false (bs.map .uintv))
  | _ => none

/-- Specification-side definition (for the refinement comparison of the
traversal): which type kinds yield a Binding Node, following the words of
spec section 4.3 — named primitive kinds, byte buffers, lists of
supported element kinds, maps and records are supported; pointers are
unwrapped one level; everything else produces no node. -/
def specSupported (t : GoType) : Bool :=
  match elemIfPtrType t with
  | .bool | .int | .int8 | .int16 | .int32 | .int64
  | .uint | .uint8 | .uint16 | .uint32 | .uint64
  | .float32 | .float64 | .complex64 | .complex128 | .str => true
  | .slice e =>
    (match elemIfPtrType e with
     | .bool | .int | .int8 | .int16 | .int32 | .int64
     | .uint | .uint8 | .uint16 | .uint32 | .uint64
     | .float32 | .float64 | .complex64 | .complex128 | .str => true
     | .slice _ => true
     | .gomap _ _ => true
     | .strukt _ => true
     | _ => false)
  | .gomap _ _ => true
  | .strukt _ => true
  | _ => false

mutual
/-- Specification-side definition (for the refinement comparison of the
traversal), following the words of spec sections 4.4/4.5: the position's
own path first when its kind is supported, then, when the
(pointer-unwrapped) kind is a record, the positions of every exported
field in declaration order, depth first. -/
def specPreorderPaths (t : GoType) (path : List Nat) : List (List Nat) :=
  (if specSupported t then [path] else []) ++
  (match t with
   | .strukt fs => specPreorderFields fs path 0
   | .ptr (.strukt fs) => specPreorderFields fs path 0
   | _ => [])

def specPreorderFields (fs : List GoField) (path : List Nat) (i : Nat) : List (List Nat) :=
  match fs with
  | [] => []
  | f :: rest =>
    (if fieldExported f then specPreorderPaths (fieldTy f) (path ++ [i]) else []) ++
    specPreorderFields rest path (i + 1)
end

/-- A path addresses only exported fields of (pointer-unwrapped) records. -/
def exportedPath (t : GoType) : List Nat → Bool
  | [] => true
  | i :: rest =>
    match elemIfPtrType t with
    | .strukt fs =>
      match fs.get? i with
      | some f => fieldExported f && exportedPath (fieldTy f) rest
      | none => false
    | _ => false

/-- The `bitSize` argument each signed-integer kind's setter passes to
`strconv.ParseInt` (`0` = platform word); `none` for non-signed kinds. -/
def intKindBits : CodecKind → Option Nat
  | .int => some 0
  | .int8 => some 8
  | .int16 => some 16
  | .int32 => some 32
  | .int64 => some 64
  | _ => none

/-- The `bitSize` argument each unsigned-integer kind's setter passes to
`strconv.ParseUint`; `none` for non-unsigned kinds. -/
def uintKindBits : CodecKind → Option Nat
  | .uint => some 0
  | .uint8 => some 8
  | .uint16 => some 16
  | .uint32 => some 32
  | .uint64 => some 64
  | _ => none

/-- The `bitSize` each float kind's codec passes to
`strconv.ParseFloat`/`FormatFloat`; `none` for non-float kinds. -/
def floatKindBits : CodecKind → Option Nat
  | .float32 => some 32
  | .float64 => some 64
  | _ => none

/-- The `bitSize` each complex kind's codec passes to
`strconv.ParseComplex`/`FormatComplex`; `none` for non-complex kinds. -/
def complexKindBits : CodecKind → Option Nat
  | .complex64 => some 64
  | .complex128 => some 128
  | _ => none

/-! ## Theorems -/

theorem zeroFields_eq_map (fs : List GoField) :
    zeroFields fs = fs.map (fun f => zeroVal (fieldTy f)) := by
  induction fs with
  | nil => rfl
  | cons f fs ih => simp [zeroFields, ih, fieldTy]

/-- C1: the spec and the claim require `IsBoolFlag()` to be true exactly
for boolean-scalar nodes; the code sets the `isBool` field only in
`newBoolSliceValue`, not in `newBoolValue`, so a node over `*bool` answers
false and a node over `*[]bool` answers true — the opposite of the claim
on both kinds.  This theorem evaluates the embedded code at the two
failing inputs. -/
theorem c1_isBoolFlag_divergence :
    IsBoolFlag (New (some (.ptrv .bool (some (.boolv false))))) = false ∧
    IsBoolFlag (New (some (.ptrv (.slice .bool) (some (.slicev .bool true []))))) = true ∧
    IsBoolFlag (Recursive (some (.ptrv .bool (some (.boolv false)))) []).head? = false ∧
    IsBoolFlag (Recursive (some (.ptrv (.slice .bool) (some (.slicev .bool true [])))) []).head? = true := by
  refine ⟨rfl, rfl, rfl, rfl⟩

/-- C9: a nil root, a nil-pointer root, and a non-settable non-pointer
root all make `Recursive` return the empty list and `New` return the nil
node, with no error channel at all (both functions are total). -/
theorem c9_discovery_never_aborts :
    Recursive none [] = [] ∧ New none = none ∧
    (∀ (et : GoType) (filters : List FilterFunc),
      Recursive (some (.ptrv et none)) filters = [] ∧ New (some (.ptrv et none)) = none) ∧
    (∀ (v : GoVal) (filters : List FilterFunc), isPtrVal v = false →
      Recursive (some v) filters = [] ∧ New (some v) = none) := by
  refine ⟨rfl, rfl, fun et filters => ⟨rfl, rfl⟩, fun v filters hv => ?_⟩
  cases v <;> simp_all [Recursive, New, isPtrVal]

/-- Closed witness for the hypothesis-bearing part of the C9 theorem. -/
theorem c9_discovery_never_aborts_witness :
    isPtrVal (.strv "x") = false ∧
    (Recursive (some (.strv "x")) [] = [] ∧ New (some (.strv "x")) = none) :=
  ⟨rfl, (c9_discovery_never_aborts.2.2.2 (.strv "x") [] rfl)⟩

/-- C8: for a record-kind node, `String()` returns the empty string when
the JSON marshaling of the record is one of the degenerate literals
`{}`, `[]`, `""`, `0`, `false`, and the marshaled text unchanged
otherwise. -/
theorem c8_struct_string_suppression
    (fc : FloatStrconv) (marshal : JSONMarshal) (val : Value) (root r1 : GoVal) (p : GoPath) (f : GoVal)
    (s : String)
    (hkind : val.kind = .strukt)
    (hnav : fieldByIndex root val.fieldsIndexes = some (r1, p))
    (hread : readAt r1 p = some f)
    (hmarshal : marshal f = some s) :
    Value.StringM fc marshal val root =
      some (if s = "{}" ∨ s = "[]" ∨ s = "\"\"" ∨ s = "0" ∨ s = "false" then "" else s) := by
  simp [Value.StringM, stringFnOf, hkind, structValueString, valGet, hnav, hread, hmarshal]

/-- Closed witness for C8: a record node over a record marshaling to `{}`
renders as the empty string (and one marshaling to `{"a":1}` renders
unchanged). -/
theorem c8_struct_string_suppression_witness :
    Value.StringM trivialFloatStrconv (fun _ => some "{}")
      (newStructValue (.ptr (.strukt [])) [] []) (.ptrv (.strukt []) (some (.struktv []))) =
      some "" ∧
    Value.StringM trivialFloatStrconv (fun _ => some "\x7b\"a\":1\x7d")
      (newStructValue (.ptr (.strukt [])) [] []) (.ptrv (.strukt []) (some (.struktv []))) =
      some "\x7b\"a\":1\x7d" := by
  constructor
  · have h := c8_struct_string_suppression trivialFloatStrconv (fun _ => some "{}")
      (newStructValue (.ptr (.strukt [])) [] [])
      (.ptrv (.strukt []) (some (.struktv []))) (.ptrv (.strukt []) (some (.struktv []))) []
      (.ptrv (.strukt []) (some (.struktv []))) "{}" rfl rfl rfl rfl
    simpa using h
  · have h := c8_struct_string_suppression trivialFloatStrconv (fun _ => some "\x7b\"a\":1\x7d")
      (newStructValue (.ptr (.strukt [])) [] [])
      (.ptrv (.strukt []) (some (.struktv []))) (.ptrv (.strukt []) (some (.struktv []))) []
      (.ptrv (.strukt []) (some (.struktv []))) "\x7b\"a\":1\x7d" rfl rfl rfl rfl
    simpa using h

/-- C10: for a map-kind node whose underlying map is nil or empty,
`String()` returns the empty string no matter what the JSON encoder would
produce (it is never consulted); the marshaled text is produced only for
a map with at least one entry. -/
theorem c10_map_string_empty
    (fc : FloatStrconv) (marshal : JSONMarshal) (val : Value) (root r1 : GoVal) (p : GoPath) (f : GoVal)
    (nl : Bool) (entries : List (GoVal × GoVal))
    (hkind : val.kind = .gomap)
    (hnav : fieldByIndex root val.fieldsIndexes = some (r1, p))
    (hread : readAt r1 p = some f)
    (hmap : elemIfPtr f = .mapv nl entries) :
    (entries = [] → Value.StringM fc marshal val root = some "") ∧
    (∀ s, Value.StringM fc marshal val root = some s → s ≠ "" →
      entries ≠ [] ∧ marshal (.mapv nl entries) = some s) := by
  refine ⟨?_, ?_⟩
  · intro he
    simp [Value.StringM, stringFnOf, hkind, mapValueString, valGet, hnav, hread, hmap, he]
  · intro s hs hne
    simp only [Value.StringM, stringFnOf, hkind, mapValueString, valGet, hnav, Option.some_bind,
      hread, hmap] at hs
    by_cases he : entries.length = 0
    · simp [he] at hs
      exact absurd hs.symm hne
    · refine ⟨by simpa using he, ?_⟩
      rcases hm : marshal (.mapv nl entries) with _ | b
      · simp [he, hm] at hs
        exact absurd hs.symm hne
      · simp [he, hm] at hs
        rw [hs]

/-- Closed witness for C10: a node over a nil map renders `""` even though
the JSON encoder would produce `"null"` for it. -/
theorem c10_map_string_empty_witness :
    Value.StringM trivialFloatStrconv (fun _ => some "null")
      (newMapValue (.ptr (.gomap .str .int)) [] [])
      (.ptrv (.gomap .str .int) (some (.mapv true []))) = some "" :=
  (c10_map_string_empty trivialFloatStrconv (fun _ => some "null")
    (newMapValue (.ptr (.gomap .str .int)) [] [])
    (.ptrv (.gomap .str .int) (some (.mapv true [])))
    (.ptrv (.gomap .str .int) (some (.mapv true []))) []
    (.ptrv (.gomap .str .int) (some (.mapv true []))) true [] rfl rfl rfl rfl).1 rfl

/-! ### Filter-chain algebra -/

theorem Filter_eq_fold_votes (v : Value) (fs : List FilterFunc) :
    Filter (some v) fs = (fs.map (fun f => f v)).foldl (· ||| ·) 0 := by
  simp [Filter, List.foldl_map]

theorem foldl_or_testBit (l : List Nat) (a : Nat) (i : Nat) :
    (l.foldl (· ||| ·) a).testBit i = (a.testBit i || l.any (fun x => x.testBit i)) := by
  induction l generalizing a with
  | nil => simp
  | cons x xs ih => simp [List.foldl_cons, ih, Nat.testBit_or, Bool.or_assoc]

theorem Filter_testBit (v : Value) (fs : List FilterFunc) (i : Nat) :
    (Filter (some v) fs).testBit i = fs.any (fun f => (f v).testBit i) := by
  rw [Filter_eq_fold_votes, foldl_or_testBit]
  simp only [Nat.zero_testBit, Bool.false_or]
  induction fs with
  | nil => rfl
  | cons f fs ih => simp [List.any_cons, ih]

theorem and_two_pow_ne_iff (x i : Nat) : x &&& 2 ^ i ≠ 0 ↔ x.testBit i = true := by
  rw [Nat.and_two_pow]
  cases h : x.testBit i <;> simp [(Nat.two_pow_pos i).ne']

theorem and_skipMask_ne_iff (x : Nat) : x &&& skipMask ≠ 0 ↔ x.testBit 1 = true := by
  have := and_two_pow_ne_iff x 1
  simpa [skipMask] using this

theorem and_noDescendMask_ne_iff (x : Nat) : x &&& noDescendMask ≠ 0 ↔ x.testBit 0 = true := by
  have := and_two_pow_ne_iff x 0
  simp only [pow_zero] at this
  exact this

/-- A bit absent from the combined filter decision is absent from every
individual vote. -/
theorem Filter_bit_zero (v : Value) (fs : List FilterFunc) (g : FilterFunc) (i : Nat)
    (hg : g ∈ fs) (h : (Filter (some v) fs).testBit i = false) : (g v).testBit i = false := by
  rw [Filter_testBit] at h
  simp only [List.any_eq_false] at h
  simpa using h g hg

/-! ### Traversal structure -/

theorem focusType_append (bt : GoType) (fields0 : List GoField) (f : GoField) :
    focusType bt (fields0 ++ [f]) = fieldTy f := by
  simp [focusType, List.getLast?_concat]

/-- Every node `newValue` builds carries the base type, field indexes and
field chain it was given. -/
theorem newValue_some_proj (bt : GoType) (idx : List Nat) (flds : List GoField) (v : Value)
    (hv : newValue bt idx flds = some v) :
    v.baseType = bt ∧ v.fieldsIndexes = idx ∧ v.fields = flds := by
  unfold newValue at hv
  dsimp only [] at hv
  split at hv <;>
    try (unfold newSliceValue at hv; split at hv <;> (try split at hv) <;> (try split at hv))
  all_goals
    first
    | (simp only [newBoolValue, newIntValue, newInt8Value, newInt16Value, newInt32Value,
         newInt64Value, newUintValue, newUint8Value, newUint16Value, newUint32Value,
         newUint64Value, newFloat32Value, newFloat64Value, newComplex64Value,
         newComplex128Value, newStringValue, newMapValue, newStructValue,
         newBoolSliceValue, newIntSliceValue, newInt8SliceValue, newInt16SliceValue,
         newInt32SliceValue, newInt64SliceValue, newUintSliceValue, newUint8SliceValue,
         newUint16SliceValue, newUint32SliceValue, newUint64SliceValue,
         newFloat32SliceValue, newFloat64SliceValue, newComplex64SliceValue,
         newComplex128SliceValue, newStringSliceValue, newBytesValue, newBytesSliceValue,
         newSliceSliceValue, newMapSliceValue, newStructSliceValue,
         Option.some.injEq] at hv
       subst hv
       exact ⟨rfl, rfl, rfl⟩)
    | simp at hv

/-- A member of the field loop's output comes from recursing into some
exported field, at its declaration index. -/
theorem mem_recursiveFields (bt : GoType) (idx0 : List Nat) (fields0 : List GoField)
    (filters : List FilterFunc) (fs : List GoField) (i : Nat) (w : Value)
    (hw : w ∈ recursiveFields bt idx0 fields0 filters fs i) :
    ∃ j f, fs.get? j = some f ∧ fieldExported f = true ∧
      w ∈ recursiveAux bt (fieldTy f) (idx0 ++ [i + j]) (fields0 ++ [f]) filters := by
  induction fs generalizing i with
  | nil => simp [recursiveFields] at hw
  | cons f rest ih =>
    rw [recursiveFields] at hw
    rcases List.mem_append.mp hw with hw1 | hw2
    · by_cases he : fieldExported f
      · exact ⟨0, f, rfl, by simpa using he, by simpa [he] using hw1⟩
      · simp [he] at hw1
    · rcases ih (i + 1) hw2 with ⟨j, f', hj, he, hmem⟩
      refine ⟨j + 1, f', by simpa using hj, he, ?_⟩
      have : i + (j + 1) = i + 1 + j := by omega
      rw [this]
      exact hmem

theorem sizeOf_fieldTy_lt (fs : List GoField) (j : Nat) (f : GoField)
    (h : fs.get? j = some f) : sizeOf (fieldTy f) < 1 + sizeOf fs := by
  have hmem : f ∈ fs := List.get?_mem h
  have h1 := List.sizeOf_lt_of_mem hmem
  rcases f with ⟨n, e, ty⟩
  simp [fieldTy] at h1 ⊢
  omega

/-- Case analysis on membership in a `recursive` call: the member is
either the node of the current position (with no skip vote), or comes
from the field loop of a record focus reached because no filter voted
no-descend. -/
theorem mem_recursiveAux_cases (bt t : GoType) (idx0 : List Nat) (fields0 : List GoField)
    (filters : List FilterFunc) (w : Value)
    (hw : w ∈ recursiveAux bt t idx0 fields0 filters) :
    (newValue bt idx0 fields0 = some w ∧
      Filter (newValue bt idx0 fields0) filters &&& skipMask = 0) ∨
    (Filter (newValue bt idx0 fields0) filters &&& noDescendMask = 0 ∧
      ∃ fs, (t = .strukt fs ∨ t = .ptr (.strukt fs)) ∧
        w ∈ recursiveFields bt idx0 fields0 filters fs 0) := by
  have hown : ∀ (hm : w ∈ (if Filter (newValue bt idx0 fields0) filters &&& skipMask = 0 then
      (match newValue bt idx0 fields0 with
       | some v => [v]
       | none => ([] : List Value)) else [])),
      newValue bt idx0 fields0 = some w ∧
        Filter (newValue bt idx0 fields0) filters &&& skipMask = 0 := by
    intro hm
    by_cases h2 : Filter (newValue bt idx0 fields0) filters &&& skipMask = 0
    · rw [if_pos h2] at hm
      rcases hval : newValue bt idx0 fields0 with _ | v
      · rw [hval] at hm; simp at hm
      · rw [hval] at hm
        simp only [List.mem_singleton] at hm
        subst hm
        rw [hval] at h2
        exact ⟨rfl, h2⟩
    · rw [if_neg h2] at hm; simp at hm
  rw [recursiveAux.eq_def] at hw
  by_cases h1 : Filter (newValue bt idx0 fields0) filters &&& noDescendMask ≠ 0
  · rw [if_pos h1] at hw
    exact Or.inl (hown hw)
  · push_neg at h1
    rw [if_neg (by simpa using h1)] at hw
    cases t <;> (try exact Or.inl (hown hw))
    next e =>
      cases e <;> (try exact Or.inl (hown hw))
      next fs =>
        rcases List.mem_append.mp hw with hw1 | hw2
        · exact Or.inl (hown hw1)
        · exact Or.inr ⟨h1, fs, Or.inr rfl, hw2⟩
    next fs =>
      rcases List.mem_append.mp hw with hw1 | hw2
      · exact Or.inl (hown hw1)
      · exact Or.inr ⟨h1, fs, Or.inl rfl, hw2⟩

/-- Every produced node's index path and field chain extend the
accumulated ones in lock step. -/
theorem mem_recursiveAux_shape (bt t : GoType) (idx0 : List Nat) (fields0 : List GoField)
    (filters : List FilterFunc) (w : Value)
    (hw : w ∈ recursiveAux bt t idx0 fields0 filters) :
    ∃ r s, w.fieldsIndexes = idx0 ++ r ∧ w.fields = fields0 ++ s ∧ r.length = s.length := by
  rcases mem_recursiveAux_cases bt t idx0 fields0 filters w hw with ⟨hv, _⟩ | ⟨_, fs, ht, hw2⟩
  · obtain ⟨_, h2, h3⟩ := newValue_some_proj _ _ _ _ hv
    exact ⟨[], [], by simp [h2], by simp [h3], rfl⟩
  · obtain ⟨j, f, hj, _, hmem⟩ := mem_recursiveFields _ _ _ _ _ _ _ hw2
    obtain ⟨r, s, h1, h2, h3⟩ :=
      mem_recursiveAux_shape bt (fieldTy f) (idx0 ++ [0 + j]) (fields0 ++ [f]) filters w hmem
    exact ⟨(0 + j) :: r, f :: s, by simp [h1], by simp [h2], by simp [h3]⟩
termination_by sizeOf t
decreasing_by
  rcases ht with rfl | rfl <;>
    (have hsz := sizeOf_fieldTy_lt fs j f hj; simp; omega)

/-- Every node in a `recursive` result received no skip vote from any
filter in the chain. -/
theorem recursiveAux_no_skip (bt t : GoType) (idx0 : List Nat) (fields0 : List GoField)
    (filters : List FilterFunc) (w : Value) (g : FilterFunc)
    (hg : g ∈ filters) (hw : w ∈ recursiveAux bt t idx0 fields0 filters) :
    g w &&& skipMask = 0 := by
  rcases mem_recursiveAux_cases bt t idx0 fields0 filters w hw with ⟨hv, hskip⟩ | ⟨_, fs, ht, hw2⟩
  · rw [hv] at hskip
    by_contra hne
    have hbit : (g w).testBit 1 = true := (and_skipMask_ne_iff _).mp hne
    have hz : (Filter (some w) filters).testBit 1 = false := by
      by_contra hzz
      simp only [Bool.not_eq_false] at hzz
      exact ((and_skipMask_ne_iff _).mpr hzz) hskip
    have := Filter_bit_zero w filters g 1 hg hz
    rw [this] at hbit
    exact Bool.false_ne_true hbit
  · obtain ⟨j, f, hj, _, hmem⟩ := mem_recursiveFields _ _ _ _ _ _ _ hw2
    exact recursiveAux_no_skip bt (fieldTy f) (idx0 ++ [0 + j]) (fields0 ++ [f]) filters w g hg hmem
termination_by sizeOf t
decreasing_by
  rcases ht with rfl | rfl <;>
    (have hsz := sizeOf_fieldTy_lt fs j f hj; simp; omega)

/-- Every strict ancestor position of a node in a `recursive` result
received no no-descend vote from any filter in the chain. -/
theorem recursiveAux_anc_no_descend (bt t : GoType) (idx0 : List Nat) (fields0 : List GoField)
    (filters : List FilterFunc) (w : Value) (g : FilterFunc)
    (hg : g ∈ filters) (hlen : fields0.length = idx0.length)
    (hw : w ∈ recursiveAux bt t idx0 fields0 filters) :
    ∀ k, idx0.length ≤ k → k < w.fieldsIndexes.length →
      ∀ anc, newValue bt (w.fieldsIndexes.take k) (w.fields.take k) = some anc →
        g anc &&& noDescendMask = 0 := by
  intro k hk1 hk2 anc hanc
  rcases mem_recursiveAux_cases bt t idx0 fields0 filters w hw with ⟨hv, _⟩ | ⟨hnd, fs, ht, hw2⟩
  · obtain ⟨_, h2, _⟩ := newValue_some_proj _ _ _ _ hv
    rw [h2] at hk2
    omega
  · obtain ⟨j, f, hj, _, hmem⟩ := mem_recursiveFields _ _ _ _ _ _ _ hw2
    obtain ⟨r, s, hsh1, hsh2, hsh3⟩ :=
      mem_recursiveAux_shape bt (fieldTy f) (idx0 ++ [0 + j]) (fields0 ++ [f]) filters w hmem
    by_cases hkeq : k = idx0.length
    · subst hkeq
      have htake1 : w.fieldsIndexes.take idx0.length = idx0 := by
        rw [hsh1, List.append_assoc]
        exact List.take_left idx0 _
      have htake2 : w.fields.take idx0.length = fields0 := by
        rw [hsh2, List.append_assoc, ← hlen]
        exact List.take_left fields0 _
      rw [htake1, htake2] at hanc
      rw [hanc] at hnd
      by_contra hne
      have hbit : (g anc).testBit 0 = true := (and_noDescendMask_ne_iff _).mp hne
      have hz : (Filter (some anc) filters).testBit 0 = false := by
        by_contra hzz
        simp only [Bool.not_eq_false] at hzz
        exact absurd ((and_noDescendMask_ne_iff _).mpr hzz) (by simpa using hnd)
      have := Filter_bit_zero anc filters g 0 hg hz
      rw [this] at hbit
      exact Bool.false_ne_true hbit
    · refine recursiveAux_anc_no_descend bt (fieldTy f) (idx0 ++ [0 + j]) (fields0 ++ [f])
        filters w g hg (by simp [hlen]) hmem k ?_ hk2 anc hanc
      simp only [List.length_append, List.length_cons, List.length_nil]
      omega
termination_by sizeOf t
decreasing_by
  rcases ht with rfl | rfl <;>
    (have hsz := sizeOf_fieldTy_lt fs j f hj; simp; omega)

/-- C4: the combined filter decision is the bitwise OR of the individual
votes (hence independent of filter order); a node in the result received
no skip vote from any filter; traversal recursed into an ancestor only
when no filter voted no-descend on it; a nil node always yields
`SkipNoDescend`. -/
theorem c4_filter_or_combination :
    (∀ filters : List FilterFunc, Filter none filters = SkipNoDescend) ∧
    (∀ (v : Value) (filters : List FilterFunc),
      Filter (some v) filters = (filters.map (fun f => f v)).foldl (· ||| ·) 0) ∧
    (∀ (v : Value) (filters filters' : List FilterFunc), filters.Perm filters' →
      Filter (some v) filters = Filter (some v) filters') ∧
    (∀ (root : GoVal) (filters : List FilterFunc) (w : Value) (g : FilterFunc),
      g ∈ filters → w ∈ Recursive (some root) filters → g w &&& skipMask = 0) ∧
    (∀ (et : GoType) (x : GoVal) (filters : List FilterFunc) (w : Value) (g : FilterFunc),
      g ∈ filters → w ∈ Recursive (some (.ptrv et (some x))) filters →
      ∀ k, k < w.fieldsIndexes.length →
        ∀ anc, newValue (.ptr et) (w.fieldsIndexes.take k) (w.fields.take k) = some anc →
          g anc &&& noDescendMask = 0) := by
  refine ⟨fun _ => rfl, Filter_eq_fold_votes, ?_, ?_, ?_⟩
  · intro v filters filters' hperm
    exact hperm.foldl_eq' (fun x _ y _ z => by
      show (z ||| x v) ||| y v = (z ||| y v) ||| x v
      rw [Nat.or_assoc, Nat.or_assoc, Nat.or_comm (x v) (y v)]) 0
  · intro root filters w g hg hw
    cases root <;> (try (simp [Recursive] at hw))
    next et ov =>
      cases ov with
      | none => simp [Recursive] at hw
      | some x => exact recursiveAux_no_skip _ _ _ _ _ _ _ hg hw
  · intro et x filters w g hg hw k hk anc hanc
    exact recursiveAux_anc_no_descend (.ptr et) (.ptr et) [] [] filters w g hg rfl hw k
      (Nat.zero_le k) hk anc hanc

/-- Closed witness for C4: a two-filter chain evaluates the same after a
swap, and a filter that votes include sees its vote honoured on the node
`Recursive` returns for a `*bool` root. -/
theorem c4_filter_or_combination_witness :
    Filter (some (newBoolValue (.ptr .bool) [] []))
        [(fun _ => SkipAndDescend : FilterFunc), fun _ => IncludeNoDescend] =
      Filter (some (newBoolValue (.ptr .bool) [] []))
        [fun _ => IncludeNoDescend, fun _ => SkipAndDescend] ∧
    (fun _ => (0 : FilterResult) : FilterFunc) (newBoolValue (.ptr .bool) [] []) &&&
      skipMask = 0 := by
  constructor
  · exact c4_filter_or_combination.2.2.1 _ _ _ (List.Perm.swap _ _ _)
  · refine c4_filter_or_combination.2.2.2.1 (.ptrv .bool (some (.boolv false)))
      [fun _ => 0] (newBoolValue (.ptr .bool) [] []) _ (List.mem_singleton.mpr rfl) ?_
    show _ ∈ [newBoolValue (.ptr .bool) [] []]
    exact List.mem_singleton.mpr rfl

/-! ### Navigation machinery -/

theorem get?_set_self {α : Type} (l : List α) (n : Nat) (b : α) (h : n < l.length) :
    (l.set n b).get? n = some b := by
  simp [List.get?_eq_getElem?, List.getElem?_set_self, h]

theorem allocPtr_allocPtr (v : GoVal) : allocPtr (allocPtr v) = allocPtr v := by
  cases v <;> simp [allocPtr]
  next w => cases w <;> simp [allocPtr]

theorem isNilPtr_allocPtr (v : GoVal) : isNilPtr (allocPtr v) = false := by
  cases v <;> simp [allocPtr, isNilPtr]
  next w => cases w <;> simp [allocPtr, isNilPtr]

/-- The path `fieldByIndex` returns addresses a value in the updated root,
and (after the final allocation) that value is never a nil pointer. -/
theorem fieldByIndex_readAt (idx : List Nat) (root r1 : GoVal) (p : GoPath)
    (h : fieldByIndex root idx = some (r1, p)) :
    ∃ f, readAt r1 p = some f ∧ isNilPtr f = false := by
  induction idx generalizing root r1 p with
  | nil =>
    simp only [fieldByIndex, Option.some.injEq, Prod.mk.injEq] at h
    obtain ⟨h1, h2⟩ := h
    subst h1; subst h2
    exact ⟨allocPtr root, rfl, isNilPtr_allocPtr root⟩
  | cons x rest ih =>
    have step : ∀ (fs : List GoVal) (fv : GoVal) (g : GoVal × GoPath → GoVal × GoPath)
        (hget : fs.get? x = some fv)
        (hh : (fieldByIndex fv rest).map g = some (r1, p))
        (hgood : ∀ r, readAt (g r).1 (g r).2 = readAt (.struktv (fs.set x r.1)) (.field x :: r.2)),
        ∃ f, readAt r1 p = some f ∧ isNilPtr f = false := by
      intro fs fv g hget hh hgood
      rw [Option.map_eq_some'] at hh
      obtain ⟨r, hrec, hr⟩ := hh
      obtain ⟨f, hf1, hf2⟩ := ih fv r.1 r.2 (by rw [hrec])
      refine ⟨f, ?_, hf2⟩
      have hlt : x < fs.length := (List.get?_eq_some.mp hget).1
      have h3 : readAt (GoVal.struktv (fs.set x r.1)) (.field x :: r.2) = some f := by
        have h4 : (match (fs.set x r.1).get? x with
            | some fv => readAt fv r.2
            | none => none) = readAt (GoVal.struktv (fs.set x r.1)) (.field x :: r.2) := rfl
        rw [← h4, get?_set_self fs x r.1 hlt]
        exact hf1
      have h5 := hgood r
      rw [h3] at h5
      rw [show r1 = (g r).1 from by rw [hr], show p = (g r).2 from by rw [hr]]
      exact h5
    cases root with
    | ptrv t w =>
      cases w with
      | none =>
        -- a nil pointer on the way is allocated to the pointee's zero value
        cases t with
        | bool => exact absurd h (by simp [fieldByIndex, zeroVal])
        | int => exact absurd h (by simp [fieldByIndex, zeroVal])
        | int8 => exact absurd h (by simp [fieldByIndex, zeroVal])
        | int16 => exact absurd h (by simp [fieldByIndex, zeroVal])
        | int32 => exact absurd h (by simp [fieldByIndex, zeroVal])
        | int64 => exact absurd h (by simp [fieldByIndex, zeroVal])
        | uint => exact absurd h (by simp [fieldByIndex, zeroVal])
        | uint8 => exact absurd h (by simp [fieldByIndex, zeroVal])
        | uint16 => exact absurd h (by simp [fieldByIndex, zeroVal])
        | uint32 => exact absurd h (by simp [fieldByIndex, zeroVal])
        | uint64 => exact absurd h (by simp [fieldByIndex, zeroVal])
        | float32 => exact absurd h (by simp [fieldByIndex, zeroVal])
        | float64 => exact absurd h (by simp [fieldByIndex, zeroVal])
        | complex64 => exact absurd h (by simp [fieldByIndex, zeroVal])
        | complex128 => exact absurd h (by simp [fieldByIndex, zeroVal])
        | str => exact absurd h (by simp [fieldByIndex, zeroVal])
        | slice e => exact absurd h (by simp [fieldByIndex, zeroVal])
        | gomap k v2 => exact absurd h (by simp [fieldByIndex, zeroVal])
        | ptr e => exact absurd h (by simp [fieldByIndex, zeroVal])
        | unsupported => exact absurd h (by simp [fieldByIndex, zeroVal])
        | strukt fs0 =>
          have h' : (match (zeroFields fs0).get? x with
              | some fv =>
                (fieldByIndex fv rest).map fun r =>
                  ((.ptrv (.strukt fs0) (some (.struktv ((zeroFields fs0).set x r.1))) : GoVal),
                    .deref :: .field x :: r.2)
              | none => none) = some (r1, p) := h
          rcases hget : (zeroFields fs0).get? x with _ | fv
          · rw [hget] at h'; simp at h'
          · rw [hget] at h'
            exact step (zeroFields fs0) fv _ hget h' (fun r => rfl)
      | some iv =>
        cases iv with
        | boolv b => exact absurd h (by simp [fieldByIndex])
        | intv v1 => exact absurd h (by simp [fieldByIndex])
        | uintv v1 => exact absurd h (by simp [fieldByIndex])
        | floatv b => exact absurd h (by simp [fieldByIndex])
        | complexv b => exact absurd h (by simp [fieldByIndex])
        | strv s => exact absurd h (by simp [fieldByIndex])
        | slicev e n l => exact absurd h (by simp [fieldByIndex])
        | mapv n e2 => exact absurd h (by simp [fieldByIndex])
        | ptrv t2 w2 => exact absurd h (by simp [fieldByIndex])
        | unsupportedv => exact absurd h (by simp [fieldByIndex])
        | struktv fs =>
          have h' : (match fs.get? x with
              | some fv =>
                (fieldByIndex fv rest).map fun r =>
                  ((.ptrv t (some (.struktv (fs.set x r.1))) : GoVal),
                    .deref :: .field x :: r.2)
              | none => none) = some (r1, p) := h
          rcases hget : fs.get? x with _ | fv
          · rw [hget] at h'; simp at h'
          · rw [hget] at h'
            exact step fs fv _ hget h' (fun r => rfl)
    | struktv fs =>
      have h' : (match fs.get? x with
          | some fv =>
            (fieldByIndex fv rest).map fun r =>
              ((.struktv (fs.set x r.1) : GoVal), .field x :: r.2)
          | none => none) = some (r1, p) := h
      rcases hget : fs.get? x with _ | fv
      · rw [hget] at h'; simp at h'
      · rw [hget] at h'
        exact step fs fv _ hget h' (fun r => rfl)
    | boolv b => exact absurd h (by simp [fieldByIndex])
    | intv v => exact absurd h (by simp [fieldByIndex])
    | uintv v => exact absurd h (by simp [fieldByIndex])
    | floatv b => exact absurd h (by simp [fieldByIndex])
    | complexv b => exact absurd h (by simp [fieldByIndex])
    | strv s => exact absurd h (by simp [fieldByIndex])
    | slicev e n l => exact absurd h (by simp [fieldByIndex])
    | mapv n e => exact absurd h (by simp [fieldByIndex])
    | unsupportedv => exact absurd h (by simp [fieldByIndex])

/-- A readable path is writable. -/
theorem writeAt_of_readAt (p : GoPath) (v f : GoVal) (h : readAt v p = some f) (w : GoVal) :
    ∃ v2, writeAt v p w = some v2 := by
  induction p generalizing v with
  | nil => exact ⟨w, rfl⟩
  | cons st rest ih =>
    cases st with
    | deref =>
      cases v with
      | boolv b => exact absurd h (by simp [readAt])
      | intv v1 => exact absurd h (by simp [readAt])
      | uintv v1 => exact absurd h (by simp [readAt])
      | floatv b => exact absurd h (by simp [readAt])
      | complexv b => exact absurd h (by simp [readAt])
      | strv s => exact absurd h (by simp [readAt])
      | slicev e n l => exact absurd h (by simp [readAt])
      | mapv n e2 => exact absurd h (by simp [readAt])
      | struktv fs => exact absurd h (by simp [readAt])
      | unsupportedv => exact absurd h (by simp [readAt])
      | ptrv t ov =>
        cases ov with
        | none => exact absurd h (by simp [readAt])
        | some x =>
          have h' : readAt x rest = some f := h
          obtain ⟨v2, hv2⟩ := ih x h'
          refine ⟨.ptrv t (some v2), ?_⟩
          show (writeAt x rest w).map (fun x' => GoVal.ptrv t (some x')) = _
          rw [hv2]
          rfl
    | field i =>
      cases v with
      | boolv b => exact absurd h (by simp [readAt])
      | intv v1 => exact absurd h (by simp [readAt])
      | uintv v1 => exact absurd h (by simp [readAt])
      | floatv b => exact absurd h (by simp [readAt])
      | complexv b => exact absurd h (by simp [readAt])
      | strv s => exact absurd h (by simp [readAt])
      | slicev e n l => exact absurd h (by simp [readAt])
      | mapv n e2 => exact absurd h (by simp [readAt])
      | ptrv t ov => exact absurd h (by simp [readAt])
      | unsupportedv => exact absurd h (by simp [readAt])
      | struktv fs =>
        have h' : (match fs.get? i with
            | some fv => readAt fv rest
            | none => none) = some f := h
        rcases hget : fs.get? i with _ | fv
        · rw [hget] at h'; simp at h'
        · rw [hget] at h'
          obtain ⟨v2, hv2⟩ := ih fv h'
          refine ⟨.struktv (fs.set i v2), ?_⟩
          have hgoal : writeAt (GoVal.struktv fs) (.field i :: rest) w =
              (match fs.get? i with
               | some fv => (writeAt fv rest w).map (fun fv' => GoVal.struktv (fs.set i fv'))
               | none => none) := rfl
          rw [hgoal, hget]
          show (writeAt fv rest w).map (fun fv' => GoVal.struktv (fs.set i fv')) = _
          rw [hv2]
          rfl

theorem set_get?_self {α : Type} (l : List α) (i : Nat) (a : α) (h : l.get? i = some a) :
    l.set i a = l := by
  induction l generalizing i with
  | nil => simp at h
  | cons hd tl ih =>
    cases i with
    | zero =>
      have h' : some hd = some a := h
      cases Option.some.inj h'
      rfl
    | succ j =>
      have h' : tl.get? j = some a := h
      show hd :: tl.set j a = hd :: tl
      rw [ih j h']

theorem allocPtr_of_not_nil (v : GoVal) (h : isNilPtr v = false) : allocPtr v = v := by
  cases v <;> simp [allocPtr]
  next w => cases w <;> simp_all [isNilPtr]

/-- Writing back the value just read leaves the tree unchanged. -/
theorem writeAt_readAt_self (p : GoPath) (v f : GoVal) (h : readAt v p = some f) :
    writeAt v p f = some v := by
  induction p generalizing v with
  | nil =>
    simp only [readAt, Option.some.injEq] at h
    rw [h]
    rfl
  | cons st rest ih =>
    cases st with
    | deref =>
      cases v with
      | boolv b => exact absurd h (by simp [readAt])
      | intv v1 => exact absurd h (by simp [readAt])
      | uintv v1 => exact absurd h (by simp [readAt])
      | floatv b => exact absurd h (by simp [readAt])
      | complexv b => exact absurd h (by simp [readAt])
      | strv s => exact absurd h (by simp [readAt])
      | slicev e n l => exact absurd h (by simp [readAt])
      | mapv n e2 => exact absurd h (by simp [readAt])
      | struktv fs => exact absurd h (by simp [readAt])
      | unsupportedv => exact absurd h (by simp [readAt])
      | ptrv t ov =>
        cases ov with
        | none => exact absurd h (by simp [readAt])
        | some x =>
          have h' : readAt x rest = some f := h
          show (writeAt x rest f).map (fun x' => GoVal.ptrv t (some x')) = _
          rw [ih x h']
          rfl
    | field i =>
      cases v with
      | boolv b => exact absurd h (by simp [readAt])
      | intv v1 => exact absurd h (by simp [readAt])
      | uintv v1 => exact absurd h (by simp [readAt])
      | floatv b => exact absurd h (by simp [readAt])
      | complexv b => exact absurd h (by simp [readAt])
      | strv s => exact absurd h (by simp [readAt])
      | slicev e n l => exact absurd h (by simp [readAt])
      | mapv n e2 => exact absurd h (by simp [readAt])
      | ptrv t ov => exact absurd h (by simp [readAt])
      | unsupportedv => exact absurd h (by simp [readAt])
      | struktv fs =>
        have h' : (match fs.get? i with
            | some fv => readAt fv rest
            | none => none) = some f := h
        rcases hget : fs.get? i with _ | fv
        · rw [hget] at h'; simp at h'
        · rw [hget] at h'
          have hgoal : writeAt (GoVal.struktv fs) (.field i :: rest) f =
              (match fs.get? i with
               | some fv => (writeAt fv rest f).map (fun fv' => GoVal.struktv (fs.set i fv'))
               | none => none) := rfl
          rw [hgoal, hget]
          show (writeAt fv rest f).map (fun fv' => GoVal.struktv (fs.set i fv')) = _
          rw [ih fv h']
          simp [set_get?_self fs i fv hget]

/-- Navigating again after a write along the focused path finds the
written value and leaves the root untouched (all allocations were already
performed by the first navigation). -/
theorem fieldByIndex_writeAt (idx : List Nat) (root r1 : GoVal) (p : GoPath)
    (h : fieldByIndex root idx = some (r1, p)) (w r2 : GoVal)
    (hw : writeAt r1 p w = some r2) (hna : allocPtr w = w) :
    fieldByIndex r2 idx = some (r2, p) ∧ readAt r2 p = some w := by
  induction idx generalizing root r1 p r2 with
  | nil =>
    simp only [fieldByIndex, Option.some.injEq, Prod.mk.injEq] at h
    obtain ⟨h1, h2⟩ := h
    subst h1; subst h2
    simp only [writeAt, Option.some.injEq] at hw
    subst hw
    constructor
    · show some (allocPtr w, []) = some (w, [])
      rw [hna]
    · rfl
  | cons x rest ih =>
    -- the three root shapes share one core argument over the struct field list
    have core : ∀ (fs : List GoVal) (fv fv1 : GoVal) (p1 : GoPath) (r2' : GoVal)
        (hget : fs.get? x = some fv)
        (hrec : fieldByIndex fv rest = some (fv1, p1))
        (hw2 : writeAt (GoVal.struktv (fs.set x fv1)) (.field x :: p1) w = some r2'),
        ∃ fv2, writeAt fv1 p1 w = some fv2 ∧ r2' = .struktv (fs.set x fv2) ∧
          fieldByIndex fv2 rest = some (fv2, p1) ∧ readAt fv2 p1 = some w := by
      intro fs fv fv1 p1 r2' hget hrec hw2
      have hlt : x < fs.length := (List.get?_eq_some.mp hget).1
      have hgoal : writeAt (GoVal.struktv (fs.set x fv1)) (.field x :: p1) w =
          (match (fs.set x fv1).get? x with
           | some fv => (writeAt fv p1 w).map (fun fv' => GoVal.struktv ((fs.set x fv1).set x fv'))
           | none => none) := rfl
      rw [hgoal, get?_set_self fs x fv1 hlt] at hw2
      have hw3 : (writeAt fv1 p1 w).map
          (fun fv' => GoVal.struktv ((fs.set x fv1).set x fv')) = some r2' := hw2
      rcases hwv : writeAt fv1 p1 w with _ | fv2
      · rw [hwv] at hw3; simp at hw3
      · rw [hwv] at hw3
        simp only [Option.map_some', Option.some.injEq] at hw3
        obtain ⟨hfix, hread⟩ := ih fv fv1 p1 hrec fv2 hwv
        refine ⟨fv2, rfl, ?_, hfix, hread⟩
        rw [← hw3, List.set_set]
    cases root with
    | ptrv t w0 =>
      cases w0 with
      | none =>
        cases t with
        | bool => exact absurd h (by simp [fieldByIndex, zeroVal])
        | int => exact absurd h (by simp [fieldByIndex, zeroVal])
        | int8 => exact absurd h (by simp [fieldByIndex, zeroVal])
        | int16 => exact absurd h (by simp [fieldByIndex, zeroVal])
        | int32 => exact absurd h (by simp [fieldByIndex, zeroVal])
        | int64 => exact absurd h (by simp [fieldByIndex, zeroVal])
        | uint => exact absurd h (by simp [fieldByIndex, zeroVal])
        | uint8 => exact absurd h (by simp [fieldByIndex, zeroVal])
        | uint16 => exact absurd h (by simp [fieldByIndex, zeroVal])
        | uint32 => exact absurd h (by simp [fieldByIndex, zeroVal])
        | uint64 => exact absurd h (by simp [fieldByIndex, zeroVal])
        | float32 => exact absurd h (by simp [fieldByIndex, zeroVal])
        | float64 => exact absurd h (by simp [fieldByIndex, zeroVal])
        | complex64 => exact absurd h (by simp [fieldByIndex, zeroVal])
        | complex128 => exact absurd h (by simp [fieldByIndex, zeroVal])
        | str => exact absurd h (by simp [fieldByIndex, zeroVal])
        | slice e => exact absurd h (by simp [fieldByIndex, zeroVal])
        | gomap k v2 => exact absurd h (by simp [fieldByIndex, zeroVal])
        | ptr e => exact absurd h (by simp [fieldByIndex, zeroVal])
        | unsupported => exact absurd h (by simp [fieldByIndex, zeroVal])
        | strukt fs0 =>
          have h' : (match (zeroFields fs0).get? x with
              | some fv =>
                (fieldByIndex fv rest).map fun r =>
                  ((.ptrv (.strukt fs0) (some (.struktv ((zeroFields fs0).set x r.1))) : GoVal),
                    .deref :: .field x :: r.2)
              | none => none) = some (r1, p) := h
          rcases hget : (zeroFields fs0).get? x with _ | fv
          · rw [hget] at h'; simp at h'
          · rw [hget] at h'
            rw [Option.map_eq_some'] at h'
            obtain ⟨r, hrec, hr⟩ := h'
            obtain ⟨hr1, hp⟩ := Prod.mk.injEq .. ▸ hr
            subst hr1; subst hp
            have hw' : writeAt (GoVal.struktv ((zeroFields fs0).set x r.1)) (.field x :: r.2) w =
                some r2 →
                writeAt (GoVal.ptrv (.strukt fs0) (some (.struktv ((zeroFields fs0).set x r.1))))
                  (.deref :: .field x :: r.2) w =
                  some (.ptrv (.strukt fs0) (some r2)) := by
              intro hx
              show (writeAt (GoVal.struktv ((zeroFields fs0).set x r.1)) (.field x :: r.2) w).map
                (fun x' => GoVal.ptrv (.strukt fs0) (some x')) = _
              rw [hx]; rfl
            -- extract the inner write from hw
            have hw0 : (writeAt (GoVal.struktv ((zeroFields fs0).set x r.1)) (.field x :: r.2)
                w).map (fun x' => GoVal.ptrv (.strukt fs0) (some x')) = some r2 := hw
            rw [Option.map_eq_some'] at hw0
            obtain ⟨rin, hwin, hr2⟩ := hw0
            obtain ⟨fv2, hwv, hrinval, hfix, hread⟩ :=
              core (zeroFields fs0) fv r.1 r.2 rin hget (by rw [hrec]) hwin
            subst hr2
            subst hrinval
            constructor
            · show (match ((zeroFields fs0).set x fv2).get? x with
                | some fv =>
                  (fieldByIndex fv rest).map fun (r : GoVal × GoPath) =>
                    ((.ptrv (.strukt fs0) (some (.struktv (((zeroFields fs0).set x fv2).set x r.1))) : GoVal),
                      PStep.deref :: PStep.field x :: r.2)
                | none => none) = _
              have hlt : x < (zeroFields fs0).length := (List.get?_eq_some.mp hget).1
              rw [get?_set_self _ x fv2 hlt]
              show (fieldByIndex fv2 rest).map (fun (r : GoVal × GoPath) =>
                ((.ptrv (.strukt fs0) (some (.struktv (((zeroFields fs0).set x fv2).set x r.1))) : GoVal),
                  PStep.deref :: PStep.field x :: r.2)) = _
              rw [hfix]
              simp [List.set_set]
            · show readAt (GoVal.struktv ((zeroFields fs0).set x fv2)) (.field x :: r.2) = some w
              have hlt : x < (zeroFields fs0).length := (List.get?_eq_some.mp hget).1
              have hgoal2 : readAt (GoVal.struktv ((zeroFields fs0).set x fv2)) (.field x :: r.2) =
                  (match ((zeroFields fs0).set x fv2).get? x with
                   | some fv => readAt fv r.2
                   | none => none) := rfl
              rw [hgoal2, get?_set_self _ x fv2 hlt]
              exact hread
      | some iv =>
        cases iv with
        | boolv b => exact absurd h (by simp [fieldByIndex])
        | intv v1 => exact absurd h (by simp [fieldByIndex])
        | uintv v1 => exact absurd h (by simp [fieldByIndex])
        | floatv b => exact absurd h (by simp [fieldByIndex])
        | complexv b => exact absurd h (by simp [fieldByIndex])
        | strv s => exact absurd h (by simp [fieldByIndex])
        | slicev e n l => exact absurd h (by simp [fieldByIndex])
        | mapv n e2 => exact absurd h (by simp [fieldByIndex])
        | ptrv t2 w2 => exact absurd h (by simp [fieldByIndex])
        | unsupportedv => exact absurd h (by simp [fieldByIndex])
        | struktv fs =>
          have h' : (match fs.get? x with
              | some fv =>
                (fieldByIndex fv rest).map fun r =>
                  ((.ptrv t (some (.struktv (fs.set x r.1))) : GoVal),
                    .deref :: .field x :: r.2)
              | none => none) = some (r1, p) := h
          rcases hget : fs.get? x with _ | fv
          · rw [hget] at h'; simp at h'
          · rw [hget] at h'
            rw [Option.map_eq_some'] at h'
            obtain ⟨r, hrec, hr⟩ := h'
            obtain ⟨hr1, hp⟩ := Prod.mk.injEq .. ▸ hr
            subst hr1; subst hp
            have hw0 : (writeAt (GoVal.struktv (fs.set x r.1)) (.field x :: r.2)
                w).map (fun x' => GoVal.ptrv t (some x')) = some r2 := hw
            rw [Option.map_eq_some'] at hw0
            obtain ⟨rin, hwin, hr2⟩ := hw0
            obtain ⟨fv2, hwv, hrinval, hfix, hread⟩ :=
              core fs fv r.1 r.2 rin hget (by rw [hrec]) hwin
            subst hr2
            subst hrinval
            constructor
            · show (match (fs.set x fv2).get? x with
                | some fv =>
                  (fieldByIndex fv rest).map fun (r : GoVal × GoPath) =>
                    ((.ptrv t (some (.struktv ((fs.set x fv2).set x r.1))) : GoVal),
                      PStep.deref :: PStep.field x :: r.2)
                | none => none) = _
              have hlt : x < fs.length := (List.get?_eq_some.mp hget).1
              rw [get?_set_self _ x fv2 hlt]
              show (fieldByIndex fv2 rest).map (fun (r : GoVal × GoPath) =>
                ((.ptrv t (some (.struktv ((fs.set x fv2).set x r.1))) : GoVal),
                  PStep.deref :: PStep.field x :: r.2)) = _
              rw [hfix]
              simp [List.set_set]
            · show readAt (GoVal.struktv (fs.set x fv2)) (.field x :: r.2) = some w
              have hlt : x < fs.length := (List.get?_eq_some.mp hget).1
              have hgoal2 : readAt (GoVal.struktv (fs.set x fv2)) (.field x :: r.2) =
                  (match (fs.set x fv2).get? x with
                   | some fv => readAt fv r.2
                   | none => none) := rfl
              rw [hgoal2, get?_set_self _ x fv2 hlt]
              exact hread
    | struktv fs =>
      have h' : (match fs.get? x with
          | some fv =>
            (fieldByIndex fv rest).map fun r =>
              ((.struktv (fs.set x r.1) : GoVal), .field x :: r.2)
          | none => none) = some (r1, p) := h
      rcases hget : fs.get? x with _ | fv
      · rw [hget] at h'; simp at h'
      · rw [hget] at h'
        rw [Option.map_eq_some'] at h'
        obtain ⟨r, hrec, hr⟩ := h'
        obtain ⟨hr1, hp⟩ := Prod.mk.injEq .. ▸ hr
        subst hr1; subst hp
        obtain ⟨fv2, hwv, hrinval, hfix, hread⟩ := core fs fv r.1 r.2 r2 hget (by rw [hrec]) hw
        subst hrinval
        constructor
        · show (match (fs.set x fv2).get? x with
            | some fv =>
              (fieldByIndex fv rest).map fun (r : GoVal × GoPath) =>
                ((.struktv ((fs.set x fv2).set x r.1) : GoVal), PStep.field x :: r.2)
            | none => none) = _
          have hlt : x < fs.length := (List.get?_eq_some.mp hget).1
          rw [get?_set_self _ x fv2 hlt]
          show (fieldByIndex fv2 rest).map (fun (r : GoVal × GoPath) =>
            ((.struktv ((fs.set x fv2).set x r.1) : GoVal), PStep.field x :: r.2)) = _
          rw [hfix]
          simp [List.set_set]
        · show readAt (GoVal.struktv (fs.set x fv2)) (.field x :: r.2) = some w
          have hlt : x < fs.length := (List.get?_eq_some.mp hget).1
          have hgoal2 : readAt (GoVal.struktv (fs.set x fv2)) (.field x :: r.2) =
              (match (fs.set x fv2).get? x with
               | some fv => readAt fv r.2
               | none => none) := rfl
          rw [hgoal2, get?_set_self _ x fv2 hlt]
          exact hread
    | boolv b => exact absurd h (by simp [fieldByIndex])
    | intv v => exact absurd h (by simp [fieldByIndex])
    | uintv v => exact absurd h (by simp [fieldByIndex])
    | floatv b => exact absurd h (by simp [fieldByIndex])
    | complexv b => exact absurd h (by simp [fieldByIndex])
    | strv s => exact absurd h (by simp [fieldByIndex])
    | slicev e n l => exact absurd h (by simp [fieldByIndex])
    | mapv n e => exact absurd h (by simp [fieldByIndex])
    | unsupportedv => exact absurd h (by simp [fieldByIndex])

/-- Navigation is idempotent: allocations happen only on the first pass. -/
theorem fieldByIndex_idem (idx : List Nat) (root r1 : GoVal) (p : GoPath)
    (h : fieldByIndex root idx = some (r1, p)) :
    fieldByIndex r1 idx = some (r1, p) := by
  obtain ⟨f, hf, hnil⟩ := fieldByIndex_readAt idx root r1 p h
  have hw := writeAt_readAt_self p r1 f hf
  exact (fieldByIndex_writeAt idx root r1 p h f r1 hw (allocPtr_of_not_nil f hnil)).1

theorem elemIfPtr_of_not_ptr (v : GoVal) (h : isPtrVal v = false) : elemIfPtr v = v := by
  cases v <;> simp_all [isPtrVal, elemIfPtr]

theorem allocPtr_of_not_ptr (v : GoVal) (h : isPtrVal v = false) : allocPtr v = v := by
  cases v <;> simp_all [isPtrVal, allocPtr]

/-- A non-empty index list yields a non-empty focus path. -/
theorem fieldByIndex_cons_path (x0 : Nat) (rest : List Nat) (root r1 : GoVal) (p : GoPath)
    (h : fieldByIndex root (x0 :: rest) = some (r1, p)) : ∃ st p0, p = st :: p0 := by
  cases root with
  | ptrv t w =>
    cases w with
    | none =>
      cases t with
      | bool => exact absurd h (by simp [fieldByIndex, zeroVal])
      | int => exact absurd h (by simp [fieldByIndex, zeroVal])
      | int8 => exact absurd h (by simp [fieldByIndex, zeroVal])
      | int16 => exact absurd h (by simp [fieldByIndex, zeroVal])
      | int32 => exact absurd h (by simp [fieldByIndex, zeroVal])
      | int64 => exact absurd h (by simp [fieldByIndex, zeroVal])
      | uint => exact absurd h (by simp [fieldByIndex, zeroVal])
      | uint8 => exact absurd h (by simp [fieldByIndex, zeroVal])
      | uint16 => exact absurd h (by simp [fieldByIndex, zeroVal])
      | uint32 => exact absurd h (by simp [fieldByIndex, zeroVal])
      | uint64 => exact absurd h (by simp [fieldByIndex, zeroVal])
      | float32 => exact absurd h (by simp [fieldByIndex, zeroVal])
      | float64 => exact absurd h (by simp [fieldByIndex, zeroVal])
      | complex64 => exact absurd h (by simp [fieldByIndex, zeroVal])
      | complex128 => exact absurd h (by simp [fieldByIndex, zeroVal])
      | str => exact absurd h (by simp [fieldByIndex, zeroVal])
      | slice e => exact absurd h (by simp [fieldByIndex, zeroVal])
      | gomap k v2 => exact absurd h (by simp [fieldByIndex, zeroVal])
      | ptr e => exact absurd h (by simp [fieldByIndex, zeroVal])
      | unsupported => exact absurd h (by simp [fieldByIndex, zeroVal])
      | strukt fs0 =>
        have h' : (match (zeroFields fs0).get? x0 with
            | some fv =>
              (fieldByIndex fv rest).map fun r =>
                ((.ptrv (.strukt fs0) (some (.struktv ((zeroFields fs0).set x0 r.1))) : GoVal),
                  .deref :: .field x0 :: r.2)
            | none => none) = some (r1, p) := h
        rcases hget : (zeroFields fs0).get? x0 with _ | fv
        · rw [hget] at h'; simp at h'
        · rw [hget] at h'
          rw [Option.map_eq_some'] at h'
          obtain ⟨r, _, hr⟩ := h'
          exact ⟨.deref, .field x0 :: r.2, ((Prod.mk.injEq _ _ _ _).mp hr).2.symm⟩
    | some iv =>
      cases iv with
      | boolv b => exact absurd h (by simp [fieldByIndex])
      | intv v1 => exact absurd h (by simp [fieldByIndex])
      | uintv v1 => exact absurd h (by simp [fieldByIndex])
      | floatv b => exact absurd h (by simp [fieldByIndex])
      | complexv b => exact absurd h (by simp [fieldByIndex])
      | strv s => exact absurd h (by simp [fieldByIndex])
      | slicev e n l => exact absurd h (by simp [fieldByIndex])
      | mapv n e2 => exact absurd h (by simp [fieldByIndex])
      | ptrv t2 w2 => exact absurd h (by simp [fieldByIndex])
      | unsupportedv => exact absurd h (by simp [fieldByIndex])
      | struktv fs =>
        have h' : (match fs.get? x0 with
            | some fv =>
              (fieldByIndex fv rest).map fun r =>
                ((.ptrv t (some (.struktv (fs.set x0 r.1))) : GoVal),
                  .deref :: .field x0 :: r.2)
            | none => none) = some (r1, p) := h
        rcases hget : fs.get? x0 with _ | fv
        · rw [hget] at h'; simp at h'
        · rw [hget] at h'
          rw [Option.map_eq_some'] at h'
          obtain ⟨r, _, hr⟩ := h'
          exact ⟨.deref, .field x0 :: r.2, ((Prod.mk.injEq _ _ _ _).mp hr).2.symm⟩
  | struktv fs =>
    have h' : (match fs.get? x0 with
        | some fv =>
          (fieldByIndex fv rest).map fun r =>
            ((.struktv (fs.set x0 r.1) : GoVal), .field x0 :: r.2)
        | none => none) = some (r1, p) := h
    rcases hget : fs.get? x0 with _ | fv
    · rw [hget] at h'; simp at h'
    · rw [hget] at h'
      rw [Option.map_eq_some'] at h'
      obtain ⟨r, _, hr⟩ := h'
      exact ⟨.field x0, r.2, ((Prod.mk.injEq _ _ _ _).mp hr).2.symm⟩
  | boolv b => exact absurd h (by simp [fieldByIndex])
  | intv v => exact absurd h (by simp [fieldByIndex])
  | uintv v => exact absurd h (by simp [fieldByIndex])
  | floatv b => exact absurd h (by simp [fieldByIndex])
  | complexv b => exact absurd h (by simp [fieldByIndex])
  | strv s => exact absurd h (by simp [fieldByIndex])
  | slicev e n l => exact absurd h (by simp [fieldByIndex])
  | mapv n e => exact absurd h (by simp [fieldByIndex])
  | unsupportedv => exact absurd h (by simp [fieldByIndex])

/-- The net effect of `reflectValueSet` at a navigated focus: the install
succeeds, navigation afterwards is stable, and the (pointer-unwrapped)
value now at the focus is the (pointer-unwrapped) source. -/
theorem reflectValueSetAt_effect (idx : List Nat) (root r1 : GoVal) (p : GoPath) (src x : GoVal)
    (h : fieldByIndex root idx = some (r1, p))
    (hx : readAt r1 p = some x)
    (hsrc1 : isNilPtr src = false)
    (hsrc2 : isPtrVal (elemIfPtr src) = false)
    (hroot : idx = [] → ∃ t0 y, x = .ptrv t0 (some y) ∧ isPtrVal y = false) :
    ∃ r2 f2, reflectValueSetAt r1 p src = some r2 ∧
      fieldByIndex r2 idx = some (r2, p) ∧
      readAt r2 p = some f2 ∧ elemIfPtr f2 = elemIfPtr src ∧
      (idx = [] → ∃ t0, f2 = .ptrv t0 (some (elemIfPtr src))) := by
  cases idx with
  | nil =>
    simp only [fieldByIndex, Option.some.injEq, Prod.mk.injEq] at h
    obtain ⟨h1, h2⟩ := h
    obtain ⟨t0, y, hx1, hy⟩ := hroot rfl
    subst h2
    have hx' : allocPtr root = x := by
      rw [← h1] at hx
      exact Option.some.inj hx
    rw [← h1, hx', hx1]
    clear h1 hx' hx hroot
    cases y
    case ptrv => exact absurd hy (by simp [isPtrVal])
    all_goals (
      cases src with
      | ptrv ts os =>
        cases os with
        | none => exact absurd hsrc1 (by simp [isNilPtr])
        | some s => exact ⟨_, _, rfl, rfl, rfl, rfl, fun _ => ⟨_, rfl⟩⟩
      | _ => exact ⟨_, _, rfl, rfl, rfl, rfl, fun _ => ⟨_, rfl⟩⟩)
  | cons x0 rest =>
    obtain ⟨st, p0, hp⟩ := fieldByIndex_cons_path x0 rest root r1 p h
    have go : ∀ (wv : GoVal), allocPtr wv = wv → elemIfPtr wv = elemIfPtr src →
        reflectValueSetAt r1 p src = writeAt r1 p wv →
        ∃ r2 f2, reflectValueSetAt r1 p src = some r2 ∧
          fieldByIndex r2 (x0 :: rest) = some (r2, p) ∧
          readAt r2 p = some f2 ∧ elemIfPtr f2 = elemIfPtr src ∧
          ((x0 :: rest : List Nat) = [] → ∃ t0, f2 = .ptrv t0 (some (elemIfPtr src))) := by
      intro wv hna hel hgoal
      obtain ⟨r2, hr2⟩ := writeAt_of_readAt p r1 x hx wv
      obtain ⟨hfix, hread⟩ := fieldByIndex_writeAt (x0 :: rest) root r1 p h wv r2 hr2 hna
      exact ⟨r2, wv, by rw [hgoal, hr2], hfix, hread, by rw [hel],
        fun hh => absurd hh (List.cons_ne_nil x0 rest)⟩
    have hsrcd : (∃ ts s, src = GoVal.ptrv ts (some s)) ∨ isPtrVal src = false := by
      cases src with
      | ptrv ts os =>
        cases os with
        | none => exact absurd hsrc1 (by simp [isNilPtr])
        | some s => exact Or.inl ⟨ts, s, rfl⟩
      | boolv b => exact Or.inr rfl
      | intv v1 => exact Or.inr rfl
      | uintv v1 => exact Or.inr rfl
      | floatv b => exact Or.inr rfl
      | complexv b => exact Or.inr rfl
      | strv s => exact Or.inr rfl
      | slicev e n l => exact Or.inr rfl
      | mapv n e => exact Or.inr rfl
      | struktv fs => exact Or.inr rfl
      | unsupportedv => exact Or.inr rfl
    subst hp
    cases x with
    | ptrv t w =>
      cases src with
      | ptrv ts os =>
        cases os with
        | none => exact absurd hsrc1 (by simp [isNilPtr])
        | some s =>
          refine go (.ptrv ts (some s)) rfl rfl ?_
          unfold reflectValueSetAt
          rw [hx]
      | boolv b =>
        refine go (.ptrv t (some (.boolv b))) rfl rfl ?_
        unfold reflectValueSetAt
        rw [hx]
      | intv v1 =>
        refine go (.ptrv t (some (.intv v1))) rfl rfl ?_
        unfold reflectValueSetAt
        rw [hx]
      | uintv v1 =>
        refine go (.ptrv t (some (.uintv v1))) rfl rfl ?_
        unfold reflectValueSetAt
        rw [hx]
      | floatv b =>
        refine go (.ptrv t (some (.floatv b))) rfl rfl ?_
        unfold reflectValueSetAt
        rw [hx]
      | complexv b =>
        refine go (.ptrv t (some (.complexv b))) rfl rfl ?_
        unfold reflectValueSetAt
        rw [hx]
      | strv s =>
        refine go (.ptrv t (some (.strv s))) rfl rfl ?_
        unfold reflectValueSetAt
        rw [hx]
      | slicev e n l =>
        refine go (.ptrv t (some (.slicev e n l))) rfl rfl ?_
        unfold reflectValueSetAt
        rw [hx]
      | mapv n e =>
        refine go (.ptrv t (some (.mapv n e))) rfl rfl ?_
        unfold reflectValueSetAt
        rw [hx]
      | struktv fs =>
        refine go (.ptrv t (some (.struktv fs))) rfl rfl ?_
        unfold reflectValueSetAt
        rw [hx]
      | unsupportedv =>
        refine go (.ptrv t (some .unsupportedv)) rfl rfl ?_
        unfold reflectValueSetAt
        rw [hx]
    | boolv b =>
      rcases hsrcd with ⟨ts, s, rfl⟩ | hnonptr
      · refine go s (allocPtr_of_not_ptr s (by simpa [elemIfPtr, isPtrVal] using hsrc2))
          (elemIfPtr_of_not_ptr s (by simpa [elemIfPtr, isPtrVal] using hsrc2)) ?_
        unfold reflectValueSetAt
        rw [hx]
      · refine go src (allocPtr_of_not_ptr src hnonptr) rfl ?_
        cases src
        case ptrv => simp [isPtrVal] at hnonptr
        all_goals (unfold reflectValueSetAt; rw [hx])
    | intv v1 =>
      rcases hsrcd with ⟨ts, s, rfl⟩ | hnonptr
      · refine go s (allocPtr_of_not_ptr s (by simpa [elemIfPtr, isPtrVal] using hsrc2))
          (elemIfPtr_of_not_ptr s (by simpa [elemIfPtr, isPtrVal] using hsrc2)) ?_
        unfold reflectValueSetAt
        rw [hx]
      · refine go src (allocPtr_of_not_ptr src hnonptr) rfl ?_
        cases src
        case ptrv => simp [isPtrVal] at hnonptr
        all_goals (unfold reflectValueSetAt; rw [hx])
    | uintv v1 =>
      rcases hsrcd with ⟨ts, s, rfl⟩ | hnonptr
      · refine go s (allocPtr_of_not_ptr s (by simpa [elemIfPtr, isPtrVal] using hsrc2))
          (elemIfPtr_of_not_ptr s (by simpa [elemIfPtr, isPtrVal] using hsrc2)) ?_
        unfold reflectValueSetAt
        rw [hx]
      · refine go src (allocPtr_of_not_ptr src hnonptr) rfl ?_
        cases src
        case ptrv => simp [isPtrVal] at hnonptr
        all_goals (unfold reflectValueSetAt; rw [hx])
    | floatv b =>
      rcases hsrcd with ⟨ts, s, rfl⟩ | hnonptr
      · refine go s (allocPtr_of_not_ptr s (by simpa [elemIfPtr, isPtrVal] using hsrc2))
          (elemIfPtr_of_not_ptr s (by simpa [elemIfPtr, isPtrVal] using hsrc2)) ?_
        unfold reflectValueSetAt
        rw [hx]
      · refine go src (allocPtr_of_not_ptr src hnonptr) rfl ?_
        cases src
        case ptrv => simp [isPtrVal] at hnonptr
        all_goals (unfold reflectValueSetAt; rw [hx])
    | complexv b =>
      rcases hsrcd with ⟨ts, s, rfl⟩ | hnonptr
      · refine go s (allocPtr_of_not_ptr s (by simpa [elemIfPtr, isPtrVal] using hsrc2))
          (elemIfPtr_of_not_ptr s (by simpa [elemIfPtr, isPtrVal] using hsrc2)) ?_
        unfold reflectValueSetAt
        rw [hx]
      · refine go src (allocPtr_of_not_ptr src hnonptr) rfl ?_
        cases src
        case ptrv => simp [isPtrVal] at hnonptr
        all_goals (unfold reflectValueSetAt; rw [hx])
    | strv s1 =>
      rcases hsrcd with ⟨ts, s, rfl⟩ | hnonptr
      · refine go s (allocPtr_of_not_ptr s (by simpa [elemIfPtr, isPtrVal] using hsrc2))
          (elemIfPtr_of_not_ptr s (by simpa [elemIfPtr, isPtrVal] using hsrc2)) ?_
        unfold reflectValueSetAt
        rw [hx]
      · refine go src (allocPtr_of_not_ptr src hnonptr) rfl ?_
        cases src
        case ptrv => simp [isPtrVal] at hnonptr
        all_goals (unfold reflectValueSetAt; rw [hx])
    | slicev e n l =>
      rcases hsrcd with ⟨ts, s, rfl⟩ | hnonptr
      · refine go s (allocPtr_of_not_ptr s (by simpa [elemIfPtr, isPtrVal] using hsrc2))
          (elemIfPtr_of_not_ptr s (by simpa [elemIfPtr, isPtrVal] using hsrc2)) ?_
        unfold reflectValueSetAt
        rw [hx]
      · refine go src (allocPtr_of_not_ptr src hnonptr) rfl ?_
        cases src
        case ptrv => simp [isPtrVal] at hnonptr
        all_goals (unfold reflectValueSetAt; rw [hx])
    | mapv n e =>
      rcases hsrcd with ⟨ts, s, rfl⟩ | hnonptr
      · refine go s (allocPtr_of_not_ptr s (by simpa [elemIfPtr, isPtrVal] using hsrc2))
          (elemIfPtr_of_not_ptr s (by simpa [elemIfPtr, isPtrVal] using hsrc2)) ?_
        unfold reflectValueSetAt
        rw [hx]
      · refine go src (allocPtr_of_not_ptr src hnonptr) rfl ?_
        cases src
        case ptrv => simp [isPtrVal] at hnonptr
        all_goals (unfold reflectValueSetAt; rw [hx])
    | struktv fs =>
      rcases hsrcd with ⟨ts, s, rfl⟩ | hnonptr
      · refine go s (allocPtr_of_not_ptr s (by simpa [elemIfPtr, isPtrVal] using hsrc2))
          (elemIfPtr_of_not_ptr s (by simpa [elemIfPtr, isPtrVal] using hsrc2)) ?_
        unfold reflectValueSetAt
        rw [hx]
      · refine go src (allocPtr_of_not_ptr src hnonptr) rfl ?_
        cases src
        case ptrv => simp [isPtrVal] at hnonptr
        all_goals (unfold reflectValueSetAt; rw [hx])
    | unsupportedv =>
      rcases hsrcd with ⟨ts, s, rfl⟩ | hnonptr
      · refine go s (allocPtr_of_not_ptr s (by simpa [elemIfPtr, isPtrVal] using hsrc2))
          (elemIfPtr_of_not_ptr s (by simpa [elemIfPtr, isPtrVal] using hsrc2)) ?_
        unfold reflectValueSetAt
        rw [hx]
      · refine go src (allocPtr_of_not_ptr src hnonptr) rfl ?_
        cases src
        case ptrv => simp [isPtrVal] at hnonptr
        all_goals (unfold reflectValueSetAt; rw [hx])

/-- C3: for a map-kind or record-kind node, a failed decode returns an
error having touched nothing (decoding happens into a fresh temporary
before `val.get()` is even called), and two successful `Set`s leave at the
focus exactly what the second document decodes to, with no residue from
the first. -/
theorem c3_map_struct_replace_and_error
    (fc : FloatStrconv) (unmarshal : JSONUnmarshal) (val : Value) (root r1 : GoVal) (p : GoPath) (x : GoVal)
    (D1 D2 : String) (v1 v2 : GoVal)
    (hkind : val.kind = .gomap ∨ val.kind = .strukt)
    (hnav : fieldByIndex root val.fieldsIndexes = some (r1, p))
    (hx : readAt r1 p = some x)
    (hroot : val.fieldsIndexes = [] → ∃ t0 y, x = .ptrv t0 (some y) ∧ isPtrVal y = false) :
    (∀ D, unmarshal (elemIfPtrType val.typ) D = none →
      Value.SetM fc unmarshal val root D = some (.error .jsonUnmarshalErr)) ∧
    (unmarshal (elemIfPtrType val.typ) D1 = some v1 → isPtrVal v1 = false →
     unmarshal (elemIfPtrType val.typ) D2 = some v2 → isPtrVal v2 = false →
     ∃ r2 r3 f3,
       Value.SetM fc unmarshal val root D1 = some (.ok r2) ∧
       Value.SetM fc unmarshal val r2 D2 = some (.ok r3) ∧
       readAt r3 p = some f3 ∧ elemIfPtr f3 = v2) := by
  constructor
  · intro D hD
    rcases hkind with hk | hk <;>
      simp [Value.SetM, setFnOf, hk, mapValueSet, structValueSet, hD]
  · intro h1 hv1 h2 hv2
    have hset : ∀ (rt : GoVal) (D : String) (v : GoVal),
        unmarshal (elemIfPtrType val.typ) D = some v →
        Value.SetM fc unmarshal val rt D =
          ((fieldByIndex rt val.fieldsIndexes).bind fun r =>
            reflectValueSetAt r.1 r.2 (.ptrv (elemIfPtrType val.typ) (some v))).map .ok := by
      intro rt D v hD
      rcases hkind with hk | hk <;>
        simp [Value.SetM, setFnOf, hk, mapValueSet, structValueSet, hD, valGet]
    obtain ⟨r2, f2, hw1, hfix1, hread1, hel1, hshape1⟩ :=
      reflectValueSetAt_effect val.fieldsIndexes root r1 p
        (.ptrv (elemIfPtrType val.typ) (some v1)) x hnav hx rfl
        (by simpa [elemIfPtr] using hv1) hroot
    obtain ⟨r3, f3, hw2, hfix2, hread2, hel2, hshape2⟩ :=
      reflectValueSetAt_effect val.fieldsIndexes r2 r2 p
        (.ptrv (elemIfPtrType val.typ) (some v2)) f2 hfix1 hread1 rfl
        (by simpa [elemIfPtr] using hv2)
        (fun hh => by
          obtain ⟨t0, hf2⟩ := hshape1 hh
          exact ⟨t0, v1, by rw [hf2]; rfl, hv1⟩)
    refine ⟨r2, r3, f3, ?_, ?_, hread2, by simpa [elemIfPtr] using hel2⟩
    · rw [hset root D1 v1 h1, hnav]
      simp [hw1]
    · rw [hset r2 D2 v2 h2, hfix1]
      simp [hw2]

/-- Closed witness for C3: a struct node over `*struct{A string}`; decoding
failure yields an error, and setting twice leaves the second decode. -/
theorem c3_map_struct_replace_and_error_witness :
    (Value.SetM trivialFloatStrconv (fun _ _ => none)
      (newStructValue (.ptr (.strukt [("A", true, .str)])) [] [])
      (.ptrv (.strukt [("A", true, .str)]) (some (.struktv [.strv ""]))) "oops" =
      some (.error .jsonUnmarshalErr)) ∧
    (∃ r2 r3 f3,
      Value.SetM trivialFloatStrconv (fun _ D => some (.struktv [.strv D]))
        (newStructValue (.ptr (.strukt [("A", true, .str)])) [] [])
        (.ptrv (.strukt [("A", true, .str)]) (some (.struktv [.strv ""]))) "one" =
        some (.ok r2) ∧
      Value.SetM trivialFloatStrconv (fun _ D => some (.struktv [.strv D]))
        (newStructValue (.ptr (.strukt [("A", true, .str)])) [] []) r2 "two" =
        some (.ok r3) ∧
      readAt r3 [] = some f3 ∧ elemIfPtr f3 = .struktv [.strv "two"]) := by
  constructor
  · exact (c3_map_struct_replace_and_error trivialFloatStrconv (fun _ _ => none)
      (newStructValue (.ptr (.strukt [("A", true, .str)])) [] [])
      (.ptrv (.strukt [("A", true, .str)]) (some (.struktv [.strv ""])))
      (.ptrv (.strukt [("A", true, .str)]) (some (.struktv [.strv ""]))) []
      (.ptrv (.strukt [("A", true, .str)]) (some (.struktv [.strv ""])))
      "one" "two" (.struktv [.strv "one"]) (.struktv [.strv "two"])
      (Or.inr rfl) rfl rfl
      (fun _ => ⟨.strukt [("A", true, .str)], .struktv [.strv ""], rfl, rfl⟩)).1 "oops" rfl
  · exact (c3_map_struct_replace_and_error trivialFloatStrconv (fun _ D => some (.struktv [.strv D]))
      (newStructValue (.ptr (.strukt [("A", true, .str)])) [] [])
      (.ptrv (.strukt [("A", true, .str)]) (some (.struktv [.strv ""])))
      (.ptrv (.strukt [("A", true, .str)]) (some (.struktv [.strv ""]))) []
      (.ptrv (.strukt [("A", true, .str)]) (some (.struktv [.strv ""])))
      "one" "two" (.struktv [.strv "one"]) (.struktv [.strv "two"])
      (Or.inr rfl) rfl rfl
      (fun _ => ⟨.strukt [("A", true, .str)], .struktv [.strv ""], rfl, rfl⟩)).2
      rfl rfl rfl rfl

/-- `reflect.Append` through `reflectValueAppend` appends exactly the
element, behind a fresh pointer when the slice's element type is a
pointer type (`[]*T`). -/
theorem reflectValueAppend_scalar (elemTy : GoType) (nl : Bool) (L : List GoVal) (v : GoVal)
    (hv : isPtrVal v = false) :
    reflectValueAppend (.slicev elemTy nl L) v =
      some (.slicev elemTy false (L ++ [adjustToElemTy elemTy v])) := by
  cases elemTy <;> cases v <;>
    simp_all [reflectValueAppend, elemIfPtr, isPtrVal, adjustToElemTy]

/-- The element a scalar-slice setter decodes is never a pointer. -/
theorem scalarSliceDecode_not_ptr (fc : FloatStrconv) (k : CodecKind) (s : String) (v : GoVal)
    (h : scalarSliceDecode fc k s = some v) : isPtrVal v = false := by
  cases k
  case bool => exact absurd h (by simp [scalarSliceDecode])
  case int => exact absurd h (by simp [scalarSliceDecode])
  case int8 => exact absurd h (by simp [scalarSliceDecode])
  case int16 => exact absurd h (by simp [scalarSliceDecode])
  case int32 => exact absurd h (by simp [scalarSliceDecode])
  case int64 => exact absurd h (by simp [scalarSliceDecode])
  case uint => exact absurd h (by simp [scalarSliceDecode])
  case uint8 => exact absurd h (by simp [scalarSliceDecode])
  case uint16 => exact absurd h (by simp [scalarSliceDecode])
  case uint32 => exact absurd h (by simp [scalarSliceDecode])
  case uint64 => exact absurd h (by simp [scalarSliceDecode])
  case float32 => exact absurd h (by simp [scalarSliceDecode])
  case float64 => exact absurd h (by simp [scalarSliceDecode])
  case complex64 => exact absurd h (by simp [scalarSliceDecode])
  case complex128 => exact absurd h (by simp [scalarSliceDecode])
  case str => exact absurd h (by simp [scalarSliceDecode])
  case bytes => exact absurd h (by simp [scalarSliceDecode])
  case gomap => exact absurd h (by simp [scalarSliceDecode])
  case strukt => exact absurd h (by simp [scalarSliceDecode])
  case sliceSlice => exact absurd h (by simp [scalarSliceDecode])
  case mapSlice => exact absurd h (by simp [scalarSliceDecode])
  case structSlice => exact absurd h (by simp [scalarSliceDecode])
  case boolSlice =>
    simp only [scalarSliceDecode] at h
    rcases hp : parseBool s with _ | n <;> rw [hp] at h <;> simp [Except.toOption] at h
    rw [← h]; rfl
  case strSlice =>
    simp only [scalarSliceDecode] at h
    simp at h
    rw [← h]; rfl
  case bytesSlice =>
    simp only [scalarSliceDecode] at h
    rcases hp : base64DecodeString s with _ | bs <;> rw [hp] at h <;> simp [Except.toOption] at h
    rw [← h]; rfl
  case intSlice =>
    simp only [scalarSliceDecode] at h
    rcases hp : parseInt s with _ | n <;> rw [hp] at h <;> simp [Except.toOption] at h
    rw [← h]; rfl
  case int8Slice =>
    simp only [scalarSliceDecode] at h
    rcases hp : parseInt8 s with _ | n <;> rw [hp] at h <;> simp [Except.toOption] at h
    rw [← h]; rfl
  case int16Slice =>
    simp only [scalarSliceDecode] at h
    rcases hp : parseInt16 s with _ | n <;> rw [hp] at h <;> simp [Except.toOption] at h
    rw [← h]; rfl
  case int32Slice =>
    simp only [scalarSliceDecode] at h
    rcases hp : parseInt32 s with _ | n <;> rw [hp] at h <;> simp [Except.toOption] at h
    rw [← h]; rfl
  case int64Slice =>
    simp only [scalarSliceDecode] at h
    rcases hp : parseInt64 s with _ | n <;> rw [hp] at h <;> simp [Except.toOption] at h
    rw [← h]; rfl
  case uintSlice =>
    simp only [scalarSliceDecode] at h
    rcases hp : parseUint s with _ | n <;> rw [hp] at h <;> simp [Except.toOption] at h
    rw [← h]; rfl
  case uint8Slice =>
    simp only [scalarSliceDecode] at h
    rcases hp : parseUint8 s with _ | n <;> rw [hp] at h <;> simp [Except.toOption] at h
    rw [← h]; rfl
  case uint16Slice =>
    simp only [scalarSliceDecode] at h
    rcases hp : parseUint16 s with _ | n <;> rw [hp] at h <;> simp [Except.toOption] at h
    rw [← h]; rfl
  case uint32Slice =>
    simp only [scalarSliceDecode] at h
    rcases hp : parseUint32 s with _ | n <;> rw [hp] at h <;> simp [Except.toOption] at h
    rw [← h]; rfl
  case uint64Slice =>
    simp only [scalarSliceDecode] at h
    rcases hp : parseUint64 s with _ | n <;> rw [hp] at h <;> simp [Except.toOption] at h
    rw [← h]; rfl
  case float32Slice =>
    simp only [scalarSliceDecode] at h
    rcases hp : fc.parseFloat 32 s with _ | n <;> rw [hp] at h <;> simp [Except.toOption] at h
    rw [← h]; rfl
  case float64Slice =>
    simp only [scalarSliceDecode] at h
    rcases hp : fc.parseFloat 64 s with _ | n <;> rw [hp] at h <;> simp [Except.toOption] at h
    rw [← h]; rfl
  case complex64Slice =>
    simp only [scalarSliceDecode] at h
    rcases hp : fc.parseComplex 64 s with _ | n <;> rw [hp] at h <;> simp [Except.toOption] at h
    rw [← h]; rfl
  case complex128Slice =>
    simp only [scalarSliceDecode] at h
    rcases hp : fc.parseComplex 128 s with _ | n <;> rw [hp] at h <;> simp [Except.toOption] at h
    rw [← h]; rfl

/-- Net effect of the shared scalar-slice setter core: the decoded element
(adjusted to the slice's element type) is appended to the focused slice,
nothing is replaced. -/
theorem sliceAppendAt_effect (val : Value) (root r1 : GoVal) (p : GoPath) (x : GoVal)
    (elemTy : GoType) (nl : Bool) (L : List GoVal) (ev : GoVal)
    (hnav : fieldByIndex root val.fieldsIndexes = some (r1, p))
    (hx : readAt r1 p = some x)
    (hslice : elemIfPtr x = .slicev elemTy nl L)
    (hev : isPtrVal ev = false)
    (hroot : val.fieldsIndexes = [] → ∃ t0 y, x = .ptrv t0 (some y) ∧ isPtrVal y = false) :
    ∃ r2 f2, sliceAppendAt val root ev = some r2 ∧
      fieldByIndex r2 val.fieldsIndexes = some (r2, p) ∧
      readAt r2 p = some f2 ∧
      elemIfPtr f2 = .slicev elemTy false (L ++ [adjustToElemTy elemTy ev]) ∧
      (val.fieldsIndexes = [] → ∃ t0 y, f2 = .ptrv t0 (some y) ∧ isPtrVal y = false) := by
  have happ := reflectValueAppend_scalar elemTy nl L ev hev
  obtain ⟨r2, f2, hw, hfix, hread, hel, hshape⟩ :=
    reflectValueSetAt_effect val.fieldsIndexes root r1 p
      (.slicev elemTy false (L ++ [adjustToElemTy elemTy ev])) x
      hnav hx rfl rfl hroot
  refine ⟨r2, f2, ?_, hfix, hread, by simpa [elemIfPtr] using hel, ?_⟩
  · show ((valGet val root).bind fun r =>
      (readAt r.1 r.2).bind fun x =>
      (reflectValueAppend (elemIfPtr x) ev).bind fun ap =>
      reflectValueSetAt r.1 r.2 ap) = some r2
    rw [show valGet val root = some (r1, p) from hnav]
    simp only [Option.some_bind]
    rw [hx]
    simp only [Option.some_bind]
    rw [hslice, happ]
    simp only [Option.some_bind]
    exact hw
  · intro hh
    obtain ⟨t0, hf2⟩ := hshape hh
    exact ⟨t0, .slicev elemTy false (L ++ [adjustToElemTy elemTy ev]), by rw [hf2]; rfl, rfl⟩

/-- Every scalar-slice setter is the shared append core applied to the
element its parse decodes. -/
theorem sliceSet_via_append (fc : FloatStrconv) (unmarshal : JSONUnmarshal) (k : CodecKind)
    (s : String) (v : GoVal) (hd : scalarSliceDecode fc k s = some v) (val : Value) (rt : GoVal)
    (hk : val.kind = k) :
    Value.SetM fc unmarshal val rt s = (sliceAppendAt val rt v).map .ok := by
  cases k
  case bool => exact absurd hd (by simp [scalarSliceDecode])
  case int => exact absurd hd (by simp [scalarSliceDecode])
  case int8 => exact absurd hd (by simp [scalarSliceDecode])
  case int16 => exact absurd hd (by simp [scalarSliceDecode])
  case int32 => exact absurd hd (by simp [scalarSliceDecode])
  case int64 => exact absurd hd (by simp [scalarSliceDecode])
  case uint => exact absurd hd (by simp [scalarSliceDecode])
  case uint8 => exact absurd hd (by simp [scalarSliceDecode])
  case uint16 => exact absurd hd (by simp [scalarSliceDecode])
  case uint32 => exact absurd hd (by simp [scalarSliceDecode])
  case uint64 => exact absurd hd (by simp [scalarSliceDecode])
  case float32 => exact absurd hd (by simp [scalarSliceDecode])
  case float64 => exact absurd hd (by simp [scalarSliceDecode])
  case complex64 => exact absurd hd (by simp [scalarSliceDecode])
  case complex128 => exact absurd hd (by simp [scalarSliceDecode])
  case str => exact absurd hd (by simp [scalarSliceDecode])
  case bytes => exact absurd hd (by simp [scalarSliceDecode])
  case gomap => exact absurd hd (by simp [scalarSliceDecode])
  case strukt => exact absurd hd (by simp [scalarSliceDecode])
  case sliceSlice => exact absurd hd (by simp [scalarSliceDecode])
  case mapSlice => exact absurd hd (by simp [scalarSliceDecode])
  case structSlice => exact absurd hd (by simp [scalarSliceDecode])
  case boolSlice =>
    simp only [scalarSliceDecode] at hd
    rcases hp : parseBool s with _ | b <;> rw [hp] at hd <;> simp [Except.toOption] at hd
    simp [Value.SetM, setFnOf, hk, boolSliceValueSet, hp, hd]
  case strSlice =>
    simp only [scalarSliceDecode] at hd
    simp at hd
    simp [Value.SetM, setFnOf, hk, stringSliceValueSet, ← hd]
  case bytesSlice =>
    simp only [scalarSliceDecode] at hd
    rcases hp : base64DecodeString s with _ | bs <;> rw [hp] at hd <;> simp [Except.toOption] at hd
    simp [Value.SetM, setFnOf, hk, bytesSliceValueSet, hp, hd]
  case intSlice =>
    simp only [scalarSliceDecode] at hd
    rcases hp : parseInt s with _ | n <;> rw [hp] at hd <;> simp [Except.toOption] at hd
    simp [Value.SetM, setFnOf, hk, intSliceValueSet, intSliceValueSetWith, hp, hd]
  case int8Slice =>
    simp only [scalarSliceDecode] at hd
    rcases hp : parseInt8 s with _ | n <;> rw [hp] at hd <;> simp [Except.toOption] at hd
    simp [Value.SetM, setFnOf, hk, int8SliceValueSet, intSliceValueSetWith, hp, hd]
  case int16Slice =>
    simp only [scalarSliceDecode] at hd
    rcases hp : parseInt16 s with _ | n <;> rw [hp] at hd <;> simp [Except.toOption] at hd
    simp [Value.SetM, setFnOf, hk, int16SliceValueSet, intSliceValueSetWith, hp, hd]
  case int32Slice =>
    simp only [scalarSliceDecode] at hd
    rcases hp : parseInt32 s with _ | n <;> rw [hp] at hd <;> simp [Except.toOption] at hd
    simp [Value.SetM, setFnOf, hk, int32SliceValueSet, intSliceValueSetWith, hp, hd]
  case int64Slice =>
    simp only [scalarSliceDecode] at hd
    rcases hp : parseInt64 s with _ | n <;> rw [hp] at hd <;> simp [Except.toOption] at hd
    simp [Value.SetM, setFnOf, hk, int64SliceValueSet, intSliceValueSetWith, hp, hd]
  case uintSlice =>
    simp only [scalarSliceDecode] at hd
    rcases hp : parseUint s with _ | n <;> rw [hp] at hd <;> simp [Except.toOption] at hd
    simp [Value.SetM, setFnOf, hk, uintSliceValueSet, uintSliceValueSetWith, hp, hd]
  case uint8Slice =>
    simp only [scalarSliceDecode] at hd
    rcases hp : parseUint8 s with _ | n <;> rw [hp] at hd <;> simp [Except.toOption] at hd
    simp [Value.SetM, setFnOf, hk, uint8SliceValueSet, uintSliceValueSetWith, hp, hd]
  case uint16Slice =>
    simp only [scalarSliceDecode] at hd
    rcases hp : parseUint16 s with _ | n <;> rw [hp] at hd <;> simp [Except.toOption] at hd
    simp [Value.SetM, setFnOf, hk, uint16SliceValueSet, uintSliceValueSetWith, hp, hd]
  case uint32Slice =>
    simp only [scalarSliceDecode] at hd
    rcases hp : parseUint32 s with _ | n <;> rw [hp] at hd <;> simp [Except.toOption] at hd
    simp [Value.SetM, setFnOf, hk, uint32SliceValueSet, uintSliceValueSetWith, hp, hd]
  case uint64Slice =>
    simp only [scalarSliceDecode] at hd
    rcases hp : parseUint64 s with _ | n <;> rw [hp] at hd <;> simp [Except.toOption] at hd
    simp [Value.SetM, setFnOf, hk, uint64SliceValueSet, uintSliceValueSetWith, hp, hd]
  case float32Slice =>
    simp only [scalarSliceDecode] at hd
    rcases hp : fc.parseFloat 32 s with _ | n <;> rw [hp] at hd <;> simp [Except.toOption] at hd
    simp [Value.SetM, setFnOf, hk, float32SliceValueSet, floatSliceValueSetWith, hp, hd]
  case float64Slice =>
    simp only [scalarSliceDecode] at hd
    rcases hp : fc.parseFloat 64 s with _ | n <;> rw [hp] at hd <;> simp [Except.toOption] at hd
    simp [Value.SetM, setFnOf, hk, float64SliceValueSet, floatSliceValueSetWith, hp, hd]
  case complex64Slice =>
    simp only [scalarSliceDecode] at hd
    rcases hp : fc.parseComplex 64 s with _ | n <;> rw [hp] at hd <;> simp [Except.toOption] at hd
    simp [Value.SetM, setFnOf, hk, complex64SliceValueSet, complexSliceValueSetWith, hp, hd]
  case complex128Slice =>
    simp only [scalarSliceDecode] at hd
    rcases hp : fc.parseComplex 128 s with _ | n <;> rw [hp] at hd <;> simp [Except.toOption] at hd
    simp [Value.SetM, setFnOf, hk, complex128SliceValueSet, complexSliceValueSetWith, hp, hd]

/-- C2: for a list-of-scalar node of any element kind (booleans, all
integer widths, floats, complexes, strings, byte buffers — also behind a
pointer element type `[]*T`), `Set` with `a` then `b` (both decoding
successfully) appends the decoded element of `a` and then that of `b` to
the existing list in that order, each adjusted to the element type; each
call appends exactly one element and never replaces the list. -/
theorem c2_list_append_semantics
    (fc : FloatStrconv) (unmarshal : JSONUnmarshal) (val : Value) (root r1 : GoVal)
    (p : GoPath) (x : GoVal) (elemTy : GoType) (nl : Bool) (L : List GoVal) (a b : String)
    (va vb : GoVal)
    (hda : scalarSliceDecode fc val.kind a = some va)
    (hdb : scalarSliceDecode fc val.kind b = some vb)
    (hnav : fieldByIndex root val.fieldsIndexes = some (r1, p))
    (hx : readAt r1 p = some x)
    (hslice : elemIfPtr x = .slicev elemTy nl L)
    (hroot : val.fieldsIndexes = [] → ∃ t0 y, x = .ptrv t0 (some y) ∧ isPtrVal y = false) :
    ∃ r2 r3 f2 f3,
      Value.SetM fc unmarshal val root a = some (.ok r2) ∧
      readAt r2 p = some f2 ∧
      elemIfPtr f2 = .slicev elemTy false (L ++ [adjustToElemTy elemTy va]) ∧
      Value.SetM fc unmarshal val r2 b = some (.ok r3) ∧
      readAt r3 p = some f3 ∧
      elemIfPtr f3 = .slicev elemTy false
        (L ++ [adjustToElemTy elemTy va, adjustToElemTy elemTy vb]) := by
  obtain ⟨r2, f2, hap1, hfix1, hread1, hel1, hshape1⟩ :=
    sliceAppendAt_effect val root r1 p x elemTy nl L va hnav hx hslice
      (scalarSliceDecode_not_ptr fc val.kind a va hda) hroot
  obtain ⟨r3, f3, hap2, hfix2, hread2, hel2, hshape2⟩ :=
    sliceAppendAt_effect val r2 r2 p f2 elemTy false (L ++ [adjustToElemTy elemTy va]) vb
      hfix1 hread1 hel1 (scalarSliceDecode_not_ptr fc val.kind b vb hdb) hshape1
  refine ⟨r2, r3, f2, f3, ?_, hread1, hel1, ?_, hread2, by simpa using hel2⟩
  · rw [sliceSet_via_append fc unmarshal val.kind a va hda val root rfl, hap1]
    rfl
  · rw [sliceSet_via_append fc unmarshal val.kind b vb hdb val r2 rfl, hap2]
    rfl

/-- Closed witness for C2: the spec's `*[]string` scenario (`Set "z"` then
`Set "a"` yields `["z", "a"]`); a `*[]*int` node, whose appended elements
land behind fresh pointers; and a `*[]float32` node under a collaborator
whose `ParseFloat` yields the bit pattern 99. -/
theorem c2_list_append_semantics_witness :
    (∃ r2 r3 f2 f3,
      Value.SetM trivialFloatStrconv (fun _ _ => none)
        (newStringSliceValue (.ptr (.slice .str)) [] [])
        (.ptrv (.slice .str) (some (.slicev .str true []))) "z" = some (.ok r2) ∧
      readAt r2 [] = some f2 ∧
        elemIfPtr f2 = .slicev .str false [.strv "z"] ∧
      Value.SetM trivialFloatStrconv (fun _ _ => none)
        (newStringSliceValue (.ptr (.slice .str)) [] []) r2 "a" = some (.ok r3) ∧
      readAt r3 [] = some f3 ∧
        elemIfPtr f3 = .slicev .str false [.strv "z", .strv "a"]) ∧
    (∃ r2 r3 f2 f3,
      Value.SetM trivialFloatStrconv (fun _ _ => none)
        (newIntSliceValue (.ptr (.slice (.ptr .int))) [] [])
        (.ptrv (.slice (.ptr .int)) (some (.slicev (.ptr .int) true []))) "7" =
        some (.ok r2) ∧
      readAt r2 [] = some f2 ∧
        elemIfPtr f2 = .slicev (.ptr .int) false [.ptrv .int (some (.intv 7))] ∧
      Value.SetM trivialFloatStrconv (fun _ _ => none)
        (newIntSliceValue (.ptr (.slice (.ptr .int))) [] []) r2 "8" = some (.ok r3) ∧
      readAt r3 [] = some f3 ∧
        elemIfPtr f3 = .slicev (.ptr .int) false
          [.ptrv .int (some (.intv 7)), .ptrv .int (some (.intv 8))]) ∧
    (∃ r2 r3 f2 f3,
      Value.SetM ⟨fun _ _ => "", fun _ _ => .ok 99, fun _ _ => "", fun _ _ => .ok 0,
          fun _ => false, fun _ => false⟩ (fun _ _ => none)
        (newFloat32SliceValue (.ptr (.slice .float32)) [] [])
        (.ptrv (.slice .float32) (some (.slicev .float32 true []))) "1.5" = some (.ok r2) ∧
      readAt r2 [] = some f2 ∧
        elemIfPtr f2 = .slicev .float32 false [.floatv 99] ∧
      Value.SetM ⟨fun _ _ => "", fun _ _ => .ok 99, fun _ _ => "", fun _ _ => .ok 0,
          fun _ => false, fun _ => false⟩ (fun _ _ => none)
        (newFloat32SliceValue (.ptr (.slice .float32)) [] []) r2 "1.5" = some (.ok r3) ∧
      readAt r3 [] = some f3 ∧
        elemIfPtr f3 = .slicev .float32 false [.floatv 99, .floatv 99]) := by
  refine ⟨?_, ?_, ?_⟩
  · exact c2_list_append_semantics trivialFloatStrconv (fun _ _ => none)
      (newStringSliceValue (.ptr (.slice .str)) [] [])
      (.ptrv (.slice .str) (some (.slicev .str true [])))
      (.ptrv (.slice .str) (some (.slicev .str true []))) []
      (.ptrv (.slice .str) (some (.slicev .str true []))) .str true [] "z" "a"
      (.strv "z") (.strv "a") rfl rfl rfl rfl rfl
      (fun _ => ⟨.slice .str, .slicev .str true [], rfl, rfl⟩)
  · exact c2_list_append_semantics trivialFloatStrconv (fun _ _ => none)
      (newIntSliceValue (.ptr (.slice (.ptr .int))) [] [])
      (.ptrv (.slice (.ptr .int)) (some (.slicev (.ptr .int) true [])))
      (.ptrv (.slice (.ptr .int)) (some (.slicev (.ptr .int) true []))) []
      (.ptrv (.slice (.ptr .int)) (some (.slicev (.ptr .int) true []))) (.ptr .int) true []
      "7" "8" (.intv 7) (.intv 8) rfl rfl rfl rfl rfl
      (fun _ => ⟨.slice (.ptr .int), .slicev (.ptr .int) true [], rfl, rfl⟩)
  · exact c2_list_append_semantics
      ⟨fun _ _ => "", fun _ _ => .ok 99, fun _ _ => "", fun _ _ => .ok 0,
        fun _ => false, fun _ => false⟩ (fun _ _ => none)
      (newFloat32SliceValue (.ptr (.slice .float32)) [] [])
      (.ptrv (.slice .float32) (some (.slicev .float32 true [])))
      (.ptrv (.slice .float32) (some (.slicev .float32 true []))) []
      (.ptrv (.slice .float32) (some (.slicev .float32 true []))) .float32 true []
      "1.5" "1.5" (.floatv 99) (.floatv 99) rfl rfl rfl rfl rfl
      (fun _ => ⟨.slice .float32, .slicev .float32 true [], rfl, rfl⟩)

/-- C6: a node over a nil pointer position allocates a fresh zero value on
first `Get` (no nil-dereference fault is observable through the node's
operations), and `Set` on a descendant field node of a nil pointer to a
record leaves a non-nil allocated record at the parent position with only
the targeted field populated and every sibling field at its kind's zero
value. -/
theorem c6_nil_pointer_lazy_allocation :
    -- (i) whatever a node's Get fetches is never a nil pointer
    (∀ (val : Value) (root r : GoVal) (v : GoVal),
      Value.GetM val root = some (r, v) → isNilPtr v = false) ∧
    -- (ii) Get through a nil-pointer field allocates the pointee's zero value
    (∀ (val : Value) (bt t : GoType) (fvals : List GoVal) (i : Nat),
      val.fieldsIndexes = [i] → fvals.get? i = some (.ptrv t none) →
      Value.GetM val (.ptrv bt (some (.struktv fvals))) =
        some (.ptrv bt (some (.struktv (fvals.set i (.ptrv t (some (zeroVal t)))))),
          .ptrv t (some (zeroVal t)))) ∧
    -- (iii) Set on a string field below a nil pointer-to-record: the parent
    -- becomes non-nil, the target field holds the new value, the siblings
    -- hold their zero values
    (∀ (fc : FloatStrconv) (unmarshal : JSONUnmarshal) (val : Value) (bt : GoType)
       (fvals : List GoVal) (sfs : List GoField) (i j : Nat) (fj : GoField) (s : String),
      val.kind = .str → val.fieldsIndexes = [i, j] →
      fvals.get? i = some (.ptrv (.strukt sfs) none) →
      sfs.get? j = some fj → fieldTy fj = .str →
      Value.SetM fc unmarshal val (.ptrv bt (some (.struktv fvals))) s =
        some (.ok (.ptrv bt (some (.struktv (fvals.set i
          (.ptrv (.strukt sfs) (some (.struktv ((zeroFields sfs).set j (.strv s))))))))))) := by
  refine ⟨?_, ?_, ?_⟩
  · intro val root r v hget
    simp only [Value.GetM, Option.bind_eq_some] at hget
    obtain ⟨⟨r1, p⟩, hnav, hread⟩ := hget
    obtain ⟨f, hf, hnil⟩ := fieldByIndex_readAt val.fieldsIndexes root r1 p hnav
    simp only [Option.map_eq_some'] at hread
    obtain ⟨f2, hf2, hpair⟩ := hread
    rw [hf] at hf2
    obtain ⟨_, h2⟩ := Prod.mk.injEq .. ▸ hpair
    rw [← h2, ← Option.some.inj hf2]
    exact hnil
  · intro val bt t fvals i hvidx hgi
    have hlt : i < fvals.length := (List.get?_eq_some.mp hgi).1
    have hfb : fieldByIndex (GoVal.ptrv bt (some (.struktv fvals))) [i] =
        some (.ptrv bt (some (.struktv (fvals.set i (.ptrv t (some (zeroVal t)))))),
          [.deref, .field i]) := by
      show (match fvals.get? i with
        | some fv => (fieldByIndex fv []).map fun (r : GoVal × GoPath) =>
            ((.ptrv bt (some (.struktv (fvals.set i r.1))) : GoVal),
              PStep.deref :: PStep.field i :: r.2)
        | none => none) = _
      rw [hgi]
      rfl
    have hrd : readAt (GoVal.ptrv bt (some (.struktv (fvals.set i (.ptrv t (some (zeroVal t)))))))
        [.deref, .field i] = some (.ptrv t (some (zeroVal t))) := by
      show (match (fvals.set i (GoVal.ptrv t (some (zeroVal t)))).get? i with
        | some fv => readAt fv [] | none => none) = _
      rw [get?_set_self _ i _ hlt]
      rfl
    simp [Value.GetM, hvidx, hfb, hrd]
  · intro fc unmarshal val bt fvals sfs i j fj s hk hvidx hgi hgj htj
    have hlti : i < fvals.length := (List.get?_eq_some.mp hgi).1
    have hltj : j < sfs.length := (List.get?_eq_some.mp hgj).1
    have hzj : (zeroFields sfs).get? j = some (.strv "") := by
      rw [zeroFields_eq_map, List.get?_map, hgj]
      simp [htj, zeroVal]
    have hinner : fieldByIndex (GoVal.ptrv (.strukt sfs) none) [j] =
        some (.ptrv (.strukt sfs) (some (.struktv ((zeroFields sfs).set j (.strv "")))),
          [.deref, .field j]) := by
      show (match (zeroFields sfs).get? j with
        | some fv => (fieldByIndex fv []).map fun (r : GoVal × GoPath) =>
            ((.ptrv (.strukt sfs) (some (.struktv ((zeroFields sfs).set j r.1))) : GoVal),
              PStep.deref :: PStep.field j :: r.2)
        | none => none) = _
      rw [hzj]
      rfl
    have hz0 : (zeroFields sfs).set j (.strv "") = zeroFields sfs := set_get?_self _ j _ hzj
    rw [hz0] at hinner
    have hfb : fieldByIndex (GoVal.ptrv bt (some (.struktv fvals))) [i, j] =
        some (.ptrv bt (some (.struktv (fvals.set i
            (.ptrv (.strukt sfs) (some (.struktv (zeroFields sfs))))))),
          [.deref, .field i, .deref, .field j]) := by
      show (match fvals.get? i with
        | some fv => (fieldByIndex fv [j]).map fun (r : GoVal × GoPath) =>
            ((.ptrv bt (some (.struktv (fvals.set i r.1))) : GoVal),
              PStep.deref :: PStep.field i :: r.2)
        | none => none) = _
      rw [hgi]
      show ((fieldByIndex (GoVal.ptrv (GoType.strukt sfs) none) [j]).map
          fun (r : GoVal × GoPath) =>
            ((.ptrv bt (some (.struktv (fvals.set i r.1))) : GoVal),
              PStep.deref :: PStep.field i :: r.2)) = _
      rw [hinner]
      rfl
    have hrd : readAt (GoVal.ptrv bt (some (.struktv (fvals.set i
        (.ptrv (.strukt sfs) (some (.struktv (zeroFields sfs))))))))
        [.deref, .field i, .deref, .field j] = some (.strv "") := by
      show (match (fvals.set i (GoVal.ptrv (.strukt sfs)
          (some (.struktv (zeroFields sfs))))).get? i with
        | some fv => readAt fv [.deref, .field j] | none => none) = _
      rw [get?_set_self _ i _ hlti]
      show (match (zeroFields sfs).get? j with
        | some fv => readAt fv [] | none => none) = _
      rw [hzj]
      rfl
    have hwr : writeAt (GoVal.ptrv bt (some (.struktv (fvals.set i
        (.ptrv (.strukt sfs) (some (.struktv (zeroFields sfs))))))))
        [.deref, .field i, .deref, .field j] (.strv s) =
        some (.ptrv bt (some (.struktv (fvals.set i
          (.ptrv (.strukt sfs) (some (.struktv ((zeroFields sfs).set j (.strv s))))))))) := by
      show ((writeAt (GoVal.struktv (fvals.set i (.ptrv (.strukt sfs)
          (some (.struktv (zeroFields sfs)))))) [.field i, .deref, .field j] (.strv s)).map
          (fun x' => GoVal.ptrv bt (some x'))) = _
      have e1 : writeAt (GoVal.struktv (fvals.set i (.ptrv (.strukt sfs)
          (some (.struktv (zeroFields sfs)))))) [.field i, .deref, .field j] (.strv s) =
          (match (fvals.set i (GoVal.ptrv (.strukt sfs)
              (some (.struktv (zeroFields sfs))))).get? i with
           | some fv => (writeAt fv [.deref, .field j] (.strv s)).map
               (fun fv' => GoVal.struktv ((fvals.set i (.ptrv (.strukt sfs)
                 (some (.struktv (zeroFields sfs))))).set i fv'))
           | none => none) := rfl
      rw [e1, get?_set_self _ i _ hlti]
      show Option.map (fun x' => GoVal.ptrv bt (some x'))
        ((writeAt (GoVal.ptrv (.strukt sfs) (some (.struktv (zeroFields sfs))))
            [.deref, .field j] (.strv s)).map
          (fun fv' => GoVal.struktv ((fvals.set i (GoVal.ptrv (.strukt sfs)
            (some (.struktv (zeroFields sfs))))).set i fv'))) = _
      have e2 : writeAt (GoVal.ptrv (.strukt sfs) (some (.struktv (zeroFields sfs))))
          [.deref, .field j] (.strv s) =
          ((writeAt (GoVal.struktv (zeroFields sfs)) [.field j] (.strv s)).map
            (fun x' => GoVal.ptrv (.strukt sfs) (some x'))) := rfl
      have e3 : writeAt (GoVal.struktv (zeroFields sfs)) [.field j] (.strv s) =
          (match (zeroFields sfs).get? j with
           | some fv => (writeAt fv [] (.strv s)).map
               (fun fv' => GoVal.struktv ((zeroFields sfs).set j fv'))
           | none => none) := rfl
      rw [e2, e3, hzj]
      simp [writeAt, List.set_set]
    have hset : reflectValueSetAt (GoVal.ptrv bt (some (.struktv (fvals.set i
        (.ptrv (.strukt sfs) (some (.struktv (zeroFields sfs))))))))
        [.deref, .field i, .deref, .field j] (.strv s) =
        some (.ptrv bt (some (.struktv (fvals.set i
          (.ptrv (.strukt sfs) (some (.struktv ((zeroFields sfs).set j (.strv s))))))))) := by
      unfold reflectValueSetAt
      rw [hrd]
      exact hwr
    simp [Value.SetM, setFnOf, hk, stringValueSet, valGet, hvidx, hfb, hset]

/-- Closed witness for C6: `Get` allocates through a nil `*string` field;
`Set` on field 1 of a record behind a nil `*struct{A int; B string; C bool}`
populates only that field. -/
theorem c6_nil_pointer_lazy_allocation_witness :
    Value.GetM (newStringValue (.ptr (.strukt [("S", true, .ptr .str)])) [0]
        [("S", true, .ptr .str)])
      (.ptrv (.strukt [("S", true, .ptr .str)]) (some (.struktv [.ptrv .str none]))) =
      some (.ptrv (.strukt [("S", true, .ptr .str)])
          (some (.struktv [.ptrv .str (some (.strv ""))])),
        .ptrv .str (some (.strv ""))) ∧
    Value.SetM trivialFloatStrconv (fun _ _ => none)
      (newStringValue (.ptr (.strukt [("P", true,
          .ptr (.strukt [("A", true, .int), ("B", true, .str), ("C", true, .bool)]))])) [0, 1]
        [("P", true, .ptr (.strukt [("A", true, .int), ("B", true, .str), ("C", true, .bool)])),
         ("B", true, .str)])
      (.ptrv (.strukt [("P", true,
          .ptr (.strukt [("A", true, .int), ("B", true, .str), ("C", true, .bool)]))])
        (some (.struktv [.ptrv (.strukt
          [("A", true, .int), ("B", true, .str), ("C", true, .bool)]) none]))) "hello" =
      some (.ok (.ptrv (.strukt [("P", true,
          .ptr (.strukt [("A", true, .int), ("B", true, .str), ("C", true, .bool)]))])
        (some (.struktv [.ptrv (.strukt
            [("A", true, .int), ("B", true, .str), ("C", true, .bool)])
          (some (.struktv [.intv 0, .strv "hello", .boolv false]))])))) := by
  constructor
  · exact c6_nil_pointer_lazy_allocation.2.1
      (newStringValue (.ptr (.strukt [("S", true, .ptr .str)])) [0] [("S", true, .ptr .str)])
      (.strukt [("S", true, .ptr .str)]) .str [.ptrv .str none] 0 rfl rfl
  · have h := c6_nil_pointer_lazy_allocation.2.2 trivialFloatStrconv (fun _ _ => none)
      (newStringValue (.ptr (.strukt [("P", true,
          .ptr (.strukt [("A", true, .int), ("B", true, .str), ("C", true, .bool)]))])) [0, 1]
        [("P", true, .ptr (.strukt [("A", true, .int), ("B", true, .str), ("C", true, .bool)])),
         ("B", true, .str)])
      (.strukt [("P", true,
          .ptr (.strukt [("A", true, .int), ("B", true, .str), ("C", true, .bool)]))])
      [.ptrv (.strukt [("A", true, .int), ("B", true, .str), ("C", true, .bool)]) none]
      [("A", true, .int), ("B", true, .str), ("C", true, .bool)] 0 1 ("B", true, .str)
      "hello" rfl rfl rfl rfl rfl
    simpa [zeroFields, zeroVal] using h

theorem digitVal_digit (d : Nat) (hd : d < 10) :
    digitVal (Char.ofNat ('0'.toNat + d)) = some d := by
  interval_cases d <;> decide

theorem digit_ne_underscore (d : Nat) (hd : d < 10) :
    Char.ofNat ('0'.toNat + d) ≠ '_' := by
  interval_cases d <;> decide

theorem parseUintDigits_append (base cutoff maxVal : Nat) (cs ds : List Char) (acc : Nat) :
    parseUintDigits base cutoff maxVal (cs ++ ds) acc =
      match parseUintDigits base cutoff maxVal cs acc with
      | .ok m => parseUintDigits base cutoff maxVal ds m
      | .error e => .error e := by
  induction cs generalizing acc with
  | nil => simp [parseUintDigits]
  | cons c cs ih =>
    by_cases hc : c = '_'
    · subst hc
      simp only [List.cons_append, parseUintDigits, if_pos rfl]
      exact ih acc
    · simp only [List.cons_append, parseUintDigits, if_neg hc]
      cases hd : digitVal c with
      | none => rfl
      | some d =>
        by_cases h1 : d ≥ base
        · simp [h1]
        · by_cases h2 : acc ≥ cutoff
          · simp [h1, h2]
          · by_cases h3 : acc * base + d > maxVal
            · simp [h1, h2, h3]
            · simp only [if_neg h1, if_neg h2, if_neg h3]
              exact ih _

/-- One decimal digit through the `ParseUint` loop: the cutoff and range
checks pass whenever the accumulated value stays within `maxVal ≤ 2^64-1`. -/
theorem parseUintDigits_single (maxVal d acc : Nat) (hd : d < 10)
    (h : acc * 10 + d ≤ maxVal) (hmax : maxVal ≤ 2 ^ 64 - 1) :
    parseUintDigits 10 ((2 ^ 64 - 1) / 10 + 1) maxVal [Char.ofNat ('0'.toNat + d)] acc =
      .ok (acc * 10 + d) := by
  have hcut : acc < (2 ^ 64 - 1) / 10 + 1 := by
    have h10 : acc * 10 ≤ 2 ^ 64 - 1 := by omega
    have hle : acc ≤ (2 ^ 64 - 1) / 10 := (Nat.le_div_iff_mul_le (by norm_num)).mpr h10
    omega
  simp only [parseUintDigits, if_neg (digit_ne_underscore d hd), digitVal_digit d hd]
  rw [if_neg (by omega : ¬ d ≥ 10), if_neg (by omega : ¬ acc ≥ (2 ^ 64 - 1) / 10 + 1),
    if_neg (by omega : ¬ acc * 10 + d > maxVal)]

/-- Feeding the decimal rendering of `n` to the base-10 digit loop shifts
the accumulator and adds `n`, provided the final value fits `maxVal`. -/
theorem parseUintDigits_formatUintDigitsAux (fuel : Nat) :
    ∀ n acc maxVal, n ≤ fuel → maxVal ≤ 2 ^ 64 - 1 →
      acc * 10 ^ (formatUintDigitsAux fuel n).length + n ≤ maxVal →
      parseUintDigits 10 ((2 ^ 64 - 1) / 10 + 1) maxVal (formatUintDigitsAux fuel n) acc =
        .ok (acc * 10 ^ (formatUintDigitsAux fuel n).length + n) := by
  induction fuel with
  | zero =>
    intro n acc maxVal hn hmax h
    have hn0 : n = 0 := by omega
    subst hn0
    have e : formatUintDigitsAux 0 0 = [Char.ofNat ('0'.toNat + 0)] := rfl
    rw [e] at h ⊢
    simp only [List.length_cons, List.length_nil, pow_one] at h ⊢
    exact parseUintDigits_single maxVal 0 acc (by omega) h hmax
  | succ fuel ih =>
    intro n acc maxVal hn hmax h
    by_cases hlt : n < 10
    · have e : formatUintDigitsAux (fuel + 1) n = [Char.ofNat ('0'.toNat + n)] := by
        simp [formatUintDigitsAux, hlt]
      rw [e] at h ⊢
      simp only [List.length_cons, List.length_nil, pow_one] at h ⊢
      exact parseUintDigits_single maxVal n acc hlt h hmax
    · have e : formatUintDigitsAux (fuel + 1) n =
          formatUintDigitsAux fuel (n / 10) ++ [Char.ofNat ('0'.toNat + n % 10)] := by
        simp [formatUintDigitsAux, hlt]
      rw [e] at h ⊢
      rw [List.length_append, List.length_cons, List.length_nil] at h ⊢
      have hident : acc * 10 ^ ((formatUintDigitsAux fuel (n / 10)).length + (0 + 1)) + n
          = (acc * 10 ^ (formatUintDigitsAux fuel (n / 10)).length + n / 10) * 10 + n % 10 := by
        have hp : (10 : Nat) ^ ((formatUintDigitsAux fuel (n / 10)).length + (0 + 1))
            = 10 ^ (formatUintDigitsAux fuel (n / 10)).length * 10 := by
          rw [Nat.zero_add, pow_succ]
        rw [hp, ← Nat.mul_assoc]
        omega
      rw [hident] at h ⊢
      have hm : acc * 10 ^ (formatUintDigitsAux fuel (n / 10)).length + n / 10 ≤ maxVal := by
        omega
      have hrec := ih (n / 10) acc maxVal (by omega) hmax hm
      rw [parseUintDigits_append, hrec]
      exact parseUintDigits_single maxVal (n % 10)
        (acc * 10 ^ (formatUintDigitsAux fuel (n / 10)).length + n / 10)
        (Nat.mod_lt _ (by omega)) h hmax

/-- The decimal rendering of a positive number starts with a nonzero
digit (so base detection in `ParseUint` keeps base 10). -/
theorem formatUintDigitsAux_head (fuel : Nat) :
    ∀ n, n ≤ fuel → 1 ≤ n →
      ∃ d cs, 1 ≤ d ∧ d ≤ 9 ∧
        formatUintDigitsAux fuel n = Char.ofNat ('0'.toNat + d) :: cs := by
  induction fuel with
  | zero => intro n hn h1; omega
  | succ fuel ih =>
    intro n hn h1
    by_cases hlt : n < 10
    · exact ⟨n, [], h1, by omega, by simp [formatUintDigitsAux, hlt]⟩
    · obtain ⟨d, cs, hd1, hd9, hA⟩ := ih (n / 10) (by omega) (by omega)
      refine ⟨d, cs ++ [Char.ofNat ('0'.toNat + n % 10)], hd1, hd9, ?_⟩
      simp [formatUintDigitsAux, hlt, hA]

/-- Every character the decimal renderer emits is a digit. -/
theorem formatUintDigitsAux_mem (fuel : Nat) :
    ∀ n c, n ≤ fuel → c ∈ formatUintDigitsAux fuel n →
      ∃ d, d < 10 ∧ c = Char.ofNat ('0'.toNat + d) := by
  induction fuel with
  | zero =>
    intro n c hn hc
    have hn0 : n = 0 := by omega
    subst hn0
    simp only [formatUintDigitsAux, List.mem_singleton] at hc
    exact ⟨0, by omega, by simpa using hc⟩
  | succ fuel ih =>
    intro n c hn hc
    by_cases hlt : n < 10
    · simp only [formatUintDigitsAux, if_pos hlt, List.mem_singleton] at hc
      exact ⟨n, hlt, hc⟩
    · simp only [formatUintDigitsAux, if_neg hlt, List.mem_append,
        List.mem_singleton] at hc
      rcases hc with hc | hc
      · exact ih (n / 10) c (by omega) hc
      · exact ⟨n % 10, Nat.mod_lt _ (by omega), hc⟩

theorem formatUintDigits_not_contains (n : Nat) :
    (formatUintDigits n).contains '_' = false := by
  cases hb : (formatUintDigits n).contains '_' with
  | false => rfl
  | true =>
    have hm : '_' ∈ formatUintDigits n := List.mem_of_elem_eq_true hb
    obtain ⟨d, hd, hc⟩ := formatUintDigitsAux_mem n n '_' le_rfl hm
    exact absurd hc.symm (digit_ne_underscore d hd)

/-- `ParseUint(s, 0, bitSize)` inverts base-10 formatting for every value
in range: the rendering of a positive value starts with a nonzero digit,
so base detection keeps base 10, and `"0"` takes the leading-zero octal
path with an empty digit string, which also yields `0`. -/
theorem parseUintBase0_formatUintDigits (bitSize n : Nat) (hbs : bitSize ≤ 64)
    (hn : n ≤ 2 ^ (if bitSize = 0 then 64 else bitSize) - 1) :
    parseUintBase0 bitSize (formatUintDigits n) = .ok n := by
  have hmax64 : 2 ^ (if bitSize = 0 then 64 else bitSize) - 1 ≤ 2 ^ 64 - 1 := by
    have hp : (2 : Nat) ^ (if bitSize = 0 then 64 else bitSize) ≤ 2 ^ 64 :=
      Nat.pow_le_pow_right (by norm_num) (by split <;> omega)
    omega
  by_cases hn0 : n = 0
  · subst hn0
    rfl
  · obtain ⟨d, cs, hd1, hd9, hshape⟩ := formatUintDigitsAux_head n n le_rfl (by omega)
    have hrun : parseUintDigits 10 ((2 ^ 64 - 1) / 10 + 1)
        (2 ^ (if bitSize = 0 then 64 else bitSize) - 1) (formatUintDigits n) 0 = .ok n := by
      have h := parseUintDigits_formatUintDigitsAux n n 0
        (2 ^ (if bitSize = 0 then 64 else bitSize) - 1) le_rfl hmax64 (by simpa using hn)
      simpa using h
    have hund : (formatUintDigits n).contains '_' = false := formatUintDigits_not_contains n
    rw [show formatUintDigits n = Char.ofNat ('0'.toNat + d) :: cs from hshape]
    have hred : parseUintBase0 bitSize (Char.ofNat ('0'.toNat + d) :: cs) =
        (match parseUintDigits 10 ((2 ^ 64 - 1) / 10 + 1)
            (2 ^ (if bitSize = 0 then 64 else bitSize) - 1)
            (Char.ofNat ('0'.toNat + d) :: cs) 0 with
         | .error e => .error e
         | .ok m =>
           if (Char.ofNat ('0'.toNat + d) :: cs).contains '_'
               ∧ ¬ underscoreOK (Char.ofNat ('0'.toNat + d) :: cs) then .error .errSyntax
           else .ok m) := by
      interval_cases d <;> rfl
    rw [hred, ← hshape]
    have hrun' : parseUintDigits 10 ((2 ^ 64 - 1) / 10 + 1)
        (2 ^ (if bitSize = 0 then 64 else bitSize) - 1) (formatUintDigitsAux n n) 0 =
        .ok n := hrun
    rw [hrun']
    have hund' : (formatUintDigitsAux n n).contains '_' = false := hund
    simp only [hund']
    simp

/-- `ParseInt` on a `'-'`-headed string: strip the sign, parse the
magnitude unsigned, check the negative cutoff. -/
theorem parseIntBase0_neg_head (bitSize : Nat) (cs : List Char) :
    parseIntBase0 bitSize ('-' :: cs) =
      (match parseUintBase0 64 cs with
       | .error .errSyntax => .error .errSyntax
       | .error .errRange => .error .errRange
       | .ok un =>
         if ¬ (true : Bool) ∧ un ≥ 2 ^ ((if bitSize = 0 then 64 else bitSize) - 1) then
           .error .errRange
         else if (true : Bool) ∧ un > 2 ^ ((if bitSize = 0 then 64 else bitSize) - 1) then
           .error .errRange
         else .ok (if (true : Bool) then -(un : Int) else (un : Int))) := rfl

/-- `ParseInt` on a digit-headed string: no sign to strip. -/
theorem parseIntBase0_digit_head (bitSize d : Nat) (cs : List Char) (hd : d < 10) :
    parseIntBase0 bitSize (Char.ofNat ('0'.toNat + d) :: cs) =
      (match parseUintBase0 64 (Char.ofNat ('0'.toNat + d) :: cs) with
       | .error .errSyntax => .error .errSyntax
       | .error .errRange => .error .errRange
       | .ok un =>
         if ¬ (false : Bool) ∧ un ≥ 2 ^ ((if bitSize = 0 then 64 else bitSize) - 1) then
           .error .errRange
         else if (false : Bool) ∧ un > 2 ^ ((if bitSize = 0 then 64 else bitSize) - 1) then
           .error .errRange
         else .ok (if (false : Bool) then -(un : Int) else (un : Int))) := by
  interval_cases d <;> rfl

/-- `ParseInt(s, 0, bitSize)` inverts base-10 signed formatting for every
nonzero value in the signed range. -/
theorem parseIntBase0_formatInt (bitSize : Nat) (v : Int) (hbs : bitSize ≤ 64) (hv0 : v ≠ 0)
    (hlo : -((2 ^ ((if bitSize = 0 then 64 else bitSize) - 1) : Nat) : Int) ≤ v)
    (hhi : v < ((2 ^ ((if bitSize = 0 then 64 else bitSize) - 1) : Nat) : Int)) :
    parseIntBase0 bitSize (formatInt v).data = .ok v := by
  have hw : 1 ≤ (if bitSize = 0 then 64 else bitSize) ∧
      (if bitSize = 0 then 64 else bitSize) ≤ 64 := by split <;> omega
  have hpow : (2 : Nat) ^ ((if bitSize = 0 then 64 else bitSize) - 1) ≤ 2 ^ 63 :=
    Nat.pow_le_pow_right (by norm_num) (by omega)
  by_cases hneg : v < 0
  · have hdata : (formatInt v).data = '-' :: formatUintDigits (-v).toNat := by
      simp only [formatInt, if_pos hneg]
      rfl
    have hm1 : 1 ≤ (-v).toNat := by omega
    have hmK : (-v).toNat ≤ 2 ^ ((if bitSize = 0 then 64 else bitSize) - 1) := by omega
    have hm64 : (-v).toNat ≤ 2 ^ (if (64 : Nat) = 0 then 64 else 64) - 1 := by
      norm_num
      omega
    have hpu := parseUintBase0_formatUintDigits 64 (-v).toNat (le_refl 64) hm64
    rw [hdata, parseIntBase0_neg_head, hpu]
    simp
    rw [if_neg (show ¬ ((2 : Int) ^ ((if bitSize = 0 then 64 else bitSize) - 1) < -v) from by
      have h := hlo
      push_cast at h
      omega)]
    simp only [Except.ok.injEq]
    omega
  · have hvpos : 0 < v := by omega
    have hdata : (formatInt v).data = formatUintDigits v.toNat := by
      simp only [formatInt, if_neg hneg]
      rfl
    have hn1 : 1 ≤ v.toNat := by omega
    have hnK : v.toNat < 2 ^ ((if bitSize = 0 then 64 else bitSize) - 1) := by omega
    have hn64 : v.toNat ≤ 2 ^ (if (64 : Nat) = 0 then 64 else 64) - 1 := by
      norm_num
      omega
    have hpu := parseUintBase0_formatUintDigits 64 v.toNat (le_refl 64) hn64
    obtain ⟨d, cs, hd1, hd9, hshape⟩ := formatUintDigitsAux_head v.toNat v.toNat le_rfl hn1
    have hshape' : formatUintDigits v.toNat = Char.ofNat ('0'.toNat + d) :: cs := hshape
    rw [hdata, hshape', parseIntBase0_digit_head bitSize d cs (by omega), ← hshape', hpu]
    simp
    rw [if_neg (by omega : ¬ 2 ^ ((if bitSize = 0 then 64 else bitSize) - 1) ≤ v.toNat)]
    simp only [Except.ok.injEq]
    omega

theorem b64Index_b64Char : ∀ i : Nat, i < 64 → b64Index (b64Char i) = some i := by
  decide

theorem b64Char_ne_pad : ∀ i : Nat, i < 64 → b64Char i ≠ '=' := by
  decide

/-- Standard base64 decoding inverts encoding on byte lists. -/
theorem base64Decode_encode (bs : List Nat) (hb : ∀ b ∈ bs, b < 256) :
    base64Decode (base64Encode bs) = some bs := by
  induction bs using base64Encode.induct with
  | case1 => rfl
  | case2 b0 =>
    have h0 : b0 < 256 := hb b0 (by simp)
    simp only [base64Encode, base64Decode,
      b64Index_b64Char (b0 / 4) (by omega), b64Index_b64Char (b0 % 4 * 16) (by omega)]
    simp
    omega
  | case3 b0 b1 =>
    have h0 : b0 < 256 := hb b0 (by simp)
    have h1 : b1 < 256 := hb b1 (by simp)
    simp only [base64Encode, base64Decode,
      b64Index_b64Char (b0 / 4) (by omega), b64Index_b64Char (b0 % 4 * 16 + b1 / 16) (by omega),
      b64Index_b64Char (b1 % 16 * 4) (by omega)]
    rw [if_neg (b64Char_ne_pad (b1 % 16 * 4) (by omega))]
    simp
    omega
  | case4 b0 b1 b2 rest ih =>
    have h0 : b0 < 256 := hb b0 (by simp)
    have h1 : b1 < 256 := hb b1 (by simp)
    have h2 : b2 < 256 := hb b2 (by simp)
    have hrest : ∀ b ∈ rest, b < 256 := fun b hbm => hb b (by simp [hbm])
    simp only [base64Encode, base64Decode,
      b64Index_b64Char (b0 / 4) (by omega), b64Index_b64Char (b0 % 4 * 16 + b1 / 16) (by omega),
      b64Index_b64Char (b1 % 16 * 4 + b2 / 64) (by omega), b64Index_b64Char (b2 % 64) (by omega)]
    rw [if_neg (b64Char_ne_pad (b1 % 16 * 4 + b2 / 64) (by omega)),
      if_neg (b64Char_ne_pad (b2 % 64) (by omega))]
    rw [ih hrest]
    simp
    omega

theorem bytesOfElems_map (bs : List Nat) : bytesOfElems (bs.map .uintv) = some bs := by
  induction bs with
  | nil => rfl
  | cons b rest ih => simp [bytesOfElems, ih]

/-- Writing back the exact value just read, through the pointer-level
adjustment of `reflectValueSet`, leaves the root unchanged (the source is
not a pointer, so no adjustment fires). -/
theorem reflectValueSetAt_same (root : GoVal) (p : GoPath) (f : GoVal)
    (hp : p ≠ []) (hrd : readAt root p = some f) (hf : isPtrVal f = false) :
    reflectValueSetAt root p f = some root := by
  obtain ⟨st, p', rfl⟩ : ∃ st p', p = st :: p' := by
    cases p with
    | nil => exact absurd rfl hp
    | cons st p' => exact ⟨st, p', rfl⟩
  unfold reflectValueSetAt
  rw [hrd]
  cases f with
  | ptrv t ov => simp [isPtrVal] at hf
  | boolv b => exact writeAt_readAt_self _ _ _ hrd
  | intv v => exact writeAt_readAt_self _ _ _ hrd
  | uintv v => exact writeAt_readAt_self _ _ _ hrd
  | floatv b => exact writeAt_readAt_self _ _ _ hrd
  | complexv b => exact writeAt_readAt_self _ _ _ hrd
  | strv s => exact writeAt_readAt_self _ _ _ hrd
  | slicev t nil0 elems => exact writeAt_readAt_self _ _ _ hrd
  | mapv nil0 entries => exact writeAt_readAt_self _ _ _ hrd
  | struktv fs => exact writeAt_readAt_self _ _ _ hrd
  | unsupportedv => exact writeAt_readAt_self _ _ _ hrd

theorem intValueString_focus (val : Value) (root : GoVal) (p : GoPath) (v : Int)
    (hvg : valGet val root = some (root, p)) (hrd : readAt root p = some (.intv v)) :
    intValueString val root = some (if v = 0 then "" else formatInt v) := by
  simp [intValueString, hvg, hrd, elemIfPtr]

theorem uintValueString_focus (val : Value) (root : GoVal) (p : GoPath) (v : Nat)
    (hvg : valGet val root = some (root, p)) (hrd : readAt root p = some (.uintv v)) :
    uintValueString val root = some (if v = 0 then "" else formatUint v) := by
  simp [uintValueString, hvg, hrd, elemIfPtr]

theorem intValueSetWith_roundtrip (parse : String → Except StrconvErr Int) (val : Value)
    (root : GoVal) (p : GoPath) (v : Int) (s : String)
    (hparse : parse s = .ok v)
    (hvg : valGet val root = some (root, p)) (hp : p ≠ [])
    (hrd : readAt root p = some (.intv v)) :
    intValueSetWith parse val root s = some (.ok root) := by
  have h1 : intValueSetWith parse val root s =
      ((valGet val root).bind fun r => reflectValueSetAt r.1 r.2 (.intv v)).map .ok := by
    unfold intValueSetWith
    rw [hparse]
  rw [h1, hvg]
  simp only [Option.some_bind]
  rw [reflectValueSetAt_same root p (.intv v) hp hrd rfl]
  rfl

theorem uintValueSetWith_roundtrip (parse : String → Except StrconvErr Nat) (val : Value)
    (root : GoVal) (p : GoPath) (v : Nat) (s : String)
    (hparse : parse s = .ok v)
    (hvg : valGet val root = some (root, p)) (hp : p ≠ [])
    (hrd : readAt root p = some (.uintv v)) :
    uintValueSetWith parse val root s = some (.ok root) := by
  have h1 : uintValueSetWith parse val root s =
      ((valGet val root).bind fun r => reflectValueSetAt r.1 r.2 (.uintv v)).map .ok := by
    unfold uintValueSetWith
    rw [hparse]
  rw [h1, hvg]
  simp only [Option.some_bind]
  rw [reflectValueSetAt_same root p (.uintv v) hp hrd rfl]
  rfl

/-- C5: for every scalar kind the renderer never fails, a value equal to
the kind's zero renders as the empty string, and for every other
representable value parsing the rendered text restores the value exactly
(`Set` after `String` is the identity on the root).  Covered: the signed
and unsigned integer kinds at their declared bit widths, booleans,
strings, `[]byte` (standard base64), and the float and complex kinds,
whose parse/render delegate to the `strconv` floating-point collaborator:
for them the restore direction holds for every value on which the
collaborator's documented round-trip contract
(`ParseFloat(FormatFloat(v, 'g', -1, bs), bs) == v`) holds. -/
theorem c5_scalar_round_trip :

    -- signed integer kinds
    (∀ (fc : FloatStrconv) (marshal : JSONMarshal) (unmarshal : JSONUnmarshal) (val : Value)
       (root : GoVal) (p : GoPath) (v : Int) (b : Nat),
      intKindBits val.kind = some b →
      valGet val root = some (root, p) → p ≠ [] →
      readAt root p = some (.intv v) →
      Value.StringM fc marshal val root = some (if v = 0 then "" else formatInt v) ∧
      (v ≠ 0 →
        -((2 ^ ((if b = 0 then 64 else b) - 1) : Nat) : Int) ≤ v →
        v < ((2 ^ ((if b = 0 then 64 else b) - 1) : Nat) : Int) →
        Value.SetM fc unmarshal val root (formatInt v) = some (.ok root))) ∧
    -- unsigned integer kinds
    (∀ (fc : FloatStrconv) (marshal : JSONMarshal) (unmarshal : JSONUnmarshal) (val : Value)
       (root : GoVal) (p : GoPath) (v : Nat) (b : Nat),
      uintKindBits val.kind = some b →
      valGet val root = some (root, p) → p ≠ [] →
      readAt root p = some (.uintv v) →
      Value.StringM fc marshal val root = some (if v = 0 then "" else formatUint v) ∧
      (v ≠ 0 → v ≤ 2 ^ (if b = 0 then 64 else b) - 1 →
        Value.SetM fc unmarshal val root (formatUint v) = some (.ok root))) ∧
    -- float kinds (strconv floating-point collaborator)
    (∀ (fc : FloatStrconv) (marshal : JSONMarshal) (unmarshal : JSONUnmarshal) (val : Value)
       (root : GoVal) (p : GoPath) (v : Nat) (b : Nat),
      floatKindBits val.kind = some b →
      valGet val root = some (root, p) → p ≠ [] →
      readAt root p = some (.floatv v) →
      Value.StringM fc marshal val root =
        some (if fc.isZeroF v then "" else fc.formatFloat b v) ∧
      (fc.parseFloat b (fc.formatFloat b v) = .ok v →
        Value.SetM fc unmarshal val root (fc.formatFloat b v) = some (.ok root))) ∧
    -- complex kinds (strconv floating-point collaborator)
    (∀ (fc : FloatStrconv) (marshal : JSONMarshal) (unmarshal : JSONUnmarshal) (val : Value)
       (root : GoVal) (p : GoPath) (v : Nat) (b : Nat),
      complexKindBits val.kind = some b →
      valGet val root = some (root, p) → p ≠ [] →
      readAt root p = some (.complexv v) →
      Value.StringM fc marshal val root =
        some (if fc.isZeroC v then "" else fc.formatComplex b v) ∧
      (fc.parseComplex b (fc.formatComplex b v) = .ok v →
        Value.SetM fc unmarshal val root (fc.formatComplex b v) = some (.ok root))) ∧
    -- booleans
    (∀ (fc : FloatStrconv) (marshal : JSONMarshal) (unmarshal : JSONUnmarshal) (val : Value)
       (root : GoVal) (p : GoPath) (bv : Bool),
      val.kind = .bool →
      valGet val root = some (root, p) → p ≠ [] →
      readAt root p = some (.boolv bv) →
      Value.StringM fc marshal val root = some (if bv = false then "" else formatBool bv) ∧
      (bv = true → Value.SetM fc unmarshal val root (formatBool bv) = some (.ok root))) ∧
    -- strings (render is the identity, so round-trip is degenerate)
    (∀ (fc : FloatStrconv) (marshal : JSONMarshal) (unmarshal : JSONUnmarshal) (val : Value)
       (root : GoVal) (p : GoPath) (s : String),
      val.kind = .str →
      valGet val root = some (root, p) → p ≠ [] →
      readAt root p = some (.strv s) →
      Value.StringM fc marshal val root = some s ∧
      Value.SetM fc unmarshal val root s = some (.ok root)) ∧
    -- byte slices (standard base64)
    (∀ (fc : FloatStrconv) (marshal : JSONMarshal) (unmarshal : JSONUnmarshal) (val : Value)
       (root : GoVal) (p : GoPath) (bs : List Nat),
      val.kind = .bytes →
      valGet val root = some (root, p) → p ≠ [] →
      readAt root p = some (.slicev .uint8 false (bs.map .uintv)) →
      (∀ x ∈ bs, x < 256) →
      Value.StringM fc marshal val root =
        some (if bs.length = 0 then "" else base64EncodeToString bs) ∧
      (bs ≠ [] →
        Value.SetM fc unmarshal val root (base64EncodeToString bs) = some (.ok root))) := by
  refine ⟨?_, ?_, ?_, ?_, ?_, ?_, ?_⟩
  · intro fc marshal unmarshal val root p v b hkb hvg hp hrd
    cases hkk : val.kind <;> rw [hkk] at hkb <;> simp [intKindBits] at hkb
    case int =>
      subst hkb
      refine ⟨?_, ?_⟩
      · simp only [Value.StringM, stringFnOf, hkk]
        exact intValueString_focus val root p v hvg hrd
      · intro hv0 hlo hhi
        simp only [Value.SetM, setFnOf, hkk, intValueSet]
        exact intValueSetWith_roundtrip parseInt val root p v (formatInt v)
          (parseIntBase0_formatInt 0 v (by norm_num) hv0 hlo hhi) hvg hp hrd
    case int8 =>
      subst hkb
      refine ⟨?_, ?_⟩
      · simp only [Value.StringM, stringFnOf, hkk]
        exact intValueString_focus val root p v hvg hrd
      · intro hv0 hlo hhi
        simp only [Value.SetM, setFnOf, hkk, int8ValueSet]
        exact intValueSetWith_roundtrip parseInt8 val root p v (formatInt v)
          (parseIntBase0_formatInt 8 v (by norm_num) hv0 hlo hhi) hvg hp hrd
    case int16 =>
      subst hkb
      refine ⟨?_, ?_⟩
      · simp only [Value.StringM, stringFnOf, hkk]
        exact intValueString_focus val root p v hvg hrd
      · intro hv0 hlo hhi
        simp only [Value.SetM, setFnOf, hkk, int16ValueSet]
        exact intValueSetWith_roundtrip parseInt16 val root p v (formatInt v)
          (parseIntBase0_formatInt 16 v (by norm_num) hv0 hlo hhi) hvg hp hrd
    case int32 =>
      subst hkb
      refine ⟨?_, ?_⟩
      · simp only [Value.StringM, stringFnOf, hkk]
        exact intValueString_focus val root p v hvg hrd
      · intro hv0 hlo hhi
        simp only [Value.SetM, setFnOf, hkk, int32ValueSet]
        exact intValueSetWith_roundtrip parseInt32 val root p v (formatInt v)
          (parseIntBase0_formatInt 32 v (by norm_num) hv0 hlo hhi) hvg hp hrd
    case int64 =>
      subst hkb
      refine ⟨?_, ?_⟩
      · simp only [Value.StringM, stringFnOf, hkk]
        exact intValueString_focus val root p v hvg hrd
      · intro hv0 hlo hhi
        simp only [Value.SetM, setFnOf, hkk, int64ValueSet]
        exact intValueSetWith_roundtrip parseInt64 val root p v (formatInt v)
          (parseIntBase0_formatInt 64 v (by norm_num) hv0 hlo hhi) hvg hp hrd
  · intro fc marshal unmarshal val root p v b hkb hvg hp hrd
    cases hkk : val.kind <;> rw [hkk] at hkb <;> simp [uintKindBits] at hkb
    case uint =>
      subst hkb
      refine ⟨?_, ?_⟩
      · simp only [Value.StringM, stringFnOf, hkk]
        exact uintValueString_focus val root p v hvg hrd
      · intro hv0 hhi
        simp only [Value.SetM, setFnOf, hkk, uintValueSet]
        exact uintValueSetWith_roundtrip parseUint val root p v (formatUint v)
          (parseUintBase0_formatUintDigits 0 v (by norm_num) hhi) hvg hp hrd
    case uint8 =>
      subst hkb
      refine ⟨?_, ?_⟩
      · simp only [Value.StringM, stringFnOf, hkk]
        exact uintValueString_focus val root p v hvg hrd
      · intro hv0 hhi
        simp only [Value.SetM, setFnOf, hkk, uint8ValueSet]
        exact uintValueSetWith_roundtrip parseUint8 val root p v (formatUint v)
          (parseUintBase0_formatUintDigits 8 v (by norm_num) hhi) hvg hp hrd
    case uint16 =>
      subst hkb
      refine ⟨?_, ?_⟩
      · simp only [Value.StringM, stringFnOf, hkk]
        exact uintValueString_focus val root p v hvg hrd
      · intro hv0 hhi
        simp only [Value.SetM, setFnOf, hkk, uint16ValueSet]
        exact uintValueSetWith_roundtrip parseUint16 val root p v (formatUint v)
          (parseUintBase0_formatUintDigits 16 v (by norm_num) hhi) hvg hp hrd
    case uint32 =>
      subst hkb
      refine ⟨?_, ?_⟩
      · simp only [Value.StringM, stringFnOf, hkk]
        exact uintValueString_focus val root p v hvg hrd
      · intro hv0 hhi
        simp only [Value.SetM, setFnOf, hkk, uint32ValueSet]
        exact uintValueSetWith_roundtrip parseUint32 val root p v (formatUint v)
          (parseUintBase0_formatUintDigits 32 v (by norm_num) hhi) hvg hp hrd
    case uint64 =>
      subst hkb
      refine ⟨?_, ?_⟩
      · simp only [Value.StringM, stringFnOf, hkk]
        exact uintValueString_focus val root p v hvg hrd
      · intro hv0 hhi
        simp only [Value.SetM, setFnOf, hkk, uint64ValueSet]
        exact uintValueSetWith_roundtrip parseUint64 val root p v (formatUint v)
          (parseUintBase0_formatUintDigits 64 v (by norm_num) hhi) hvg hp hrd
  · intro fc marshal unmarshal val root p v b hkb hvg hp hrd
    cases hkk : val.kind <;> rw [hkk] at hkb <;> simp [floatKindBits] at hkb
    case float32 =>
      subst hkb
      refine ⟨?_, ?_⟩
      · simp only [Value.StringM, stringFnOf, hkk]
        simp [float32ValueString, floatValueStringWith, hvg, hrd, elemIfPtr]
      · intro hround
        simp only [Value.SetM, setFnOf, hkk, float32ValueSet]
        unfold floatValueSetWith
        rw [hround, hvg]
        simp only [Option.some_bind]
        rw [reflectValueSetAt_same root p (.floatv v) hp hrd rfl]
        rfl
    case float64 =>
      subst hkb
      refine ⟨?_, ?_⟩
      · simp only [Value.StringM, stringFnOf, hkk]
        simp [float64ValueString, floatValueStringWith, hvg, hrd, elemIfPtr]
      · intro hround
        simp only [Value.SetM, setFnOf, hkk, float64ValueSet]
        unfold floatValueSetWith
        rw [hround, hvg]
        simp only [Option.some_bind]
        rw [reflectValueSetAt_same root p (.floatv v) hp hrd rfl]
        rfl
  · intro fc marshal unmarshal val root p v b hkb hvg hp hrd
    cases hkk : val.kind <;> rw [hkk] at hkb <;> simp [complexKindBits] at hkb
    case complex64 =>
      subst hkb
      refine ⟨?_, ?_⟩
      · simp only [Value.StringM, stringFnOf, hkk]
        simp [complex64ValueString, complexValueStringWith, hvg, hrd, elemIfPtr]
      · intro hround
        simp only [Value.SetM, setFnOf, hkk, complex64ValueSet]
        unfold complexValueSetWith
        rw [hround, hvg]
        simp only [Option.some_bind]
        rw [reflectValueSetAt_same root p (.complexv v) hp hrd rfl]
        rfl
    case complex128 =>
      subst hkb
      refine ⟨?_, ?_⟩
      · simp only [Value.StringM, stringFnOf, hkk]
        simp [complex128ValueString, complexValueStringWith, hvg, hrd, elemIfPtr]
      · intro hround
        simp only [Value.SetM, setFnOf, hkk, complex128ValueSet]
        unfold complexValueSetWith
        rw [hround, hvg]
        simp only [Option.some_bind]
        rw [reflectValueSetAt_same root p (.complexv v) hp hrd rfl]
        rfl
  · intro fc marshal unmarshal val root p bv hkk hvg hp hrd
    refine ⟨?_, ?_⟩
    · simp [Value.StringM, stringFnOf, hkk, boolValueString, hvg, hrd, elemIfPtr]
    · intro hbv
      subst hbv
      simp only [Value.SetM, setFnOf, hkk]
      have h1 : boolValueSet val root (formatBool true) =
          ((valGet val root).bind fun r => reflectValueSetAt r.1 r.2 (.boolv true)).map .ok := by
        unfold boolValueSet
        rfl
      rw [h1, hvg]
      simp only [Option.some_bind]
      rw [reflectValueSetAt_same root p (.boolv true) hp hrd rfl]
      rfl
  · intro fc marshal unmarshal val root p s hkk hvg hp hrd
    refine ⟨?_, ?_⟩
    · simp [Value.StringM, stringFnOf, hkk, stringValueString, hvg, hrd, elemIfPtr]
    · simp only [Value.SetM, setFnOf, hkk, stringValueSet]
      rw [hvg]
      simp only [Option.some_bind]
      rw [reflectValueSetAt_same root p (.strv s) hp hrd rfl]
      rfl
  · intro fc marshal unmarshal val root p bs hkk hvg hp hrd hb
    refine ⟨?_, ?_⟩
    · simp [Value.StringM, stringFnOf, hkk, bytesValueString, hvg, hrd, elemIfPtr,
        bytesOfElems_map]
    · intro hne
      simp only [Value.SetM, setFnOf, hkk]
      have hdec : base64DecodeString (base64EncodeToString bs) = some bs :=
        base64Decode_encode bs hb
      have h1 : bytesValueSet val root (base64EncodeToString bs) =
          ((valGet val root).bind fun r =>
            reflectValueSetAt r.1 r.2 (.slicev .uint8 false (bs.map .uintv))).map .ok := by
        unfold bytesValueSet
        rw [hdec]
      rw [h1, hvg]
      simp only [Option.some_bind]
      rw [reflectValueSetAt_same root p (.slicev .uint8 false (bs.map .uintv)) hp hrd rfl]
      rfl

/-- Closed witness for C5, one scalar node per covered kind: `int64 -5`
renders `"-5"` and sets back unchanged; `uint8 255` ↔ `"255"`; a
`float32` bit pattern under a collaborator rendering it `"9.9"`; a
`complex64` pattern rendered `"(1+2i)"`; `bool true` ↔ `"true"`;
`string "x"` ↔ `"x"`; `[]byte{1,2}` ↔ `"AQI="`. -/
theorem c5_scalar_round_trip_witness :
    (Value.StringM trivialFloatStrconv (fun _ => none)
        (newInt64Value (.ptr (.strukt [("N", true, .int64)])) [0] [("N", true, .int64)])
        (.ptrv (.strukt [("N", true, .int64)]) (some (.struktv [.intv (-5)]))) = some "-5" ∧
      Value.SetM trivialFloatStrconv (fun _ _ => none)
        (newInt64Value (.ptr (.strukt [("N", true, .int64)])) [0] [("N", true, .int64)])
        (.ptrv (.strukt [("N", true, .int64)]) (some (.struktv [.intv (-5)]))) "-5" =
        some (.ok (.ptrv (.strukt [("N", true, .int64)]) (some (.struktv [.intv (-5)]))))) ∧
    (Value.StringM trivialFloatStrconv (fun _ => none)
        (newUint8Value (.ptr (.strukt [("N", true, .uint8)])) [0] [("N", true, .uint8)])
        (.ptrv (.strukt [("N", true, .uint8)]) (some (.struktv [.uintv 255]))) = some "255" ∧
      Value.SetM trivialFloatStrconv (fun _ _ => none)
        (newUint8Value (.ptr (.strukt [("N", true, .uint8)])) [0] [("N", true, .uint8)])
        (.ptrv (.strukt [("N", true, .uint8)]) (some (.struktv [.uintv 255]))) "255" =
        some (.ok (.ptrv (.strukt [("N", true, .uint8)]) (some (.struktv [.uintv 255]))))) ∧
    (Value.StringM ⟨fun _ _ => "9.9", fun _ _ => .ok 99, fun _ _ => "(1+2i)",
          fun _ _ => .ok 7, fun _ => false, fun _ => false⟩ (fun _ => none)
        (newFloat32Value (.ptr (.strukt [("F", true, .float32)])) [0] [("F", true, .float32)])
        (.ptrv (.strukt [("F", true, .float32)]) (some (.struktv [.floatv 99]))) =
        some "9.9" ∧
      Value.SetM ⟨fun _ _ => "9.9", fun _ _ => .ok 99, fun _ _ => "(1+2i)",
          fun _ _ => .ok 7, fun _ => false, fun _ => false⟩ (fun _ _ => none)
        (newFloat32Value (.ptr (.strukt [("F", true, .float32)])) [0] [("F", true, .float32)])
        (.ptrv (.strukt [("F", true, .float32)]) (some (.struktv [.floatv 99]))) "9.9" =
        some (.ok (.ptrv (.strukt [("F", true, .float32)])
          (some (.struktv [.floatv 99]))))) ∧
    (Value.StringM ⟨fun _ _ => "9.9", fun _ _ => .ok 99, fun _ _ => "(1+2i)",
          fun _ _ => .ok 7, fun _ => false, fun _ => false⟩ (fun _ => none)
        (newComplex64Value (.ptr (.strukt [("C", true, .complex64)])) [0]
          [("C", true, .complex64)])
        (.ptrv (.strukt [("C", true, .complex64)]) (some (.struktv [.complexv 7]))) =
        some "(1+2i)" ∧
      Value.SetM ⟨fun _ _ => "9.9", fun _ _ => .ok 99, fun _ _ => "(1+2i)",
          fun _ _ => .ok 7, fun _ => false, fun _ => false⟩ (fun _ _ => none)
        (newComplex64Value (.ptr (.strukt [("C", true, .complex64)])) [0]
          [("C", true, .complex64)])
        (.ptrv (.strukt [("C", true, .complex64)]) (some (.struktv [.complexv 7])))
        "(1+2i)" =
        some (.ok (.ptrv (.strukt [("C", true, .complex64)])
          (some (.struktv [.complexv 7]))))) ∧
    (Value.StringM trivialFloatStrconv (fun _ => none)
        (newBoolValue (.ptr (.strukt [("B", true, .bool)])) [0] [("B", true, .bool)])
        (.ptrv (.strukt [("B", true, .bool)]) (some (.struktv [.boolv true]))) = some "true" ∧
      Value.SetM trivialFloatStrconv (fun _ _ => none)
        (newBoolValue (.ptr (.strukt [("B", true, .bool)])) [0] [("B", true, .bool)])
        (.ptrv (.strukt [("B", true, .bool)]) (some (.struktv [.boolv true]))) "true" =
        some (.ok (.ptrv (.strukt [("B", true, .bool)]) (some (.struktv [.boolv true]))))) ∧
    (Value.StringM trivialFloatStrconv (fun _ => none)
        (newStringValue (.ptr (.strukt [("S", true, .str)])) [0] [("S", true, .str)])
        (.ptrv (.strukt [("S", true, .str)]) (some (.struktv [.strv "x"]))) = some "x" ∧
      Value.SetM trivialFloatStrconv (fun _ _ => none)
        (newStringValue (.ptr (.strukt [("S", true, .str)])) [0] [("S", true, .str)])
        (.ptrv (.strukt [("S", true, .str)]) (some (.struktv [.strv "x"]))) "x" =
        some (.ok (.ptrv (.strukt [("S", true, .str)]) (some (.struktv [.strv "x"]))))) ∧
    (Value.StringM trivialFloatStrconv (fun _ => none)
        (newBytesValue (.ptr (.strukt [("D", true, .slice .uint8)])) [0]
          [("D", true, .slice .uint8)])
        (.ptrv (.strukt [("D", true, .slice .uint8)])
          (some (.struktv [.slicev .uint8 false [.uintv 1, .uintv 2]]))) = some "AQI=" ∧
      Value.SetM trivialFloatStrconv (fun _ _ => none)
        (newBytesValue (.ptr (.strukt [("D", true, .slice .uint8)])) [0]
          [("D", true, .slice .uint8)])
        (.ptrv (.strukt [("D", true, .slice .uint8)])
          (some (.struktv [.slicev .uint8 false [.uintv 1, .uintv 2]]))) "AQI=" =
        some (.ok (.ptrv (.strukt [("D", true, .slice .uint8)])
          (some (.struktv [.slicev .uint8 false [.uintv 1, .uintv 2]]))))) := by
  refine ⟨⟨?_, ?_⟩, ⟨?_, ?_⟩, ⟨?_, ?_⟩, ⟨?_, ?_⟩, ⟨?_, ?_⟩, ⟨?_, ?_⟩, ⟨?_, ?_⟩⟩
  · exact (c5_scalar_round_trip.1 trivialFloatStrconv (fun _ => none) (fun _ _ => none)
      (newInt64Value (.ptr (.strukt [("N", true, .int64)])) [0] [("N", true, .int64)])
      (.ptrv (.strukt [("N", true, .int64)]) (some (.struktv [.intv (-5)])))
      [.deref, .field 0] (-5) 64 rfl rfl (by simp) rfl).1
  · exact (c5_scalar_round_trip.1 trivialFloatStrconv (fun _ => none) (fun _ _ => none)
      (newInt64Value (.ptr (.strukt [("N", true, .int64)])) [0] [("N", true, .int64)])
      (.ptrv (.strukt [("N", true, .int64)]) (some (.struktv [.intv (-5)])))
      [.deref, .field 0] (-5) 64 rfl rfl (by simp) rfl).2
      (by decide) (by decide) (by decide)
  · exact (c5_scalar_round_trip.2.1 trivialFloatStrconv (fun _ => none) (fun _ _ => none)
      (newUint8Value (.ptr (.strukt [("N", true, .uint8)])) [0] [("N", true, .uint8)])
      (.ptrv (.strukt [("N", true, .uint8)]) (some (.struktv [.uintv 255])))
      [.deref, .field 0] 255 8 rfl rfl (by simp) rfl).1
  · exact (c5_scalar_round_trip.2.1 trivialFloatStrconv (fun _ => none) (fun _ _ => none)
      (newUint8Value (.ptr (.strukt [("N", true, .uint8)])) [0] [("N", true, .uint8)])
      (.ptrv (.strukt [("N", true, .uint8)]) (some (.struktv [.uintv 255])))
      [.deref, .field 0] 255 8 rfl rfl (by simp) rfl).2 (by decide) (by decide)
  · exact (c5_scalar_round_trip.2.2.1
      ⟨fun _ _ => "9.9", fun _ _ => .ok 99, fun _ _ => "(1+2i)", fun _ _ => .ok 7,
        fun _ => false, fun _ => false⟩ (fun _ => none) (fun _ _ => none)
      (newFloat32Value (.ptr (.strukt [("F", true, .float32)])) [0] [("F", true, .float32)])
      (.ptrv (.strukt [("F", true, .float32)]) (some (.struktv [.floatv 99])))
      [.deref, .field 0] 99 32 rfl rfl (by simp) rfl).1
  · exact (c5_scalar_round_trip.2.2.1
      ⟨fun _ _ => "9.9", fun _ _ => .ok 99, fun _ _ => "(1+2i)", fun _ _ => .ok 7,
        fun _ => false, fun _ => false⟩ (fun _ => none) (fun _ _ => none)
      (newFloat32Value (.ptr (.strukt [("F", true, .float32)])) [0] [("F", true, .float32)])
      (.ptrv (.strukt [("F", true, .float32)]) (some (.struktv [.floatv 99])))
      [.deref, .field 0] 99 32 rfl rfl (by simp) rfl).2 rfl
  · exact (c5_scalar_round_trip.2.2.2.1
      ⟨fun _ _ => "9.9", fun _ _ => .ok 99, fun _ _ => "(1+2i)", fun _ _ => .ok 7,
        fun _ => false, fun _ => false⟩ (fun _ => none) (fun _ _ => none)
      (newComplex64Value (.ptr (.strukt [("C", true, .complex64)])) [0]
        [("C", true, .complex64)])
      (.ptrv (.strukt [("C", true, .complex64)]) (some (.struktv [.complexv 7])))
      [.deref, .field 0] 7 64 rfl rfl (by simp) rfl).1
  · exact (c5_scalar_round_trip.2.2.2.1
      ⟨fun _ _ => "9.9", fun _ _ => .ok 99, fun _ _ => "(1+2i)", fun _ _ => .ok 7,
        fun _ => false, fun _ => false⟩ (fun _ => none) (fun _ _ => none)
      (newComplex64Value (.ptr (.strukt [("C", true, .complex64)])) [0]
        [("C", true, .complex64)])
      (.ptrv (.strukt [("C", true, .complex64)]) (some (.struktv [.complexv 7])))
      [.deref, .field 0] 7 64 rfl rfl (by simp) rfl).2 rfl
  · exact (c5_scalar_round_trip.2.2.2.2.1 trivialFloatStrconv (fun _ => none) (fun _ _ => none)
      (newBoolValue (.ptr (.strukt [("B", true, .bool)])) [0] [("B", true, .bool)])
      (.ptrv (.strukt [("B", true, .bool)]) (some (.struktv [.boolv true])))
      [.deref, .field 0] true rfl rfl (by simp) rfl).1
  · exact (c5_scalar_round_trip.2.2.2.2.1 trivialFloatStrconv (fun _ => none) (fun _ _ => none)
      (newBoolValue (.ptr (.strukt [("B", true, .bool)])) [0] [("B", true, .bool)])
      (.ptrv (.strukt [("B", true, .bool)]) (some (.struktv [.boolv true])))
      [.deref, .field 0] true rfl rfl (by simp) rfl).2 rfl
  · exact (c5_scalar_round_trip.2.2.2.2.2.1 trivialFloatStrconv (fun _ => none)
      (fun _ _ => none)
      (newStringValue (.ptr (.strukt [("S", true, .str)])) [0] [("S", true, .str)])
      (.ptrv (.strukt [("S", true, .str)]) (some (.struktv [.strv "x"])))
      [.deref, .field 0] "x" rfl rfl (by simp) rfl).1
  · exact (c5_scalar_round_trip.2.2.2.2.2.1 trivialFloatStrconv (fun _ => none)
      (fun _ _ => none)
      (newStringValue (.ptr (.strukt [("S", true, .str)])) [0] [("S", true, .str)])
      (.ptrv (.strukt [("S", true, .str)]) (some (.struktv [.strv "x"])))
      [.deref, .field 0] "x" rfl rfl (by simp) rfl).2
  · exact (c5_scalar_round_trip.2.2.2.2.2.2 trivialFloatStrconv (fun _ => none)
      (fun _ _ => none)
      (newBytesValue (.ptr (.strukt [("D", true, .slice .uint8)])) [0]
        [("D", true, .slice .uint8)])
      (.ptrv (.strukt [("D", true, .slice .uint8)])
        (some (.struktv [.slicev .uint8 false [.uintv 1, .uintv 2]])))
      [.deref, .field 0] [1, 2] rfl rfl (by simp) rfl (by decide)).1
  · exact (c5_scalar_round_trip.2.2.2.2.2.2 trivialFloatStrconv (fun _ => none)
      (fun _ _ => none)
      (newBytesValue (.ptr (.strukt [("D", true, .slice .uint8)])) [0]
        [("D", true, .slice .uint8)])
      (.ptrv (.strukt [("D", true, .slice .uint8)])
        (some (.struktv [.slicev .uint8 false [.uintv 1, .uintv 2]])))
      [.deref, .field 0] [1, 2] rfl rfl (by simp) rfl (by decide)).2 (by decide)

/-- A node is built exactly for the focus kinds the specification lists
as supported. -/
theorem newValue_isSome_iff (bt : GoType) (idx : List Nat) (fields : List GoField) :
    (newValue bt idx fields).isSome = specSupported (focusType bt fields) := by
  unfold newValue specSupported
  dsimp only
  cases h : elemIfPtrType (focusType bt fields) with
  | slice e =>
    unfold newSliceValue
    dsimp only
    cases h2 : elemIfPtrType e with
    | uint8 => cases e <;> rfl
    | slice e2 => cases e2 <;> rfl
    | bool => rfl
    | int => rfl
    | int8 => rfl
    | int16 => rfl
    | int32 => rfl
    | int64 => rfl
    | uint => rfl
    | uint16 => rfl
    | uint32 => rfl
    | uint64 => rfl
    | float32 => rfl
    | float64 => rfl
    | complex64 => rfl
    | complex128 => rfl
    | str => rfl
    | gomap kt vt => rfl
    | strukt fs => rfl
    | ptr e2 => rfl
    | unsupported => rfl
  | bool => rfl
  | int => rfl
  | int8 => rfl
  | int16 => rfl
  | int32 => rfl
  | int64 => rfl
  | uint => rfl
  | uint8 => rfl
  | uint16 => rfl
  | uint32 => rfl
  | uint64 => rfl
  | float32 => rfl
  | float64 => rfl
  | complex64 => rfl
  | complex128 => rfl
  | str => rfl
  | gomap kt vt => rfl
  | strukt fs => rfl
  | ptr e => rfl
  | unsupported => rfl

/-- A member of the spec-side field walk comes from some exported field,
at its declaration index. -/
theorem mem_specPreorderFields (fs : List GoField) (idx : List Nat) (i : Nat) (q : List Nat)
    (hq : q ∈ specPreorderFields fs idx i) :
    ∃ j f, fs.get? j = some f ∧ fieldExported f = true ∧
      q ∈ specPreorderPaths (fieldTy f) (idx ++ [i + j]) := by
  induction fs generalizing i with
  | nil => simp [specPreorderFields] at hq
  | cons f rest ih =>
    rw [specPreorderFields] at hq
    rcases List.mem_append.mp hq with hq1 | hq2
    · by_cases he : fieldExported f
      · exact ⟨0, f, rfl, by simpa using he, by simpa [he] using hq1⟩
      · simp [he] at hq1
    · rcases ih (i + 1) hq2 with ⟨j, f', hj, he, hmem⟩
      refine ⟨j + 1, f', by simpa using hj, he, ?_⟩
      have : i + (j + 1) = i + 1 + j := by omega
      rw [this]
      exact hmem

/-- Every path in the spec-side pre-order extends the accumulated path
and addresses only exported fields from there on. -/
theorem specPreorderPaths_exported (t : GoType) :
    ∀ (idx : List Nat) (q : List Nat), q ∈ specPreorderPaths t idx →
      ∃ suffix, q = idx ++ suffix ∧ exportedPath t suffix = true := by
  intro idx q hq
  rw [specPreorderPaths.eq_def] at hq
  rcases List.mem_append.mp hq with hq1 | hq2
  · refine ⟨[], ?_, rfl⟩
    by_cases hs : specSupported t
    · rw [if_pos hs] at hq1
      simpa using hq1
    · rw [if_neg hs] at hq1
      simp at hq1
  · have hstep : ∃ fs, (t = .strukt fs ∨ t = .ptr (.strukt fs)) ∧
        q ∈ specPreorderFields fs idx 0 := by
      cases t with
      | strukt fs => exact ⟨fs, Or.inl rfl, hq2⟩
      | ptr e =>
        cases e with
        | strukt fs => exact ⟨fs, Or.inr rfl, hq2⟩
        | bool => simp at hq2
        | int => simp at hq2
        | int8 => simp at hq2
        | int16 => simp at hq2
        | int32 => simp at hq2
        | int64 => simp at hq2
        | uint => simp at hq2
        | uint8 => simp at hq2
        | uint16 => simp at hq2
        | uint32 => simp at hq2
        | uint64 => simp at hq2
        | float32 => simp at hq2
        | float64 => simp at hq2
        | complex64 => simp at hq2
        | complex128 => simp at hq2
        | str => simp at hq2
        | gomap kt vt => simp at hq2
        | slice e2 => simp at hq2
        | ptr e2 => simp at hq2
        | unsupported => simp at hq2
      | bool => simp at hq2
      | int => simp at hq2
      | int8 => simp at hq2
      | int16 => simp at hq2
      | int32 => simp at hq2
      | int64 => simp at hq2
      | uint => simp at hq2
      | uint8 => simp at hq2
      | uint16 => simp at hq2
      | uint32 => simp at hq2
      | uint64 => simp at hq2
      | float32 => simp at hq2
      | float64 => simp at hq2
      | complex64 => simp at hq2
      | complex128 => simp at hq2
      | str => simp at hq2
      | gomap kt vt => simp at hq2
      | slice e => simp at hq2
      | unsupported => simp at hq2
    obtain ⟨fs, ht, hmemf⟩ := hstep
    obtain ⟨j, f, hj, he, hmem⟩ := mem_specPreorderFields fs idx 0 q hmemf
    obtain ⟨suffix, rfl, hexp⟩ := specPreorderPaths_exported (fieldTy f) (idx ++ [0 + j]) q hmem
    refine ⟨(0 + j) :: suffix, by simp, ?_⟩
    rcases ht with rfl | rfl <;>
      · rw [exportedPath]
        simp only [elemIfPtrType]
        rw [show (0 + j) = j from Nat.zero_add j, hj]
        simp [he, hexp]
termination_by sizeOf t
decreasing_by
  rcases ht with rfl | rfl <;>
    (have hsz := sizeOf_fieldTy_lt fs j f hj; simp; omega)

/-- With no filters installed, the traversal's paths are exactly the
spec-side pre-order: own node first (when its kind is supported), then
each exported field's subtree in declaration order. -/
theorem recursive_nil_filters_eq (bt : GoType) (t : GoType) (idx : List Nat)
    (fields : List GoField) (hft : focusType bt fields = t) :
    (recursiveAux bt t idx fields []).map Value.fieldsIndexes = specPreorderPaths t idx := by
  have hrecfields : ∀ fs, (t = .strukt fs ∨ t = .ptr (.strukt fs)) →
      ∀ (fsub : List GoField), (∀ f ∈ fsub, f ∈ fs) → ∀ i,
        (recursiveFields bt idx fields [] fsub i).map Value.fieldsIndexes =
          specPreorderFields fsub idx i := by
    intro fs ht fsub
    induction fsub with
    | nil => intro _ i; rfl
    | cons f rest ih =>
      intro hsubset i
      have hf : f ∈ fs := hsubset f (List.mem_cons_self f rest)
      rw [recursiveFields, specPreorderFields, List.map_append]
      congr 1
      · by_cases he : fieldExported f
        · rw [if_pos he, if_pos he]
          exact recursive_nil_filters_eq bt (fieldTy f) (idx ++ [i]) (fields ++ [f])
            (focusType_append bt fields f)
        · rw [if_neg he, if_neg he]; rfl
      · exact ih (fun g hg => hsubset g (List.mem_cons_of_mem f hg)) (i + 1)
  cases hval : newValue bt idx fields with
  | none =>
    have hsupp : specSupported t = false := by
      have h := newValue_isSome_iff bt idx fields
      rw [hval, hft] at h
      exact h.symm
    rw [recursiveAux.eq_def]
    rw [if_pos (show Filter (newValue bt idx fields) [] &&& noDescendMask ≠ 0 from by
      rw [hval, show Filter (none : Option Value) [] = 3 from rfl]; decide)]
    rw [if_neg (show ¬(Filter (newValue bt idx fields) [] &&& skipMask = 0) from by
      rw [hval, show Filter (none : Option Value) [] = 3 from rfl]; decide)]
    rw [List.map_nil]
    cases t with
    | strukt fs => simp [specSupported, elemIfPtrType] at hsupp
    | ptr e =>
      cases e with
      | strukt fs => simp [specSupported, elemIfPtrType] at hsupp
      | bool => simp [specPreorderPaths, hsupp]
      | int => simp [specPreorderPaths, hsupp]
      | int8 => simp [specPreorderPaths, hsupp]
      | int16 => simp [specPreorderPaths, hsupp]
      | int32 => simp [specPreorderPaths, hsupp]
      | int64 => simp [specPreorderPaths, hsupp]
      | uint => simp [specPreorderPaths, hsupp]
      | uint8 => simp [specPreorderPaths, hsupp]
      | uint16 => simp [specPreorderPaths, hsupp]
      | uint32 => simp [specPreorderPaths, hsupp]
      | uint64 => simp [specPreorderPaths, hsupp]
      | float32 => simp [specPreorderPaths, hsupp]
      | float64 => simp [specPreorderPaths, hsupp]
      | complex64 => simp [specPreorderPaths, hsupp]
      | complex128 => simp [specPreorderPaths, hsupp]
      | str => simp [specPreorderPaths, hsupp]
      | gomap kt vt => simp [specPreorderPaths, hsupp]
      | slice e2 => simp [specPreorderPaths, hsupp]
      | ptr e2 => simp [specPreorderPaths, hsupp]
      | unsupported => simp [specPreorderPaths, hsupp]
    | bool => simp [specPreorderPaths, hsupp]
    | int => simp [specPreorderPaths, hsupp]
    | int8 => simp [specPreorderPaths, hsupp]
    | int16 => simp [specPreorderPaths, hsupp]
    | int32 => simp [specPreorderPaths, hsupp]
    | int64 => simp [specPreorderPaths, hsupp]
    | uint => simp [specPreorderPaths, hsupp]
    | uint8 => simp [specPreorderPaths, hsupp]
    | uint16 => simp [specPreorderPaths, hsupp]
    | uint32 => simp [specPreorderPaths, hsupp]
    | uint64 => simp [specPreorderPaths, hsupp]
    | float32 => simp [specPreorderPaths, hsupp]
    | float64 => simp [specPreorderPaths, hsupp]
    | complex64 => simp [specPreorderPaths, hsupp]
    | complex128 => simp [specPreorderPaths, hsupp]
    | str => simp [specPreorderPaths, hsupp]
    | gomap kt vt => simp [specPreorderPaths, hsupp]
    | slice e => simp [specPreorderPaths, hsupp]
    | unsupported => simp [specPreorderPaths, hsupp]
  | some v =>
    have hsupp : specSupported t = true := by
      have h := newValue_isSome_iff bt idx fields
      rw [hval, hft] at h
      exact h.symm
    obtain ⟨hb, hidx, hflds⟩ := newValue_some_proj bt idx fields v hval
    rw [recursiveAux.eq_def]
    rw [if_neg (show ¬(Filter (newValue bt idx fields) [] &&& noDescendMask ≠ 0) from by
      rw [hval, show Filter (some v) [] = 0 from rfl]; decide)]
    rw [if_pos (show Filter (newValue bt idx fields) [] &&& skipMask = 0 from by
      rw [hval, show Filter (some v) [] = 0 from rfl]; decide)]
    rw [hval]
    cases t with
    | strukt fs =>
      rw [specPreorderPaths, if_pos (by rw [hsupp])]
      show ([v] ++ recursiveFields bt idx fields [] fs 0).map Value.fieldsIndexes =
        [idx] ++ specPreorderFields fs idx 0
      rw [List.map_append]
      congr 1
      · simp [hidx]
      · exact hrecfields fs (Or.inl rfl) fs (fun _ h => h) 0
    | ptr e =>
      cases e with
      | strukt fs =>
        rw [specPreorderPaths, if_pos (by rw [hsupp])]
        show ([v] ++ recursiveFields bt idx fields [] fs 0).map Value.fieldsIndexes =
          [idx] ++ specPreorderFields fs idx 0
        rw [List.map_append]
        congr 1
        · simp [hidx]
        · exact hrecfields fs (Or.inr rfl) fs (fun _ h => h) 0
      | bool => simp [specPreorderPaths, hsupp, hidx]
      | int => simp [specPreorderPaths, hsupp, hidx]
      | int8 => simp [specPreorderPaths, hsupp, hidx]
      | int16 => simp [specPreorderPaths, hsupp, hidx]
      | int32 => simp [specPreorderPaths, hsupp, hidx]
      | int64 => simp [specPreorderPaths, hsupp, hidx]
      | uint => simp [specPreorderPaths, hsupp, hidx]
      | uint8 => simp [specPreorderPaths, hsupp, hidx]
      | uint16 => simp [specPreorderPaths, hsupp, hidx]
      | uint32 => simp [specPreorderPaths, hsupp, hidx]
      | uint64 => simp [specPreorderPaths, hsupp, hidx]
      | float32 => simp [specPreorderPaths, hsupp, hidx]
      | float64 => simp [specPreorderPaths, hsupp, hidx]
      | complex64 => simp [specPreorderPaths, hsupp, hidx]
      | complex128 => simp [specPreorderPaths, hsupp, hidx]
      | str => simp [specPreorderPaths, hsupp, hidx]
      | gomap kt vt => simp [specPreorderPaths, hsupp, hidx]
      | slice e2 => simp [specPreorderPaths, hsupp, hidx]
      | ptr e2 => simp [specPreorderPaths, hsupp, hidx]
      | unsupported => simp [specPreorderPaths, hsupp, hidx]
    | bool => simp [specPreorderPaths, hsupp, hidx]
    | int => simp [specPreorderPaths, hsupp, hidx]
    | int8 => simp [specPreorderPaths, hsupp, hidx]
    | int16 => simp [specPreorderPaths, hsupp, hidx]
    | int32 => simp [specPreorderPaths, hsupp, hidx]
    | int64 => simp [specPreorderPaths, hsupp, hidx]
    | uint => simp [specPreorderPaths, hsupp, hidx]
    | uint8 => simp [specPreorderPaths, hsupp, hidx]
    | uint16 => simp [specPreorderPaths, hsupp, hidx]
    | uint32 => simp [specPreorderPaths, hsupp, hidx]
    | uint64 => simp [specPreorderPaths, hsupp, hidx]
    | float32 => simp [specPreorderPaths, hsupp, hidx]
    | float64 => simp [specPreorderPaths, hsupp, hidx]
    | complex64 => simp [specPreorderPaths, hsupp, hidx]
    | complex128 => simp [specPreorderPaths, hsupp, hidx]
    | str => simp [specPreorderPaths, hsupp, hidx]
    | gomap kt vt => simp [specPreorderPaths, hsupp, hidx]
    | slice e => simp [specPreorderPaths, hsupp, hidx]
    | unsupported => simp [specPreorderPaths, hsupp, hidx]
termination_by sizeOf t
decreasing_by
  rcases ht with rfl | rfl <;>
    (obtain ⟨j, hj⟩ := List.get?_of_mem hf
     have hsz := sizeOf_fieldTy_lt fs j f hj
     simp
     omega)

/-- Under an arbitrary filter chain the traversal's paths form a sublist
of the spec-side pre-order: filters can only drop positions, never
reorder them. -/
theorem recursiveAux_sublist_spec (filters : List FilterFunc) (bt t : GoType) (idx : List Nat)
    (fields : List GoField) (hft : focusType bt fields = t) :
    ((recursiveAux bt t idx fields filters).map Value.fieldsIndexes).Sublist
      (specPreorderPaths t idx) := by
  have hrecfields : ∀ fs, (t = .strukt fs ∨ t = .ptr (.strukt fs)) →
      ∀ (fsub : List GoField), (∀ f ∈ fsub, f ∈ fs) → ∀ i,
        ((recursiveFields bt idx fields filters fsub i).map Value.fieldsIndexes).Sublist
          (specPreorderFields fsub idx i) := by
    intro fs ht fsub
    induction fsub with
    | nil => intro _ i; simp [recursiveFields, specPreorderFields]
    | cons f rest ih =>
      intro hsubset i
      have hf : f ∈ fs := hsubset f (List.mem_cons_self f rest)
      rw [recursiveFields, specPreorderFields, List.map_append]
      refine List.Sublist.append ?_
        (ih (fun g hg => hsubset g (List.mem_cons_of_mem f hg)) (i + 1))
      by_cases he : fieldExported f
      · rw [if_pos he, if_pos he]
        exact recursiveAux_sublist_spec filters bt (fieldTy f) (idx ++ [i]) (fields ++ [f])
          (focusType_append bt fields f)
      · rw [if_neg he, if_neg he]
        simp
  cases hval : newValue bt idx fields with
  | none =>
    rw [recursiveAux.eq_def]
    rw [if_pos (show Filter (newValue bt idx fields) filters &&& noDescendMask ≠ 0 from by
      rw [hval, show Filter (none : Option Value) filters = 3 from rfl]; decide)]
    rw [if_neg (show ¬(Filter (newValue bt idx fields) filters &&& skipMask = 0) from by
      rw [hval, show Filter (none : Option Value) filters = 3 from rfl]; decide)]
    simp
  | some v =>
    obtain ⟨hb, hidx, hflds⟩ := newValue_some_proj bt idx fields v hval
    have hsupp : specSupported t = true := by
      have h := newValue_isSome_iff bt idx fields
      rw [hval, hft] at h
      exact h.symm
    rw [recursiveAux.eq_def]
    have hvals : ((if Filter (newValue bt idx fields) filters &&& skipMask = 0 then
        (match newValue bt idx fields with | some w => [w] | none => ([] : List Value))
        else []).map Value.fieldsIndexes).Sublist [idx] := by
      by_cases hskip : Filter (newValue bt idx fields) filters &&& skipMask = 0
      · rw [if_pos hskip, hval]
        have hm : ((match some v with | some w => [w] | none => ([] : List Value)).map
            Value.fieldsIndexes) = [idx] := by simp [hidx]
        rw [hm]
      · rw [if_neg hskip]
        simp
    by_cases hnd : Filter (newValue bt idx fields) filters &&& noDescendMask ≠ 0
    · rw [if_pos hnd]
      rw [specPreorderPaths.eq_def, if_pos hsupp]
      exact List.Sublist.trans hvals (List.sublist_append_left [idx] _)
    · rw [if_neg hnd]
      cases t with
      | strukt fs =>
        show (((if Filter (newValue bt idx fields) filters &&& skipMask = 0 then
            (match newValue bt idx fields with | some w => [w] | none => ([] : List Value))
            else []) ++ recursiveFields bt idx fields filters fs 0).map
          Value.fieldsIndexes).Sublist (specPreorderPaths (GoType.strukt fs) idx)
        rw [List.map_append, specPreorderPaths, if_pos hsupp]
        exact List.Sublist.append hvals (hrecfields fs (Or.inl rfl) fs (fun _ h => h) 0)
      | ptr e =>
        cases e with
        | strukt fs =>
          show (((if Filter (newValue bt idx fields) filters &&& skipMask = 0 then
              (match newValue bt idx fields with | some w => [w] | none => ([] : List Value))
              else []) ++ recursiveFields bt idx fields filters fs 0).map
            Value.fieldsIndexes).Sublist (specPreorderPaths (GoType.ptr (GoType.strukt fs)) idx)
          rw [List.map_append, specPreorderPaths, if_pos hsupp]
          exact List.Sublist.append hvals (hrecfields fs (Or.inr rfl) fs (fun _ h => h) 0)
        | bool =>
          rw [specPreorderPaths.eq_def, if_pos hsupp]
          exact List.Sublist.trans hvals (List.sublist_append_left [idx] _)
        | int =>
          rw [specPreorderPaths.eq_def, if_pos hsupp]
          exact List.Sublist.trans hvals (List.sublist_append_left [idx] _)
        | int8 =>
          rw [specPreorderPaths.eq_def, if_pos hsupp]
          exact List.Sublist.trans hvals (List.sublist_append_left [idx] _)
        | int16 =>
          rw [specPreorderPaths.eq_def, if_pos hsupp]
          exact List.Sublist.trans hvals (List.sublist_append_left [idx] _)
        | int32 =>
          rw [specPreorderPaths.eq_def, if_pos hsupp]
          exact List.Sublist.trans hvals (List.sublist_append_left [idx] _)
        | int64 =>
          rw [specPreorderPaths.eq_def, if_pos hsupp]
          exact List.Sublist.trans hvals (List.sublist_append_left [idx] _)
        | uint =>
          rw [specPreorderPaths.eq_def, if_pos hsupp]
          exact List.Sublist.trans hvals (List.sublist_append_left [idx] _)
        | uint8 =>
          rw [specPreorderPaths.eq_def, if_pos hsupp]
          exact List.Sublist.trans hvals (List.sublist_append_left [idx] _)
        | uint16 =>
          rw [specPreorderPaths.eq_def, if_pos hsupp]
          exact List.Sublist.trans hvals (List.sublist_append_left [idx] _)
        | uint32 =>
          rw [specPreorderPaths.eq_def, if_pos hsupp]
          exact List.Sublist.trans hvals (List.sublist_append_left [idx] _)
        | uint64 =>
          rw [specPreorderPaths.eq_def, if_pos hsupp]
          exact List.Sublist.trans hvals (List.sublist_append_left [idx] _)
        | float32 =>
          rw [specPreorderPaths.eq_def, if_pos hsupp]
          exact List.Sublist.trans hvals (List.sublist_append_left [idx] _)
        | float64 =>
          rw [specPreorderPaths.eq_def, if_pos hsupp]
          exact List.Sublist.trans hvals (List.sublist_append_left [idx] _)
        | complex64 =>
          rw [specPreorderPaths.eq_def, if_pos hsupp]
          exact List.Sublist.trans hvals (List.sublist_append_left [idx] _)
        | complex128 =>
          rw [specPreorderPaths.eq_def, if_pos hsupp]
          exact List.Sublist.trans hvals (List.sublist_append_left [idx] _)
        | str =>
          rw [specPreorderPaths.eq_def, if_pos hsupp]
          exact List.Sublist.trans hvals (List.sublist_append_left [idx] _)
        | unsupported =>
          rw [specPreorderPaths.eq_def, if_pos hsupp]
          exact List.Sublist.trans hvals (List.sublist_append_left [idx] _)
        | slice e2 =>
          rw [specPreorderPaths.eq_def, if_pos hsupp]
          exact List.Sublist.trans hvals (List.sublist_append_left [idx] _)
        | gomap kt vt =>
          rw [specPreorderPaths.eq_def, if_pos hsupp]
          exact List.Sublist.trans hvals (List.sublist_append_left [idx] _)
        | ptr e2 =>
          rw [specPreorderPaths.eq_def, if_pos hsupp]
          exact List.Sublist.trans hvals (List.sublist_append_left [idx] _)
      | bool =>
        rw [specPreorderPaths.eq_def, if_pos hsupp]
        exact List.Sublist.trans hvals (List.sublist_append_left [idx] _)
      | int =>
        rw [specPreorderPaths.eq_def, if_pos hsupp]
        exact List.Sublist.trans hvals (List.sublist_append_left [idx] _)
      | int8 =>
        rw [specPreorderPaths.eq_def, if_pos hsupp]
        exact List.Sublist.trans hvals (List.sublist_append_left [idx] _)
      | int16 =>
        rw [specPreorderPaths.eq_def, if_pos hsupp]
        exact List.Sublist.trans hvals (List.sublist_append_left [idx] _)
      | int32 =>
        rw [specPreorderPaths.eq_def, if_pos hsupp]
        exact List.Sublist.trans hvals (List.sublist_append_left [idx] _)
      | int64 =>
        rw [specPreorderPaths.eq_def, if_pos hsupp]
        exact List.Sublist.trans hvals (List.sublist_append_left [idx] _)
      | uint =>
        rw [specPreorderPaths.eq_def, if_pos hsupp]
        exact List.Sublist.trans hvals (List.sublist_append_left [idx] _)
      | uint8 =>
        rw [specPreorderPaths.eq_def, if_pos hsupp]
        exact List.Sublist.trans hvals (List.sublist_append_left [idx] _)
      | uint16 =>
        rw [specPreorderPaths.eq_def, if_pos hsupp]
        exact List.Sublist.trans hvals (List.sublist_append_left [idx] _)
      | uint32 =>
        rw [specPreorderPaths.eq_def, if_pos hsupp]
        exact List.Sublist.trans hvals (List.sublist_append_left [idx] _)
      | uint64 =>
        rw [specPreorderPaths.eq_def, if_pos hsupp]
        exact List.Sublist.trans hvals (List.sublist_append_left [idx] _)
      | float32 =>
        rw [specPreorderPaths.eq_def, if_pos hsupp]
        exact List.Sublist.trans hvals (List.sublist_append_left [idx] _)
      | float64 =>
        rw [specPreorderPaths.eq_def, if_pos hsupp]
        exact List.Sublist.trans hvals (List.sublist_append_left [idx] _)
      | complex64 =>
        rw [specPreorderPaths.eq_def, if_pos hsupp]
        exact List.Sublist.trans hvals (List.sublist_append_left [idx] _)
      | complex128 =>
        rw [specPreorderPaths.eq_def, if_pos hsupp]
        exact List.Sublist.trans hvals (List.sublist_append_left [idx] _)
      | str =>
        rw [specPreorderPaths.eq_def, if_pos hsupp]
        exact List.Sublist.trans hvals (List.sublist_append_left [idx] _)
      | unsupported =>
        rw [specPreorderPaths.eq_def, if_pos hsupp]
        exact List.Sublist.trans hvals (List.sublist_append_left [idx] _)
      | slice e =>
        rw [specPreorderPaths.eq_def, if_pos hsupp]
        exact List.Sublist.trans hvals (List.sublist_append_left [idx] _)
      | gomap kt vt =>
        rw [specPreorderPaths.eq_def, if_pos hsupp]
        exact List.Sublist.trans hvals (List.sublist_append_left [idx] _)
termination_by sizeOf t
decreasing_by
  rcases ht with rfl | rfl <;>
    (obtain ⟨j, hj⟩ := List.get?_of_mem hf
     have hsz := sizeOf_fieldTy_lt fs j f hj
     simp
     omega)

/-- C7: `Recursive` visits positions in pre-order.  For every root value
and filter chain the returned nodes' index paths form a sublist of the
spec-side pre-order list (own node before all descendants, exported
fields in declaration order), every returned path addresses only exported
fields regardless of filters, and with no filters the paths are exactly
the spec-side pre-order. -/
theorem c7_preorder_traversal :
    (∀ (et : GoType) (x : GoVal) (filters : List FilterFunc),
      ((Recursive (some (.ptrv et (some x))) filters).map Value.fieldsIndexes).Sublist
        (specPreorderPaths (.ptr et) [])) ∧
    (∀ (et : GoType) (x : GoVal) (filters : List FilterFunc) (v : Value),
      v ∈ Recursive (some (.ptrv et (some x))) filters →
      exportedPath (.ptr et) v.fieldsIndexes = true) ∧
    (∀ (et : GoType) (x : GoVal),
      (Recursive (some (.ptrv et (some x))) []).map Value.fieldsIndexes =
        specPreorderPaths (.ptr et) []) := by
  refine ⟨?_, ?_, ?_⟩
  · intro et x filters
    exact recursiveAux_sublist_spec filters (.ptr et) (.ptr et) [] [] rfl
  · intro et x filters v hv
    have hsub := recursiveAux_sublist_spec filters (.ptr et) (.ptr et) [] [] rfl
    have hmem : v.fieldsIndexes ∈
        (Recursive (some (.ptrv et (some x))) filters).map Value.fieldsIndexes :=
      List.mem_map_of_mem Value.fieldsIndexes hv
    have hmem2 : v.fieldsIndexes ∈ specPreorderPaths (.ptr et) [] := hsub.subset hmem
    obtain ⟨suffix, heq, hexp⟩ := specPreorderPaths_exported (.ptr et) [] v.fieldsIndexes hmem2
    rw [heq]
    simpa using hexp
  · intro et x
    exact recursive_nil_filters_eq (.ptr et) (.ptr et) [] [] rfl

/-- Closed witness for C7 on `*struct{A int; b string}` (`b` unexported):
the member node for field `A` addresses only exported fields, and the
unfiltered traversal yields exactly the root path then `A`'s path, the
unexported `b` never appearing. -/
theorem c7_preorder_traversal_witness :
    exportedPath (.ptr (.strukt [("A", true, .int), ("b", false, .str)]))
      (newIntValue (.ptr (.strukt [("A", true, .int), ("b", false, .str)])) [0]
        [("A", true, .int)]).fieldsIndexes = true ∧
    (Recursive (some (.ptrv (.strukt [("A", true, .int), ("b", false, .str)])
        (some (.struktv [.intv 0, .strv ""])))) []).map Value.fieldsIndexes = [[], [0]] := by
  constructor
  · exact c7_preorder_traversal.2.1 (.strukt [("A", true, .int), ("b", false, .str)])
      (.struktv [.intv 0, .strv ""]) []
      (newIntValue (.ptr (.strukt [("A", true, .int), ("b", false, .str)])) [0]
        [("A", true, .int)])
      (List.mem_cons_of_mem _ (List.mem_cons_self _ _))
  · exact (c7_preorder_traversal.2.2 (.strukt [("A", true, .int), ("b", false, .str)])
      (.struktv [.intv 0, .strv ""])).trans rfl

end Jsonflag
